import Mathlib

/-!
# Hardware resources arbiter library (`sdk/lib/drivers/arbiter/arbiter.c`)

A shallow embedding of the ordering list, of the loader of the persisted
assignment ordering, of the arbiter instance initialisation and of the
functions of the allocation transaction, together with theorems about them.

Four further namespaces embed functions of the interrupt and bus code around
the arbiter: `Iop` (MSI vector allocation, `ntoskrnl/io/iomgr/msii.c`), `Hal`
(capability search and MSI programming, `hal/halx86/generic/msi.c`), `Pci` (BAR
sizing, capability detection and extended configuration access,
`drivers/bus/pci/pdo.c`) and `Acpi` (device notifications,
`drivers/bus/acpi/interface.c`).  The definitions of all namespaces come first,
the theorems after them.

Conventions of the embedding.

* Machine integers are natural numbers; a C assignment that truncates is
  written with an explicit `% 2 ^ w`.
* The kernel pool is the explicit state `POOL`.  Whether a call of
  `ExAllocatePoolWithTag` returns a block or `NULL`, and what a fresh block
  holds, is not decided by the library; both are read from a `POOL_ORACLE`.
* A pointer is `Option`: `none` is `NULL`.  A block that is owned by exactly one
  pointer travels with that pointer (`ORDERING_BLOCK`).
* The C code checks no array bound.  An access that leaves the block it is
  aimed at sets the sticky flag `POOL.Corrupt`; the fields of the structures
  are still computed as the statements of the source compute them.
* `ASSERT` is compiled out of free builds; asserted conditions appear as
  hypotheses of theorems, not as behaviour.
* `PAGED_CODE`, `DPRINT` and `DPRINT1` have no effect on the modelled state.
* Spin locks are not state: the functions are taken one call at a time.  Where
  a claim is about the lock (`Acpi`), taking and releasing it are events of the
  call's trace, as are the accesses to the data the lock protects; what others
  do to memory once the lock is released is a parameter (`INTERFERENCE`).
* Accesses to PCI configuration space go through the HAL, which is not among
  the sources: a read gives the bytes at the offset, a write is an event.
-/

namespace Arbiter

/-! ## Status codes and constants of the NT headers

The headers that define them are not among the sources; the values are those
of the NT interface.  The theorems use of them only that `STATUS_SUCCESS` passes
`NT_SUCCESS`, that `STATUS_INSUFFICIENT_RESOURCES` does not, and that the resource
types are distinct. -/

abbrev NTSTATUS := Nat

def STATUS_SUCCESS : NTSTATUS := 0x00000000
def STATUS_NO_MORE_ENTRIES : NTSTATUS := 0x8000001A
def STATUS_NOT_IMPLEMENTED : NTSTATUS := 0xC0000002
def STATUS_BUFFER_TOO_SMALL : NTSTATUS := 0xC0000023
def STATUS_INSUFFICIENT_RESOURCES : NTSTATUS := 0xC000009A
def STATUS_UNSUCCESSFUL : NTSTATUS := 0xC0000001
def STATUS_INVALID_PARAMETER : NTSTATUS := 0xC000000D
def STATUS_INVALID_DEVICE_REQUEST : NTSTATUS := 0xC0000010

/-- The status `STATUS_NOT_SUPPORTED`; the source never returns it. -/
def STATUS_NOT_SUPPORTED : NTSTATUS := 0xC00000BB

/-- Modelled from the spec: the status of the spec's `Conflict` ("no candidate
range satisfies a Requirement's constraints"), which NT arbiters report as
`STATUS_CONFLICTING_ADDRESSES`; the source never returns it. -/
def STATUS_CONFLICTING_ADDRESSES : NTSTATUS := 0xC0000018

/-- The macro `NT_SUCCESS`: the status, read as a signed 32-bit integer, is not
negative. -/
def NT_SUCCESS (Status : NTSTATUS) : Bool := decide (Status < 0x80000000)

/-! ## The kernel pool -/

/-- An `ARBITER_ORDERING`: the closed interval `[Start, End]` of `UINT64`. -/
structure ARBITER_ORDERING where
  Start : Nat
  End : Nat
deriving DecidableEq, Repr

/-- What the library cannot decide about the pool: whether the `k`-th call of
`ExAllocatePoolWithTag` finds memory, and what the `i`-th entry of the block it
returns holds before anything is written to it. -/
structure POOL_ORACLE where
  Avail : Nat → Bool
  Fill : Nat → Nat → ARBITER_ORDERING

/-- The state of the kernel pool: the addresses of the blocks that are
allocated and not yet freed (most recent first), the number of allocation calls
made so far, and whether some access has left the block it was aimed at. -/
structure POOL where
  Live : List Nat
  Calls : Nat
  Corrupt : Bool
deriving DecidableEq, Repr

/-- The call `ExAllocatePoolWithTag`: `NULL` when the oracle has no memory for this
call, otherwise a block at an address not handed out before. -/
def ExAllocatePoolWithTag (o : POOL_ORACLE) (pool : POOL) : Option Nat × POOL :=
  if o.Avail pool.Calls then
    (some (pool.Calls + 1),
      { pool with Live := (pool.Calls + 1) :: pool.Live, Calls := pool.Calls + 1 })
  else
    (none, { pool with Calls := pool.Calls + 1 })

/-- The call `ExFreePoolWithTag`. -/
def ExFreePoolWithTag (P : Nat) (pool : POOL) : POOL :=
  { pool with Live := pool.Live.erase P }

/-! ## The ordering list -/

/-- A pool block used as an array of `ARBITER_ORDERING`: its address and its
entries, as many as the block was allocated for. -/
structure ORDERING_BLOCK where
  Address : Nat
  Cells : List ARBITER_ORDERING
deriving DecidableEq, Repr

/-- Modelled from the spec: the header `arbiter.h`, which declares
`ARBITER_ORDERING_LIST`, is not among the sources.  The spec gives the list a
count, a capacity and a backing array of orderings; `arbiter.c` names the fields
`Count`, `Maximum` and `Orderings` and moves `Count` and `Maximum` through
`UINT16` locals, so both are kept below `2 ^ 16`. -/
structure ARBITER_ORDERING_LIST where
  Count : Nat
  Maximum : Nat
  Orderings : Option ORDERING_BLOCK
deriving DecidableEq, Repr

/-- The block a fresh allocation of `n` entries at address `P` gives: its entries
hold what the oracle says was in that memory. -/
def FreshOrderings (o : POOL_ORACLE) (call P n : Nat) : ORDERING_BLOCK :=
  { Address := P, Cells := (List.range n).map (o.Fill call) }

/-- The call `RtlCopyMemory (Dst, Src, n * sizeof (ARBITER_ORDERING))` between
two arrays of orderings.  The copy is inside both blocks when `n` is at most
either length; otherwise the pool is corrupt, and the block keeps what lands
inside it. -/
def RtlCopyMemory (Dst Src : ORDERING_BLOCK) (n : Nat) (pool : POOL) :
    ORDERING_BLOCK × POOL :=
  ({ Dst with Cells := (Src.Cells.take n ++ Dst.Cells.drop n).take Dst.Cells.length },
   { pool with
     Corrupt := pool.Corrupt || decide (Src.Cells.length < n ∨ Dst.Cells.length < n) })

/-- The read `Orderings[i]`.  A read through `NULL` or past the end of the block
corrupts the pool state and yields no information (zero). -/
def ReadOrdering (Orderings : Option ORDERING_BLOCK) (i : Nat) (pool : POOL) :
    ARBITER_ORDERING × POOL :=
  match Orderings with
  | none => (⟨0, 0⟩, { pool with Corrupt := true })
  | some b =>
    match b.Cells[i]? with
    | some v => (v, pool)
    | none => (⟨0, 0⟩, { pool with Corrupt := true })

/-- The write `Orderings[i] = v`.  A write through `NULL` or past the end of the
block corrupts the pool and leaves the block as it is. -/
def WriteOrdering (Orderings : Option ORDERING_BLOCK) (i : Nat) (v : ARBITER_ORDERING)
    (pool : POOL) : Option ORDERING_BLOCK × POOL :=
  match Orderings with
  | none => (none, { pool with Corrupt := true })
  | some b =>
    if i < b.Cells.length then
      (some { b with Cells := b.Cells.set i v }, pool)
    else
      (some b, { pool with Corrupt := true })

/-- The entries the list stores: the first `Count` entries of its array. -/
def Entries (L : ARBITER_ORDERING_LIST) : List ARBITER_ORDERING :=
  match L.Orderings with
  | none => []
  | some b => b.Cells.take L.Count

/-- The number of entries the backing array was allocated for (0 for `NULL`). -/
def Capacity (L : ARBITER_ORDERING_LIST) : Nat :=
  match L.Orderings with
  | none => 0
  | some b => b.Cells.length

/-- A well-formed ordering list: the count is within the capacity, the capacity
fits its 16-bit field, and the capacity field is the size of the backing
array. -/
def WellFormed (L : ARBITER_ORDERING_LIST) : Prop :=
  L.Count ≤ L.Maximum ∧ L.Maximum < 2 ^ 16 ∧ Capacity L = L.Maximum

instance (L : ARBITER_ORDERING_LIST) : Decidable (WellFormed L) := by
  unfold WellFormed; infer_instance

/-- The test of `ArbPruneOrdering` for keeping an entry:
`Current->End < MinimumAddress || Current->Start > MaximumAddress`. -/
def Keeps (s e : Nat) (x : ARBITER_ORDERING) : Bool := decide (x.End < s ∨ x.Start > e)

/-- The value `NewMaximum` of `ArbAddOrdering`: `(Maximum == 0) ? 4 : (Maximum * 2)`
assigned to a `UINT16`. -/
def NewMaximum (Maximum : Nat) : Nat :=
  if Maximum = 0 then 4 else (Maximum * 2) % 2 ^ 16

/-- The function `ArbAddOrdering`. -/
def ArbAddOrdering (o : POOL_ORACLE) (OrderList : ARBITER_ORDERING_LIST)
    (MinimumAddress MaximumAddress : Nat) (pool : POOL) :
    NTSTATUS × ARBITER_ORDERING_LIST × POOL :=
  -- the last three statements: store the new ordering and count it
  let store (L : ARBITER_ORDERING_LIST) (pool : POOL) :
      NTSTATUS × ARBITER_ORDERING_LIST × POOL :=
    let w := WriteOrdering L.Orderings L.Count ⟨MinimumAddress, MaximumAddress⟩ pool
    (STATUS_SUCCESS, { L with Orderings := w.1, Count := (L.Count + 1) % 2 ^ 16 }, w.2)
  if OrderList.Count ≥ OrderList.Maximum then
    let a := ExAllocatePoolWithTag o pool
    match a.1 with
    | none => (STATUS_INSUFFICIENT_RESOURCES, OrderList, a.2)
    | some P =>
      let NewOrderings := FreshOrderings o pool.Calls P (NewMaximum OrderList.Maximum)
      let c : ORDERING_BLOCK × POOL :=
        match OrderList.Orderings with
        | some Old =>
          let r := RtlCopyMemory NewOrderings Old OrderList.Count a.2
          (r.1, ExFreePoolWithTag Old.Address r.2)
        | none => (NewOrderings, a.2)
      store { OrderList with Orderings := some c.1, Maximum := NewMaximum OrderList.Maximum } c.2
  else
    store OrderList pool

/-- One turn of the loop of `ArbPruneOrdering`, at index `i`: the state is the
write index, the array and the pool. -/
def PruneStep (MinimumAddress MaximumAddress : Nat)
    (s : Nat × Option ORDERING_BLOCK × POOL) (i : Nat) : Nat × Option ORDERING_BLOCK × POOL :=
  let r := ReadOrdering s.2.1 i s.2.2
  let Current := r.1
  if Keeps MinimumAddress MaximumAddress Current then
    if s.1 ≠ i then
      let w := WriteOrdering s.2.1 s.1 Current r.2
      ((s.1 + 1) % 2 ^ 16, w.1, w.2)
    else
      ((s.1 + 1) % 2 ^ 16, s.2.1, r.2)
  else
    (s.1, s.2.1, r.2)

/-- The function `ArbPruneOrdering`: `i` runs from `0` to `Count - 1`. -/
def ArbPruneOrdering (OrderingList : ARBITER_ORDERING_LIST)
    (MinimumAddress MaximumAddress : Nat) (pool : POOL) :
    NTSTATUS × ARBITER_ORDERING_LIST × POOL :=
  let s := (List.range OrderingList.Count).foldl
    (PruneStep MinimumAddress MaximumAddress) (0, OrderingList.Orderings, pool)
  (STATUS_SUCCESS, { OrderingList with Orderings := s.2.1, Count := s.1 }, s.2.2)

/-- The function `ArbInitializeOrderingList`. -/
def ArbInitializeOrderingList : NTSTATUS × ARBITER_ORDERING_LIST :=
  (STATUS_SUCCESS, { Count := 0, Maximum := 0, Orderings := none })

/-- The function `ArbFreeOrderingList`. -/
def ArbFreeOrderingList (OrderList : ARBITER_ORDERING_LIST) (pool : POOL) :
    ARBITER_ORDERING_LIST × POOL :=
  let r : Option ORDERING_BLOCK × POOL :=
    match OrderList.Orderings with
    | some b => (none, ExFreePoolWithTag b.Address pool)
    | none => (none, pool)
  ({ Count := 0, Maximum := 0, Orderings := r.1 }, r.2)

/-- A sequence of `ArbAddOrdering` calls on one list, one call per
`(MinimumAddress, MaximumAddress)` pair: the statuses returned, in call order,
and the list and the pool after the last call. -/
def AddSequence (o : POOL_ORACLE) :
    List (Nat × Nat) → ARBITER_ORDERING_LIST → POOL →
    List NTSTATUS × ARBITER_ORDERING_LIST × POOL
  | [], L, pool => ([], L, pool)
  | a :: rest, L, pool =>
    let r := ArbAddOrdering o L a.1 a.2 pool
    let t := AddSequence o rest r.2.1 r.2.2
    (r.1 :: t.1, t.2.1, t.2.2)

/-- The arguments of the calls that returned `STATUS_SUCCESS`, as orderings, in
call order. -/
def Accepted : List (Nat × Nat) → List NTSTATUS → List ARBITER_ORDERING
  | a :: rest, st :: sts =>
    if st = STATUS_SUCCESS then ⟨a.1, a.2⟩ :: Accepted rest sts else Accepted rest sts
  | _, _ => []

/-- A capacity the growth rule of `ArbAddOrdering` produces from 0 without
truncation: 0, or 4 doubled some number of times. -/
def Doubling (m : Nat) : Prop := m = 0 ∨ ∃ k, m = 4 * 2 ^ k

/-- A pool in which nothing is allocated. -/
def EmptyPool : POOL := { Live := [], Calls := 0, Corrupt := false }

/-- An oracle with memory for every allocation; fresh blocks hold zeros. -/
def AlwaysAvail : POOL_ORACLE := { Avail := fun _ => true, Fill := fun _ _ => ⟨0, 0⟩ }

/-- The largest capacity the growth rule reaches from an empty list: its double
does not fit a `UINT16`. -/
def Limit : Nat := 2 ^ 15

/-- A full list of `Limit` entries `[0, 0]`. -/
def FullList : ARBITER_ORDERING_LIST :=
  { Count := Limit, Maximum := Limit,
    Orderings := some { Address := 1, Cells := List.replicate Limit ⟨0, 0⟩ } }

/-- The pool in which the block of `FullList` is the only live block. -/
def FullPool : POOL := { Live := [1], Calls := 1, Corrupt := false }

/-- The arguments of `Limit + 1` calls adding `[0, 0]`. -/
def OverflowArgs : List (Nat × Nat) := List.replicate Limit (0, 0) ++ [(0, 0)]

/-! ## The persisted assignment ordering -/

/-- Constants of headers that are not among the sources and that differ between
architectures or are private to the library; the functions take them as a
parameter. -/
structure HEADERS where
  ARBITER_SIGNATURE : Nat
  PAGE_SIZE : Nat
  SizeofCmResourceList : Nat

/-- A wide string (`PCWSTR`): its sequence of code units. -/
abbrev PCWSTR := List Nat

def CmResourceTypePort : Nat := 1
def CmResourceTypeInterrupt : Nat := 2
def CmResourceTypeMemory : Nat := 3
def CmResourceTypeDma : Nat := 4
def CmResourceTypeBusNumber : Nat := 6
def REG_RESOURCE_LIST : Nat := 8

/-- A `CM_PARTIAL_RESOURCE_DESCRIPTOR`, as `ArbBuildAssignmentOrdering` reads it:
its `Type` (here `Type_`) and the members of the union `u` the loader looks at
(`u.Generic.Start.QuadPart`, `u.Generic.Length`, `u.Interrupt.Level`,
`u.BusNumber.Start`, `u.BusNumber.Length`).  The members are independent
fields here, which allows every content the overlapping union can hold. -/
structure CM_PARTIAL_RESOURCE_DESCRIPTOR where
  Type_ : Nat
  GenericStart : Nat
  GenericLength : Nat
  InterruptLevel : Nat
  BusNumberStart : Nat
  BusNumberLength : Nat
deriving DecidableEq, Repr

/-- A `CM_FULL_RESOURCE_DESCRIPTOR`; `PartialResourceList.Count` is the length of
`PartialDescriptors`. -/
structure CM_FULL_RESOURCE_DESCRIPTOR where
  InterfaceType : Nat
  BusNumber : Nat
  PartialDescriptors : List CM_PARTIAL_RESOURCE_DESCRIPTOR
deriving DecidableEq, Repr

/-- A decoded `CM_RESOURCE_LIST`; its `Count` is the length of `List`. -/
structure CM_RESOURCE_LIST where
  List : List CM_FULL_RESOURCE_DESCRIPTOR
deriving DecidableEq, Repr

/-- One value of a registry key, as the two calls of `ZwEnumerateValueKey` show
it: the status of the query with an empty buffer, the status of the query into
the allocated buffer, and the `Type` (here `Type_`), `DataLength` and decoded data of the
`KEY_VALUE_FULL_INFORMATION` the second query fills in. -/
structure KEY_VALUE where
  ProbeStatus : NTSTATUS
  ReadStatus : NTSTATUS
  Type_ : Nat
  DataLength : Nat
  ResourceList : CM_RESOURCE_LIST
deriving DecidableEq, Repr

/-- The registry, as far as the loader looks at it: whether
`...\\Control\\SystemResources\\AssignmentOrdering` can be opened (`none`: `ZwOpenKey`
fails), and for each subkey name whether it can be opened and the values it
holds, in enumeration order. -/
structure REGISTRY where
  AssignmentOrdering : Option (PCWSTR → Option (List KEY_VALUE))

/-- The expression `Start + Length - 1` in `UINT64`. -/
def RangeEnd (Start Length : Nat) : Nat := (Start + Length + (2 ^ 64 - 1)) % 2 ^ 64

/-- The loop over the partial descriptors of a full descriptor (index `j`), adding
to the given ordering list.  The status of `ArbAddOrdering` is not looked at. -/
def AddDescriptors (o : POOL_ORACLE) (ResourceType : Nat) :
    List CM_PARTIAL_RESOURCE_DESCRIPTOR → ARBITER_ORDERING_LIST → POOL →
    ARBITER_ORDERING_LIST × POOL
  | [], L, pool => (L, pool)
  | Descriptor :: rest, L, pool =>
    if Descriptor.Type_ = ResourceType then
      if ResourceType = CmResourceTypePort ∨ ResourceType = CmResourceTypeMemory then
        let Start := Descriptor.GenericStart % 2 ^ 64
        let End := RangeEnd Start Descriptor.GenericLength
        let r := ArbAddOrdering o L Start End pool
        AddDescriptors o ResourceType rest r.2.1 r.2.2
      else if ResourceType = CmResourceTypeInterrupt then
        let Start := Descriptor.InterruptLevel % 2 ^ 64
        let End := Start
        let r := ArbAddOrdering o L Start End pool
        AddDescriptors o ResourceType rest r.2.1 r.2.2
      else if ResourceType = CmResourceTypeBusNumber then
        let Start := Descriptor.BusNumberStart % 2 ^ 64
        let End := RangeEnd Start Descriptor.BusNumberLength
        let r := ArbAddOrdering o L Start End pool
        AddDescriptors o ResourceType rest r.2.1 r.2.2
      else
        AddDescriptors o ResourceType rest L pool
    else
      AddDescriptors o ResourceType rest L pool

/-- The loop over the values of an opened subkey (index `i`), which the source
writes out twice, once for the ordering list and once for the reserved list.
Past the last value `ZwEnumerateValueKey` returns `STATUS_NO_MORE_ENTRIES`. -/
def EnumerateValues (h : HEADERS) (o : POOL_ORACLE) (ResourceType : Nat) :
    List KEY_VALUE → ARBITER_ORDERING_LIST → POOL → ARBITER_ORDERING_LIST × POOL
  | [], L, pool => (L, pool)
  | v :: rest, L, pool =>
    if v.ProbeStatus = STATUS_NO_MORE_ENTRIES then
      (L, pool)
    else if v.ProbeStatus ≠ STATUS_BUFFER_TOO_SMALL then
      EnumerateValues h o ResourceType rest L pool
    else
      let a := ExAllocatePoolWithTag o pool
      match a.1 with
      | none => EnumerateValues h o ResourceType rest L a.2
      | some ValueInfo =>
        let r : ARBITER_ORDERING_LIST × POOL :=
          if NT_SUCCESS v.ReadStatus ∧ v.Type_ = REG_RESOURCE_LIST ∧
              v.DataLength ≥ h.SizeofCmResourceList then
            match v.ResourceList.List with
            | [] => (L, a.2)
            | FullDescriptor :: _ =>
              AddDescriptors o ResourceType FullDescriptor.PartialDescriptors L a.2
          else
            (L, a.2)
        EnumerateValues h o ResourceType rest r.1 (ExFreePoolWithTag ValueInfo r.2)

/-- The ordering a partial descriptor stands for, for an arbiter of the given
resource type, in the words of the claim on loading: none unless the
descriptor's type is the arbiter's; start and `start + length - 1` (in `UINT64`)
for a port, memory or bus-number arbiter; the interrupt level twice for an
interrupt arbiter; none for an arbiter of any other type. -/
def DescriptorOrdering (ResourceType : Nat) (d : CM_PARTIAL_RESOURCE_DESCRIPTOR) :
    Option ARBITER_ORDERING :=
  if d.Type_ ≠ ResourceType then none
  else if ResourceType = CmResourceTypePort ∨ ResourceType = CmResourceTypeMemory then
    some ⟨d.GenericStart % 2 ^ 64, RangeEnd (d.GenericStart % 2 ^ 64) d.GenericLength⟩
  else if ResourceType = CmResourceTypeBusNumber then
    some ⟨d.BusNumberStart % 2 ^ 64, RangeEnd (d.BusNumberStart % 2 ^ 64) d.BusNumberLength⟩
  else if ResourceType = CmResourceTypeInterrupt then
    some ⟨d.InterruptLevel % 2 ^ 64, d.InterruptLevel % 2 ^ 64⟩
  else none

/-- The orderings one registry value stands for: those of the partial
descriptors of its first full descriptor, in order, when the value is read
successfully as a resource list of sufficient length; none otherwise. -/
def BlobOrderings (h : HEADERS) (ResourceType : Nat) (v : KEY_VALUE) :
    List ARBITER_ORDERING :=
  if v.ProbeStatus = STATUS_BUFFER_TOO_SMALL ∧ NT_SUCCESS v.ReadStatus = true ∧
      v.Type_ = REG_RESOURCE_LIST ∧ h.SizeofCmResourceList ≤ v.DataLength then
    match v.ResourceList.List.head? with
    | some Full => Full.PartialDescriptors.filterMap (DescriptorOrdering ResourceType)
    | none => []
  else []

/-- The orderings the values of a key stand for, in enumeration order. -/
def KeyOrderings (h : HEADERS) (ResourceType : Nat) : List KEY_VALUE → List ARBITER_ORDERING
  | [] => []
  | v :: rest => BlobOrderings h ResourceType v ++ KeyOrderings h ResourceType rest

/-- The partial descriptors of every full descriptor of a resource list. -/
def AllDescriptors (R : CM_RESOURCE_LIST) : List CM_PARTIAL_RESOURCE_DESCRIPTOR :=
  R.List.foldr (fun Full acc => Full.PartialDescriptors ++ acc) []

/-! ## The arbiter instance -/

/-- A function an instance slot can point to: one of the library, or one the
resource-type module supplies. -/
inductive ARBITER_FUNCTION where
  | ArbTestAllocation
  | ArbRetestAllocation
  | ArbCommitAllocation
  | ArbRollbackAllocation
  | ArbAddReserved
  | ArbPreprocessEntry
  | ArbAllocateEntry
  | ArbGetNextAllocationRange
  | ArbFindSuitableRange
  | ArbAddAllocation
  | ArbBacktrackAllocation
  | ArbOverrideConflict
  | ArbBootAllocation
  | ArbQueryConflict
  | ArbStartArbiter
  | Supplied (Id : Nat)
deriving DecidableEq, Repr

/-- An entry of an `RTL_RANGE_LIST`. -/
structure RTL_RANGE where
  Start : Nat
  End : Nat
  Owner : Nat
  Flags : Nat
deriving DecidableEq, Repr

/-- A pool block holding an `RTL_RANGE_LIST`: `Ranges` is `none` until
`RtlInitializeRangeList` has run on it. -/
structure RANGE_LIST_BLOCK where
  Address : Nat
  Ranges : Option (List RTL_RANGE)
deriving DecidableEq, Repr

/-- The call `RtlInitializeRangeList` through a pointer. -/
def RtlInitializeRangeList (RangeList : Option RANGE_LIST_BLOCK) : Option RANGE_LIST_BLOCK :=
  RangeList.map fun b => { b with Ranges := some [] }

/-- Modelled from the spec: the header `arbiter.h`, which declares
`ARBITER_INSTANCE`, is not among the sources.  The fields are those `arbiter.c`
reads or writes: the spec's resource type tag, name, ordering and reserved
lists, committed (`Allocation`) and tentative (`PossibleAllocation`) range
trackers, allocation stack, mutual-exclusion event, transaction flag and the
table of hooks. -/
structure ARBITER_INSTANCE where
  Signature : Nat
  MutexEvent : Option Nat
  Name : Option PCWSTR
  ResourceType : Nat
  Allocation : Option RANGE_LIST_BLOCK
  PossibleAllocation : Option RANGE_LIST_BLOCK
  OrderingList : ARBITER_ORDERING_LIST
  ReservedList : ARBITER_ORDERING_LIST
  AllocationStack : Option Nat
  AllocationStackMaxSize : Nat
  BusDeviceObject : Option Nat
  TransactionInProgress : Bool
  UnpackRequirement : Option ARBITER_FUNCTION
  PackResource : Option ARBITER_FUNCTION
  UnpackResource : Option ARBITER_FUNCTION
  TestAllocation : Option ARBITER_FUNCTION
  RetestAllocation : Option ARBITER_FUNCTION
  CommitAllocation : Option ARBITER_FUNCTION
  RollbackAllocation : Option ARBITER_FUNCTION
  AddReserved : Option ARBITER_FUNCTION
  PreprocessEntry : Option ARBITER_FUNCTION
  AllocateEntry : Option ARBITER_FUNCTION
  GetNextAllocationRange : Option ARBITER_FUNCTION
  FindSuitableRange : Option ARBITER_FUNCTION
  AddAllocation : Option ARBITER_FUNCTION
  BacktrackAllocation : Option ARBITER_FUNCTION
  OverrideConflict : Option ARBITER_FUNCTION
  BootAllocation : Option ARBITER_FUNCTION
  QueryConflict : Option ARBITER_FUNCTION
  StartArbiter : Option ARBITER_FUNCTION
deriving DecidableEq, Repr

/-- The function `ArbBuildAssignmentOrdering`.  Its last parameter,
`TranslateOrderingFunction`, is never used by the source and is left out; the
registry handles it opens and closes are not tracked. -/
def ArbBuildAssignmentOrdering (h : HEADERS) (o : POOL_ORACLE) (reg : REGISTRY)
    (ArbInstance : ARBITER_INSTANCE) (OrderName ReservedOrderName : PCWSTR) (pool : POOL) :
    NTSTATUS × ARBITER_INSTANCE × POOL :=
  let i1 := ArbInitializeOrderingList
  let A1 := { ArbInstance with OrderingList := i1.2 }
  if ¬ NT_SUCCESS i1.1 then
    (i1.1, A1, pool)
  else
    let i2 := ArbInitializeOrderingList
    let A2 := { A1 with ReservedList := i2.2 }
    if ¬ NT_SUCCESS i2.1 then
      let f := ArbFreeOrderingList A2.OrderingList pool
      (i2.1, { A2 with OrderingList := f.1 }, f.2)
    else
      match reg.AssignmentOrdering with
      | none => (STATUS_SUCCESS, A2, pool)
      | some KeyHandle =>
        let s1 : ARBITER_INSTANCE × POOL :=
          match KeyHandle OrderName with
          | some Values =>
            let r := EnumerateValues h o A2.ResourceType Values A2.OrderingList pool
            ({ A2 with OrderingList := r.1 }, r.2)
          | none => (A2, pool)
        let s2 : ARBITER_INSTANCE × POOL :=
          if OrderName ≠ ReservedOrderName then
            match KeyHandle ReservedOrderName with
            | some Values =>
              let r := EnumerateValues h o s1.1.ResourceType Values s1.1.ReservedList s1.2
              ({ s1.1 with ReservedList := r.1 }, r.2)
            | none => s1
          else
            s1
        (STATUS_SUCCESS, s2.1, s2.2)

/-- The slot `Slot` after `if (!Slot) Slot = Default;`. -/
def OrDefault (Slot : Option ARBITER_FUNCTION) (Default : ARBITER_FUNCTION) :
    Option ARBITER_FUNCTION :=
  match Slot with
  | none => some Default
  | some f => some f

/-- What the claim on the hook slots asks of one slot: it is not `NULL`
afterwards, it holds the library default if it was `NULL` before, and it still
holds the caller's function if the caller had set one. -/
def SlotInstalled (Before After : Option ARBITER_FUNCTION) (Default : ARBITER_FUNCTION) :
    Prop :=
  After ≠ none ∧ (Before = none → After = some Default) ∧
    ∀ f, Before = some f → After = some f

/-- The function `ArbInitializeArbiterInstance`.  `KeInitializeEvent` acts on the
event block only, which is not modelled beyond its address. -/
def ArbInitializeArbiterInstance (h : HEADERS) (o : POOL_ORACLE) (reg : REGISTRY)
    (Arbiter : ARBITER_INSTANCE) (BusDeviceObject : Option Nat) (ResourceType : Nat)
    (ArbiterName OrderName : PCWSTR) (pool : POOL) :
    NTSTATUS × ARBITER_INSTANCE × POOL :=
  let A0 := { Arbiter with Signature := h.ARBITER_SIGNATURE, BusDeviceObject := BusDeviceObject }
  let a1 := ExAllocatePoolWithTag o pool
  let A1 := { A0 with MutexEvent := a1.1 }
  match a1.1 with
  | none => (STATUS_INSUFFICIENT_RESOURCES, A1, a1.2)
  | some MutexEvent =>
    let a2 := ExAllocatePoolWithTag o a1.2
    let A2 := { A1 with AllocationStack := a2.1 }
    match a2.1 with
    | none => (STATUS_INSUFFICIENT_RESOURCES, A2, ExFreePoolWithTag MutexEvent a2.2)
    | some AllocationStack =>
      let A3 := { A2 with AllocationStackMaxSize := h.PAGE_SIZE }
      let a3 := ExAllocatePoolWithTag o a2.2
      let A4 := { A3 with Allocation := a3.1.map fun P => { Address := P, Ranges := none } }
      match a3.1 with
      | none =>
        (STATUS_INSUFFICIENT_RESOURCES, A4,
          ExFreePoolWithTag MutexEvent (ExFreePoolWithTag AllocationStack a3.2))
      | some Allocation =>
        let a4 := ExAllocatePoolWithTag o a3.2
        let A5 :=
          { A4 with PossibleAllocation := a4.1.map fun P => { Address := P, Ranges := none } }
        match a4.1 with
        | none =>
          (STATUS_INSUFFICIENT_RESOURCES, A5,
            ExFreePoolWithTag MutexEvent
              (ExFreePoolWithTag AllocationStack (ExFreePoolWithTag Allocation a4.2)))
        | some _ =>
          let A6 :=
            { A5 with
              Allocation := RtlInitializeRangeList A5.Allocation
              PossibleAllocation := RtlInitializeRangeList A5.PossibleAllocation
              Name := some ArbiterName
              ResourceType := ResourceType
              TransactionInProgress := false }
          let A7 :=
            { A6 with
              TestAllocation := OrDefault A6.TestAllocation .ArbTestAllocation
              RetestAllocation := OrDefault A6.RetestAllocation .ArbRetestAllocation
              CommitAllocation := OrDefault A6.CommitAllocation .ArbCommitAllocation
              RollbackAllocation := OrDefault A6.RollbackAllocation .ArbRollbackAllocation
              AddReserved := OrDefault A6.AddReserved .ArbAddReserved
              PreprocessEntry := OrDefault A6.PreprocessEntry .ArbPreprocessEntry
              AllocateEntry := OrDefault A6.AllocateEntry .ArbAllocateEntry
              GetNextAllocationRange :=
                OrDefault A6.GetNextAllocationRange .ArbGetNextAllocationRange
              FindSuitableRange := OrDefault A6.FindSuitableRange .ArbFindSuitableRange
              AddAllocation := OrDefault A6.AddAllocation .ArbAddAllocation
              BacktrackAllocation := OrDefault A6.BacktrackAllocation .ArbBacktrackAllocation
              OverrideConflict := OrDefault A6.OverrideConflict .ArbOverrideConflict
              BootAllocation := OrDefault A6.BootAllocation .ArbBootAllocation
              QueryConflict := OrDefault A6.QueryConflict .ArbQueryConflict
              StartArbiter := OrDefault A6.StartArbiter .ArbStartArbiter }
          let b := ArbBuildAssignmentOrdering h o reg A7 OrderName OrderName a4.2
          if NT_SUCCESS b.1 then
            (STATUS_SUCCESS, b.2.1, b.2.2)
          else
            (b.1, b.2.1, b.2.2)

/-! ## The allocation transaction

Every function of this part is, in the source, the macro `UNIMPLEMENTED` (a debug
print) followed by a `return` of a constant; `ArbPreprocessEntry` returns
`STATUS_SUCCESS` without the print.  None reads or writes its arguments. -/

/-- Modelled from the spec: the type `IO_RESOURCE_DESCRIPTOR` is declared in a
header that is not among the sources.  It is the spec's Descriptor: option kind
(preferred, alternative or required), share disposition, length, alignment and
minimum and maximum address bound. -/
structure IO_RESOURCE_DESCRIPTOR where
  OptionKind : Nat
  ShareDisposition : Nat
  Length : Nat
  Alignment : Nat
  MinimumAddress : Nat
  MaximumAddress : Nat
deriving DecidableEq, Repr

/-- Modelled from the spec: the type `ARBITER_LIST_ENTRY`, the element of the
`ArbitrationList` argument, is declared in a header that is not among the
sources.  It is the spec's Requirement: the ordered alternative descriptors of
one device need, and the range assigned to it (`none`: no range assigned). -/
structure ARBITER_LIST_ENTRY where
  Alternatives : List IO_RESOURCE_DESCRIPTOR
  Assignment : Option (Nat × Nat)
deriving DecidableEq, Repr

/-- Modelled from the spec: the type `ARBITER_ALLOCATION_STATE` is declared in
`arbiter.h`, which is not among the sources.  It is the spec's AllocationFrame:
which requirement is being satisfied, which alternative was tried, and the
range chosen, if any. -/
structure ARBITER_ALLOCATION_STATE where
  Entry : Nat
  CurrentAlternative : Nat
  Chosen : Option (Nat × Nat)
deriving DecidableEq, Repr

/-- The function `ArbTestAllocation`. -/
def ArbTestAllocation (Arbiter : ARBITER_INSTANCE) (ArbitrationList : List ARBITER_LIST_ENTRY) :
    NTSTATUS × ARBITER_INSTANCE × List ARBITER_LIST_ENTRY :=
  (STATUS_NOT_IMPLEMENTED, Arbiter, ArbitrationList)

/-- The function `ArbRetestAllocation`. -/
def ArbRetestAllocation (Arbiter : ARBITER_INSTANCE)
    (ArbitrationList : List ARBITER_LIST_ENTRY) :
    NTSTATUS × ARBITER_INSTANCE × List ARBITER_LIST_ENTRY :=
  (STATUS_NOT_IMPLEMENTED, Arbiter, ArbitrationList)

/-- The function `ArbCommitAllocation`. -/
def ArbCommitAllocation (Arbiter : ARBITER_INSTANCE) : NTSTATUS × ARBITER_INSTANCE :=
  (STATUS_NOT_IMPLEMENTED, Arbiter)

/-- The function `ArbRollbackAllocation`. -/
def ArbRollbackAllocation (Arbiter : ARBITER_INSTANCE) : NTSTATUS × ARBITER_INSTANCE :=
  (STATUS_NOT_IMPLEMENTED, Arbiter)

/-- The function `ArbAddReserved`. -/
def ArbAddReserved (Arbiter : ARBITER_INSTANCE) : NTSTATUS × ARBITER_INSTANCE :=
  (STATUS_NOT_IMPLEMENTED, Arbiter)

/-- The function `ArbPreprocessEntry`. -/
def ArbPreprocessEntry (Arbiter : ARBITER_INSTANCE) (ArbState : ARBITER_ALLOCATION_STATE) :
    NTSTATUS × ARBITER_INSTANCE × ARBITER_ALLOCATION_STATE :=
  (STATUS_SUCCESS, Arbiter, ArbState)

/-- The function `ArbAllocateEntry`. -/
def ArbAllocateEntry (Arbiter : ARBITER_INSTANCE) (ArbState : ARBITER_ALLOCATION_STATE) :
    NTSTATUS × ARBITER_INSTANCE × ARBITER_ALLOCATION_STATE :=
  (STATUS_NOT_IMPLEMENTED, Arbiter, ArbState)

/-- The function `ArbGetNextAllocationRange`; the result is its `BOOLEAN`. -/
def ArbGetNextAllocationRange (Arbiter : ARBITER_INSTANCE)
    (ArbState : ARBITER_ALLOCATION_STATE) :
    Bool × ARBITER_INSTANCE × ARBITER_ALLOCATION_STATE :=
  (false, Arbiter, ArbState)

/-- The function `ArbFindSuitableRange`; the result is its `BOOLEAN`. -/
def ArbFindSuitableRange (Arbiter : ARBITER_INSTANCE) (ArbState : ARBITER_ALLOCATION_STATE) :
    Bool × ARBITER_INSTANCE × ARBITER_ALLOCATION_STATE :=
  (false, Arbiter, ArbState)

/-- The function `ArbAddAllocation` (it returns `VOID`). -/
def ArbAddAllocation (Arbiter : ARBITER_INSTANCE) (ArbState : ARBITER_ALLOCATION_STATE) :
    ARBITER_INSTANCE × ARBITER_ALLOCATION_STATE :=
  (Arbiter, ArbState)

/-- The function `ArbBacktrackAllocation` (it returns `VOID`). -/
def ArbBacktrackAllocation (Arbiter : ARBITER_INSTANCE)
    (ArbState : ARBITER_ALLOCATION_STATE) : ARBITER_INSTANCE × ARBITER_ALLOCATION_STATE :=
  (Arbiter, ArbState)

/-- The function `ArbOverrideConflict`. -/
def ArbOverrideConflict (Arbiter : ARBITER_INSTANCE) : NTSTATUS × ARBITER_INSTANCE :=
  (STATUS_NOT_IMPLEMENTED, Arbiter)

/-- The function `ArbBootAllocation`. -/
def ArbBootAllocation (Arbiter : ARBITER_INSTANCE) (ArbitrationList : List ARBITER_LIST_ENTRY) :
    NTSTATUS × ARBITER_INSTANCE × List ARBITER_LIST_ENTRY :=
  (STATUS_NOT_IMPLEMENTED, Arbiter, ArbitrationList)

/-- The function `ArbQueryConflict`. -/
def ArbQueryConflict (Arbiter : ARBITER_INSTANCE) : NTSTATUS × ARBITER_INSTANCE :=
  (STATUS_NOT_IMPLEMENTED, Arbiter)

/-- The function `ArbStartArbiter`. -/
def ArbStartArbiter (Arbiter : ARBITER_INSTANCE) : NTSTATUS × ARBITER_INSTANCE :=
  (STATUS_NOT_IMPLEMENTED, Arbiter)

/-- A call through a slot whose functions take the instance alone and return a
status: the library function the slot points to is run.  `none` stands for what
the library does not determine: a call through `NULL`, through a function of
another prototype, or through a function of the resource-type module. -/
def CallSlot (Slot : Option ARBITER_FUNCTION) (Arbiter : ARBITER_INSTANCE) :
    Option (NTSTATUS × ARBITER_INSTANCE) :=
  match Slot with
  | some .ArbCommitAllocation => some (ArbCommitAllocation Arbiter)
  | some .ArbRollbackAllocation => some (ArbRollbackAllocation Arbiter)
  | some .ArbAddReserved => some (ArbAddReserved Arbiter)
  | some .ArbOverrideConflict => some (ArbOverrideConflict Arbiter)
  | some .ArbQueryConflict => some (ArbQueryConflict Arbiter)
  | some .ArbStartArbiter => some (ArbStartArbiter Arbiter)
  | _ => none

/-- The entries of the committed range tracker `Allocation` (none while the
pointer is `NULL` or the range list is not initialised). -/
def Committed (A : ARBITER_INSTANCE) : List RTL_RANGE :=
  match A.Allocation with
  | some b => b.Ranges.getD []
  | none => []

/-- The entries of the tentative range tracker `PossibleAllocation`. -/
def Tentative (A : ARBITER_INSTANCE) : List RTL_RANGE :=
  match A.PossibleAllocation with
  | some b => b.Ranges.getD []
  | none => []

/-- The flag `RTL_RANGE_SHARED` of a range entry. -/
def RTL_RANGE_SHARED : Nat := 1

/-- An exclusive entry: the flag `RTL_RANGE_SHARED` (bit 0) is clear. -/
def Exclusive (r : RTL_RANGE) : Prop := r.Flags % 2 = 0

/-- Two closed intervals overlap. -/
def Overlaps (a b : RTL_RANGE) : Prop := a.Start ≤ b.End ∧ b.Start ≤ a.End

/-- The invariant of the spec's range tracker: no two exclusive entries
overlap. -/
def NoExclusiveOverlap (Ranges : List RTL_RANGE) : Prop :=
  Ranges.Pairwise fun a b => Exclusive a → Exclusive b → ¬ Overlaps a b

/-- A public operation of an arbiter instance, with its argument. -/
inductive ARBITER_OPERATION where
  | Boot (ArbitrationList : List ARBITER_LIST_ENTRY)
  | Test (ArbitrationList : List ARBITER_LIST_ENTRY)
  | Retest (ArbitrationList : List ARBITER_LIST_ENTRY)
  | Commit
  | Rollback
deriving DecidableEq, Repr

/-- The instance after one public operation of the library. -/
def Perform (A : ARBITER_INSTANCE) : ARBITER_OPERATION → ARBITER_INSTANCE
  | .Boot l => (ArbBootAllocation A l).2.1
  | .Test l => (ArbTestAllocation A l).2.1
  | .Retest l => (ArbRetestAllocation A l).2.1
  | .Commit => (ArbCommitAllocation A).2
  | .Rollback => (ArbRollbackAllocation A).2

/-- The instance after a sequence of public operations. -/
def PerformAll (A : ARBITER_INSTANCE) (Operations : List ARBITER_OPERATION) :
    ARBITER_INSTANCE :=
  Operations.foldl Perform A

/-- In the words of the spec (§4.3, step 3): a range is a candidate for a
descriptor when it has the descriptor's length, starts on a multiple of its
alignment and lies within its address bounds. -/
def Fits (d : IO_RESOURCE_DESCRIPTOR) (r : Nat × Nat) : Prop :=
  r.1 ≤ r.2 ∧ r.2 + 1 - r.1 = d.Length ∧ d.MinimumAddress ≤ r.1 ∧ r.2 ≤ d.MaximumAddress ∧
    (d.Alignment = 0 ∨ r.1 % d.Alignment = 0)

/-- A range is disjoint from every entry of a tracker. -/
def Unoccupied (Ranges : List RTL_RANGE) (r : Nat × Nat) : Prop :=
  ∀ c ∈ Ranges, r.2 < c.Start ∨ c.End < r.1

/-- The ranges, one per requirement, satisfy the requirement list over a
tracker: each fits an alternative of its requirement, is disjoint from the
tracker's entries and from the ranges of the later requirements. -/
def Satisfies (Ranges : List RTL_RANGE) :
    List ARBITER_LIST_ENTRY → List (Nat × Nat) → Prop
  | [], [] => True
  | e :: es, r :: rs =>
    (∃ d ∈ e.Alternatives, Fits d r) ∧ Unoccupied Ranges r ∧
      (∀ q ∈ rs, r.2 < q.1 ∨ q.2 < r.1) ∧ Satisfies Ranges es rs
  | _, _ => False

/-- A requirement list is satisfiable over a tracker, in the strictest sense:
even when every range is taken as exclusive. -/
def Satisfiable (Ranges : List RTL_RANGE) (Requirements : List ARBITER_LIST_ENTRY) : Prop :=
  ∃ rs, Satisfies Ranges Requirements rs

/-! ## Concrete inputs -/

/-- An instance as a resource-type module hands it to
`ArbInitializeArbiterInstance`: the three codec functions set, everything else
zero or `NULL`. -/
def BlankInstance : ARBITER_INSTANCE :=
  { Signature := 0, MutexEvent := none, Name := none, ResourceType := 0,
    Allocation := none, PossibleAllocation := none,
    OrderingList := { Count := 0, Maximum := 0, Orderings := none },
    ReservedList := { Count := 0, Maximum := 0, Orderings := none },
    AllocationStack := none, AllocationStackMaxSize := 0, BusDeviceObject := none,
    TransactionInProgress := false,
    UnpackRequirement := some (.Supplied 1), PackResource := some (.Supplied 2),
    UnpackResource := some (.Supplied 3),
    TestAllocation := none, RetestAllocation := none, CommitAllocation := none,
    RollbackAllocation := none, AddReserved := none, PreprocessEntry := none,
    AllocateEntry := none, GetNextAllocationRange := none, FindSuitableRange := none,
    AddAllocation := none, BacktrackAllocation := none, OverrideConflict := none,
    BootAllocation := none, QueryConflict := none, StartArbiter := none }

/-- Header constants for the concrete inputs: a page of 4096 bytes, a
`CM_RESOURCE_LIST` of 36 bytes, and some signature value. -/
def SampleHeaders : HEADERS :=
  { ARBITER_SIGNATURE := 0x41726253, PAGE_SIZE := 4096, SizeofCmResourceList := 36 }

/-- A registry without the `AssignmentOrdering` key. -/
def NoOrderingKey : REGISTRY := { AssignmentOrdering := none }

/-- An oracle whose pool has memory for the calls with index below `n` only. -/
def AvailBelow (n : Nat) : POOL_ORACLE :=
  { Avail := fun k => decide (k < n), Fill := fun _ _ => ⟨0, 0⟩ }

/-- An oracle whose pool has memory for every call but the one with index `n`. -/
def AvailExcept (n : Nat) : POOL_ORACLE :=
  { Avail := fun k => decide (k ≠ n), Fill := fun _ _ => ⟨0, 0⟩ }

/-- A port descriptor for the range `[0x3F8, 0x3FF]`. -/
def PortDescriptor : CM_PARTIAL_RESOURCE_DESCRIPTOR :=
  { Type_ := CmResourceTypePort, GenericStart := 0x3F8, GenericLength := 8,
    InterruptLevel := 0, BusNumberStart := 0, BusNumberLength := 0 }

/-- A registry value holding a resource list with the given full descriptors. -/
def ResourceListValue (Full : List CM_FULL_RESOURCE_DESCRIPTOR) : KEY_VALUE :=
  { ProbeStatus := STATUS_BUFFER_TOO_SMALL, ReadStatus := STATUS_SUCCESS,
    Type_ := REG_RESOURCE_LIST, DataLength := 64, ResourceList := { List := Full } }

/-- A registry in which every ordering subkey holds the given values. -/
def RegistryWith (Values : List KEY_VALUE) : REGISTRY :=
  { AssignmentOrdering := some fun _ => some Values }

/-- A registry in which the `AssignmentOrdering` key opens but no subkey does. -/
def NoOrderingSubkey : REGISTRY := { AssignmentOrdering := some fun _ => none }

/-- A resource list whose first full descriptor is empty and whose second holds
`PortDescriptor`. -/
def SecondFullValue : KEY_VALUE :=
  ResourceListValue [⟨0, 0, []⟩, ⟨0, 0, [PortDescriptor]⟩]

/-- A resource list with `PortDescriptor` in its first full descriptor. -/
def FirstFullValue : KEY_VALUE :=
  ResourceListValue [⟨0, 0, [PortDescriptor]⟩]

/-- The instance `BlankInstance` set up as a port arbiter, the caller having
supplied its own `TestAllocation`. -/
def PortInstance : ARBITER_INSTANCE :=
  { BlankInstance with
    ResourceType := CmResourceTypePort, TestAllocation := some (.Supplied 9) }

/-- A small well-formed list: two of four entries in use. -/
def SmallList : ARBITER_ORDERING_LIST :=
  { Count := 2, Maximum := 4,
    Orderings := some { Address := 1, Cells := [⟨0, 9⟩, ⟨20, 29⟩, ⟨0, 0⟩, ⟨0, 0⟩] } }

/-- An initialised memory arbiter: `BlankInstance` after a successful
`ArbInitializeArbiterInstance` with no persisted ordering, so that the ordering
list and both range trackers are empty and no transaction is open. -/
def InitializedInstance : ARBITER_INSTANCE :=
  (ArbInitializeArbiterInstance SampleHeaders AlwaysAvail NoOrderingKey BlankInstance (some 7)
    CmResourceTypeMemory [77] [77] EmptyPool).2.1

/-- A requirement with one alternative: an exclusive range of the given length
within the given bounds, byte aligned, required. -/
def RangeRequirement (Length Minimum Maximum : Nat) : ARBITER_LIST_ENTRY :=
  { Alternatives :=
      [{ OptionKind := 0, ShareDisposition := 1, Length := Length, Alignment := 1,
         MinimumAddress := Minimum, MaximumAddress := Maximum }],
    Assignment := none }

/-- Scenario A: two devices, each asking for one exclusive memory range of
length `0x1000` within `[0, 0xFFFFFFFF]`. -/
def ScenarioA : List ARBITER_LIST_ENTRY :=
  [RangeRequirement 0x1000 0 0xFFFFFFFF, RangeRequirement 0x1000 0 0xFFFFFFFF]

/-- Scenario B: one requirement for exactly `[0x1000, 0x1FFF]`, exclusive; it is
both the boot-reported range and the range requested afterwards. -/
def ScenarioB : List ARBITER_LIST_ENTRY :=
  [RangeRequirement 0x1000 0x1000 0x1FFF]

/-- Scenario C, the requirement: a preferred alternative `[0x2000, 0x2FFF]` and
an alternative `[0x3000, 0x3FFF]`. -/
def ScenarioC : List ARBITER_LIST_ENTRY :=
  [{ Alternatives :=
      [{ OptionKind := 1, ShareDisposition := 1, Length := 0x1000, Alignment := 1,
         MinimumAddress := 0x2000, MaximumAddress := 0x2FFF },
       { OptionKind := 8, ShareDisposition := 1, Length := 0x1000, Alignment := 1,
         MinimumAddress := 0x3000, MaximumAddress := 0x3FFF }],
     Assignment := none }]

/-- Scenario C, the instance: `[0x2000, 0x2FFF]` is committed, exclusively. -/
def OccupiedInstance : ARBITER_INSTANCE :=
  { InitializedInstance with
    Allocation := some { Address := 3, Ranges := some [⟨0x2000, 0x2FFF, 1, 0⟩] } }

/-- An initialised instance that differs from `InitializedInstance` in its name
and bus device object only. -/
def OtherInstance : ARBITER_INSTANCE :=
  { InitializedInstance with Name := some [78], BusDeviceObject := some 8 }

/-- An instance handed in with a reserved list that is not zeroed: `Count` is 5. -/
def StaleInstance : ARBITER_INSTANCE :=
  { BlankInstance with ReservedList := { Count := 5, Maximum := 8, Orderings := none } }

/-- A port descriptor with start `0x3F8` and length 0. -/
def ZeroLengthDescriptor : CM_PARTIAL_RESOURCE_DESCRIPTOR :=
  { Type_ := CmResourceTypePort, GenericStart := 0x3F8, GenericLength := 0,
    InterruptLevel := 0, BusNumberStart := 0, BusNumberLength := 0 }

/-- A port descriptor whose `Start + Length - 1` exceeds 64 bits: start
`2^64 - 16`, length 32. -/
def WrappingDescriptor : CM_PARTIAL_RESOURCE_DESCRIPTOR :=
  { Type_ := CmResourceTypePort, GenericStart := 2 ^ 64 - 16, GenericLength := 32,
    InterruptLevel := 0, BusNumberStart := 0, BusNumberLength := 0 }

/-- A resource list with `ZeroLengthDescriptor` and `WrappingDescriptor` in its
first full descriptor. -/
def DegenerateValue : KEY_VALUE :=
  ResourceListValue [⟨0, 0, [ZeroLengthDescriptor, WrappingDescriptor]⟩]

end Arbiter

/-! # MSI vector allocation of the I/O manager (`ntoskrnl/io/iomgr/msii.c`) -/

namespace Iop

open Arbiter

/-- What the source leaves to the build target: the width of `KAFFINITY` (a
`ULONG_PTR`: 32 or 64 bits), the type of `MsiVectorBitmap`, and the value of the
expression `1ULL << n` for `n ≥ 64`, which C leaves undefined. -/
structure TARGET where
  AffinityBits : Nat
  WideShift : Nat → Nat

/-- The expression `1ULL << n`, a 64-bit value. -/
def Mask (t : TARGET) (n : Nat) : Nat :=
  if n < 64 then 2 ^ n else t.WideShift n % 2 ^ 64

/-- The function `IopInitializeMsiSupport`: the value it gives `MsiVectorBitmap`.
The spin lock is not modelled; the functions are taken one call at a time. -/
def IopInitializeMsiSupport : Nat := 0

/-- The function `IopAllocateMsiVector`: the status, the value stored through
`Vector` (`none`: nothing stored) and the new `MsiVectorBitmap`.  `Bit` runs from
`0x30` to `0xEF` and the first one that passes the test is taken. -/
def IopAllocateMsiVector (t : TARGET) (MsiVectorBitmap : Nat) : NTSTATUS × Option Nat × Nat :=
  match (List.range' 0x30 0xC0).find?
      (fun Bit => decide (MsiVectorBitmap &&& Mask t (Bit - 0x30) = 0)) with
  | some Bit =>
    (STATUS_SUCCESS, some Bit, (MsiVectorBitmap ||| Mask t (Bit - 0x30)) % 2 ^ t.AffinityBits)
  | none => (STATUS_INSUFFICIENT_RESOURCES, none, MsiVectorBitmap)

/-- The function `IopFreeMsiVector`: the new `MsiVectorBitmap`. -/
def IopFreeMsiVector (t : TARGET) (MsiVectorBitmap : Nat) (Vector : Nat) : Nat :=
  if Vector < 0x30 ∨ Vector > 0xEF then MsiVectorBitmap
  else (MsiVectorBitmap &&& (2 ^ 64 - 1 - Mask t (Vector - 0x30))) % 2 ^ t.AffinityBits

/-- The test by which the allocator takes a vector of the range to be
allocated. -/
def MarkedAllocated (t : TARGET) (MsiVectorBitmap : Nat) (Vector : Nat) : Bool :=
  decide (MsiVectorBitmap &&& Mask t (Vector - 0x30) ≠ 0)

/-- A number of calls of `IopAllocateMsiVector` in a row: what each returned, in
call order, and the bitmap after the last. -/
def AllocateMany (t : TARGET) : Nat → Nat → List (NTSTATUS × Option Nat) × Nat
  | 0, Bitmap => ([], Bitmap)
  | n + 1, Bitmap =>
    let r := IopAllocateMsiVector t Bitmap
    let rest := AllocateMany t n r.2.2
    ((r.1, r.2.1) :: rest.1, rest.2)

/-- An x64 build: `KAFFINITY` has 64 bits, and a shift takes its count modulo
64, as the processor's shift instruction does. -/
def X64 : TARGET := { AffinityBits := 64, WideShift := fun n => 2 ^ (n % 64) }

end Iop

/-! # MSI programming of the HAL (`hal/halx86/generic/msi.c`) -/

namespace Hal

open Arbiter

def PCI_STATUS_CAPABILITIES_LIST : Nat := 0x0010

/-- The members of `PCI_COMMON_CONFIG` the capability walks read: `Status` and
`u.type0.CapabilitiesPtr`. -/
structure PCI_COMMON_CONFIG where
  Status : Nat
  CapabilitiesPtr : Nat
deriving DecidableEq, Repr

/-- The configuration space of the machine's PCI devices, as reads show it: the
byte at an offset of the device in a slot of a bus. -/
abbrev CONFIG_SPACE := Nat → Nat → Nat → Nat

/-- The value `HalGetBusDataByOffset(PCIConfiguration, ...)` stores in a buffer
of `Length` bytes: the bytes from `Offset` on, the first one lowest, as on x86.
The callers in `msi.c` and the capability walk of `pdo.c` ignore its return
value; the read is taken to fill the buffer. -/
def HalGetBusDataByOffset (cfg : CONFIG_SPACE) (BusNumber SlotNumber : Nat) :
    Nat → Nat → Nat
  | _, 0 => 0
  | Offset, Length + 1 =>
    cfg BusNumber SlotNumber Offset % 256 +
      256 * HalGetBusDataByOffset cfg BusNumber SlotNumber (Offset + 1) Length

/-- The loop of `HalpFindPciCapability`, with `Remaining = 48 - LoopCount`
passes still allowed: the value returned and the number of capability headers
read.  `CapabilityOffset` and `CurrentCapability` are `UCHAR`. -/
def FindLoop (cfg : CONFIG_SPACE) (BusNumber SlotNumber CapabilityId : Nat) :
    Nat → Nat → Nat × Nat
  | 0, _ => (0, 0)
  | Remaining + 1, CapabilityOffset =>
    if CapabilityOffset = 0 then (0, 0)
    else
      let CurrentCapability := HalGetBusDataByOffset cfg BusNumber SlotNumber CapabilityOffset 1
      if CurrentCapability = CapabilityId then (CapabilityOffset, 1)
      else
        let Next := HalGetBusDataByOffset cfg BusNumber SlotNumber (CapabilityOffset + 1) 1
        let r := FindLoop cfg BusNumber SlotNumber CapabilityId Remaining Next
        (r.1, r.2 + 1)

/-- The function `HalpFindPciCapability`: the offset returned and the number of
capability headers read. -/
def HalpFindPciCapability (cfg : CONFIG_SPACE) (PciConfig : PCI_COMMON_CONFIG)
    (BusNumber SlotNumber CapabilityId : Nat) : Nat × Nat :=
  if PciConfig.Status &&& PCI_STATUS_CAPABILITIES_LIST = 0 then (0, 0)
  else FindLoop cfg BusNumber SlotNumber CapabilityId 48 (PciConfig.CapabilitiesPtr % 256)

/-- The capability chain from an offset, in the words of the claim on the
search: the offsets of at most `n` capabilities, each next one read from the
byte after the header's first, ending at a next pointer of 0. -/
def Chain (cfg : CONFIG_SPACE) (BusNumber SlotNumber : Nat) : Nat → Nat → List Nat
  | 0, _ => []
  | n + 1, Offset =>
    if Offset = 0 then []
    else
      Offset ::
        Chain cfg BusNumber SlotNumber n
          (HalGetBusDataByOffset cfg BusNumber SlotNumber (Offset + 1) 1)

/-- The offset of the first capability of a list of offsets whose ID is
`CapabilityId`, or 0 if there is none. -/
def FirstWithId (cfg : CONFIG_SPACE) (BusNumber SlotNumber CapabilityId : Nat)
    (Offsets : List Nat) : Nat :=
  match Offsets.find?
      (fun Offset =>
        decide (HalGetBusDataByOffset cfg BusNumber SlotNumber Offset 1 = CapabilityId)) with
  | some Offset => Offset
  | none => 0

/-- One call of `HalSetBusDataByOffset(PCIConfiguration, ...)`. -/
structure CONFIG_WRITE where
  BusNumber : Nat
  SlotNumber : Nat
  Offset : Nat
  Length : Nat
  Value : Nat
deriving DecidableEq, Repr

/-- The function `HalpAllocateVector`, from the value of its static
`NextVector`: the vector returned and the new `NextVector`. -/
def HalpAllocateVector (NextVector : Nat) : Nat × Nat :=
  if NextVector ≤ 0xFE then (NextVector, (NextVector + 1) % 2 ^ 32) else (0, NextVector)

/-- The two clamps of `HalpConfigurePciMsi` on `MessageCount`: the count and
`UseCompatibilityMode` after them. -/
def ClampMessageCount (MsiControl MessageCount : Nat) : Nat × Bool :=
  let c1 : Nat × Bool := if MessageCount > 1 then (1, true) else (MessageCount, false)
  let MaxMessages := (1 <<< ((MsiControl &&& 0x000E) >>> 1)) % 256
  if c1.1 > MaxMessages then (MaxMessages, true) else c1

/-- The loop `while (TempCount > 1) { TempCount >>= 1; Log2Messages++; }`; 32
passes exhaust a `ULONG`. -/
def Log2Loop : Nat → Nat → Nat → Nat
  | 0, _, Log2Messages => Log2Messages
  | Fuel + 1, TempCount, Log2Messages =>
    if TempCount > 1 then Log2Loop Fuel (TempCount >>> 1) ((Log2Messages + 1) % 256)
    else Log2Messages

/-- The function `HalpConfigurePciMsi`: the status, the writes to configuration
space in program order, the array `Vectors` and the new `NextVector`. -/
def HalpConfigurePciMsi (cfg : CONFIG_SPACE) (NextVector : Nat)
    (BusNumber SlotNumber CapabilityOffset MessageCount : Nat) (Vectors : List Nat) :
    NTSTATUS × List CONFIG_WRITE × List Nat × Nat :=
  let MsiControl := HalGetBusDataByOffset cfg BusNumber SlotNumber (CapabilityOffset + 2) 2
  let Is64Bit := decide (MsiControl &&& 0x0080 ≠ 0)
  let c := ClampMessageCount MsiControl MessageCount
  let UseCompatibilityMode := c.2
  let v := HalpAllocateVector NextVector
  let Vector := v.1
  if Vector = 0 then (STATUS_INSUFFICIENT_RESOURCES, [], Vectors, v.2)
  else
    let MsiAddress := if UseCompatibilityMode then 0xFEE00000 ||| (0 <<< 12) else 0xFEE00000
    let MsiData :=
      if UseCompatibilityMode then (Vector % 2 ^ 16) ||| 0x4000 else Vector % 2 ^ 16
    let w1 : List CONFIG_WRITE :=
      [⟨BusNumber, SlotNumber, CapabilityOffset + 4, 4, MsiAddress⟩]
    let w2 : List CONFIG_WRITE :=
      if Is64Bit then
        [⟨BusNumber, SlotNumber, CapabilityOffset + 8, 4, 0⟩,
         ⟨BusNumber, SlotNumber, CapabilityOffset + 12, 2, MsiData⟩]
      else
        [⟨BusNumber, SlotNumber, CapabilityOffset + 8, 2, MsiData⟩]
    let MsiControl2 :=
      if c.1 > 1 ∧ UseCompatibilityMode = false then
        let Log2Messages := Log2Loop 32 c.1 0
        (MsiControl &&& 0xFF8F) ||| ((Log2Messages <<< 4) &&& 0x0070)
      else MsiControl
    let MsiControl3 := MsiControl2 ||| 0x0001
    (STATUS_SUCCESS,
      w1 ++ w2 ++ [⟨BusNumber, SlotNumber, CapabilityOffset + 2, 2, MsiControl3⟩],
      Vectors.set 0 Vector, v.2)

/-- A configuration space in which every device has, at offset `0x40`, a
capability with ID 9 whose next pointer is `0x40` again, and zeroes elsewhere. -/
def CyclicConfig : CONFIG_SPACE :=
  fun _ _ Offset => if Offset = 0x40 then 0x09 else if Offset = 0x41 then 0x40 else 0

/-- A configuration space with an MSI capability at `0x50` whose control
register reads `0x00A6`: capable of eight messages, 64-bit, two enabled. -/
def MsiConfig : CONFIG_SPACE :=
  fun _ _ Offset =>
    if Offset = 0x50 then 0x05 else if Offset = 0x52 then 0xA6 else 0

end Hal

/-! # The PCI bus driver's device objects (`drivers/bus/pci/pdo.c`) -/

namespace Pci

open Arbiter Hal

def PCI_ADDRESS_IO_SPACE : Nat := 0x1
def PCI_ADDRESS_MEMORY_ADDRESS_MASK_64 : Nat := 0xfffffffffffffff0
def PCI_ADDRESS_IO_ADDRESS_MASK_64 : Nat := 0xfffffffffffffffc
def PCI_CAPABILITY_ID_MSI : Nat := 0x05
def PCI_CAPABILITY_ID_PCI_EXPRESS : Nat := 0x10
def PCI_CAPABILITY_ID_MSIX : Nat := 0x11
def DISPATCH_LEVEL : Nat := 2

/-- The members of `PCI_DEVICE` the functions below read or write. -/
structure PCI_DEVICE where
  BusNumber : Nat
  SlotNumber : Nat
  PciConfig : PCI_COMMON_CONFIG
  SupportsMsi : Bool
  SupportsMsiX : Bool
  MsiCapabilityOffset : Nat
  MsiXCapabilityOffset : Nat
  IsPciExpress : Bool
  PciExpressCapabilityOffset : Nat
deriving DecidableEq, Repr

/-- A `PDO_DEVICE_EXTENSION`: `Common.IsFDO` and the device behind `PciDevice`. -/
structure PDO_DEVICE_EXTENSION where
  IsFDO : Bool
  PciDevice : PCI_DEVICE
deriving DecidableEq, Repr

/-- A `DEVICE_OBJECT`: its `DeviceExtension` pointer. -/
structure DEVICE_OBJECT where
  DeviceExtension : Option PDO_DEVICE_EXTENSION
deriving DecidableEq, Repr

/-- The end of `PdoGetRangeLength`, from `if (NewValue.Bar == 0)` on: the values
stored through `Base`, `Length` and `Flags`, from the two 64-bit unions. -/
def DecodeBar (OriginalValue NewValue : Nat) : Nat × Nat × Nat :=
  if NewValue = 0 then (0, 0, 0)
  else
    let Base :=
      if OriginalValue &&& PCI_ADDRESS_IO_SPACE ≠ 0 then
        OriginalValue &&& PCI_ADDRESS_IO_ADDRESS_MASK_64
      else OriginalValue &&& PCI_ADDRESS_MEMORY_ADDRESS_MASK_64
    let Size :=
      if NewValue &&& PCI_ADDRESS_IO_SPACE ≠ 0 then
        NewValue &&& PCI_ADDRESS_IO_ADDRESS_MASK_64
      else NewValue &&& PCI_ADDRESS_MEMORY_ADDRESS_MASK_64
    let Length := Size &&& (2 ^ 64 - 1 - (Size + (2 ^ 64 - 1)) % 2 ^ 64)
    let Flags :=
      if NewValue &&& PCI_ADDRESS_IO_SPACE ≠ 0 then
        (NewValue &&& (2 ^ 64 - 1 - PCI_ADDRESS_IO_ADDRESS_MASK_64)) % 2 ^ 32
      else (NewValue &&& (2 ^ 64 - 1 - PCI_ADDRESS_MEMORY_ADDRESS_MASK_64)) % 2 ^ 32
    (Base, Length, Flags)

/-- The function `PdoDetectAcpiPcieSupport`, from the value of
`KeGetCurrentIrql()`. -/
def PdoDetectAcpiPcieSupport (Irql : Nat) : Bool :=
  let HasEcam := false
  let HasAcpiInterruptRouting := false
  let p : Bool × Bool :=
    if Irql ≤ DISPATCH_LEVEL then (false, true) else (HasEcam, HasAcpiInterruptRouting)
  p.1 && p.2

/-- The locals `MsiCapability`, `MsiXCapability` and `PciExpressCapability` of
`PdoConfigureMsiSupport`. -/
structure FOUND_CAPABILITIES where
  MsiCapability : Nat
  MsiXCapability : Nat
  PciExpressCapability : Nat
deriving DecidableEq, Repr

/-- The loop of `PdoConfigureMsiSupport` over the capability list, with
`Remaining = 48 - LoopCount` passes still allowed. -/
def WalkCapabilities (cfg : CONFIG_SPACE) (BusNumber SlotNumber : Nat)
    (AcpiPcieSupported : Bool) : Nat → Nat → FOUND_CAPABILITIES → FOUND_CAPABILITIES
  | 0, _, Found => Found
  | Remaining + 1, CapabilityOffset, Found =>
    if CapabilityOffset = 0 then Found
    else
      let CurrentCapability := HalGetBusDataByOffset cfg BusNumber SlotNumber CapabilityOffset 1
      let Found1 : FOUND_CAPABILITIES :=
        if CurrentCapability = PCI_CAPABILITY_ID_MSI then
          { Found with MsiCapability := CapabilityOffset }
        else if CurrentCapability = PCI_CAPABILITY_ID_MSIX then
          { Found with MsiXCapability := CapabilityOffset }
        else if CurrentCapability = PCI_CAPABILITY_ID_PCI_EXPRESS ∧ AcpiPcieSupported = true then
          { Found with PciExpressCapability := CapabilityOffset }
        else Found
      WalkCapabilities cfg BusNumber SlotNumber AcpiPcieSupported Remaining
        (HalGetBusDataByOffset cfg BusNumber SlotNumber (CapabilityOffset + 1) 1) Found1

/-- The function `PdoConfigureMsiSupport`: the device afterwards and the number
of calls of `PdoConfigurePciExpressSupport` it made.  What that function does to
the device is the parameter `ConfigurePciExpress`. -/
def PdoConfigureMsiSupport (cfg : CONFIG_SPACE) (Irql : Nat)
    (ConfigurePciExpress : PCI_DEVICE → PCI_DEVICE) (PciDevice : PCI_DEVICE) :
    PCI_DEVICE × Nat :=
  if PciDevice.PciConfig.Status &&& PCI_STATUS_CAPABILITIES_LIST = 0 then (PciDevice, 0)
  else
    let AcpiPcieSupported := PdoDetectAcpiPcieSupport Irql
    let Found :=
      WalkCapabilities cfg PciDevice.BusNumber PciDevice.SlotNumber AcpiPcieSupported 48
        (PciDevice.PciConfig.CapabilitiesPtr % 256) ⟨0, 0, 0⟩
    let D1 : PCI_DEVICE :=
      if Found.MsiXCapability ≠ 0 then
        { PciDevice with MsiXCapabilityOffset := Found.MsiXCapability, SupportsMsiX := true }
      else if Found.MsiCapability ≠ 0 then
        { PciDevice with MsiCapabilityOffset := Found.MsiCapability, SupportsMsi := true }
      else PciDevice
    if Found.PciExpressCapability ≠ 0 ∧ AcpiPcieSupported = true then
      let D2 : PCI_DEVICE :=
        { D1 with
          PciExpressCapabilityOffset := Found.PciExpressCapability, IsPciExpress := true }
      (ConfigurePciExpress D2, 1)
    else (D1, 0)

/-- A call of the HAL on configuration space. -/
inductive CONFIG_ACCESS where
  | Get (BusNumber SlotNumber Offset Length : Nat)
  | Set (BusNumber SlotNumber Offset Length : Nat)
deriving DecidableEq, Repr

/-- The common body of `PciReadExtendedConfig` and `PciWriteExtendedConfig`,
which differ in the HAL function they call only: the status and the calls made
on configuration space.  `Transferred` is the number of bytes the HAL call
returns; `Buffer` is a pointer; `Offset + Length` is computed in `ULONG`. -/
def ExtendedConfig (Access : Nat → Nat → Nat → Nat → CONFIG_ACCESS)
    (Transferred : Nat → Nat → Nat → Nat → Nat)
    (PhysicalDeviceObject : Option DEVICE_OBJECT) (Offset : Nat) (Buffer : Option Nat)
    (Length : Nat) : NTSTATUS × List CONFIG_ACCESS :=
  match PhysicalDeviceObject, Buffer with
  | none, _ => (STATUS_INVALID_PARAMETER, [])
  | some _, none => (STATUS_INVALID_PARAMETER, [])
  | some Pdo, some _ =>
    if Length = 0 then (STATUS_INVALID_PARAMETER, [])
    else if Offset < 0x100 ∨ (Offset + Length) % 2 ^ 32 > 0x1000 then
      (STATUS_INVALID_PARAMETER, [])
    else
      match Pdo.DeviceExtension with
      | none => (STATUS_INVALID_DEVICE_REQUEST, [])
      | some DeviceExtension =>
        if DeviceExtension.IsFDO then (STATUS_INVALID_DEVICE_REQUEST, [])
        else if ¬ DeviceExtension.PciDevice.IsPciExpress then (STATUS_NOT_SUPPORTED, [])
        else
          let Bytes :=
            Transferred DeviceExtension.PciDevice.BusNumber DeviceExtension.PciDevice.SlotNumber
              Offset Length
          let Calls :=
            [Access DeviceExtension.PciDevice.BusNumber DeviceExtension.PciDevice.SlotNumber
              Offset Length]
          if Bytes ≠ Length then (STATUS_UNSUCCESSFUL, Calls) else (STATUS_SUCCESS, Calls)

/-- The function `PciReadExtendedConfig`. -/
def PciReadExtendedConfig (Transferred : Nat → Nat → Nat → Nat → Nat)
    (PhysicalDeviceObject : Option DEVICE_OBJECT) (Offset : Nat) (Buffer : Option Nat)
    (Length : Nat) : NTSTATUS × List CONFIG_ACCESS :=
  ExtendedConfig CONFIG_ACCESS.Get Transferred PhysicalDeviceObject Offset Buffer Length

/-- The function `PciWriteExtendedConfig`. -/
def PciWriteExtendedConfig (Transferred : Nat → Nat → Nat → Nat → Nat)
    (PhysicalDeviceObject : Option DEVICE_OBJECT) (Offset : Nat) (Buffer : Option Nat)
    (Length : Nat) : NTSTATUS × List CONFIG_ACCESS :=
  ExtendedConfig CONFIG_ACCESS.Set Transferred PhysicalDeviceObject Offset Buffer Length

/-- A device with a capability list starting at `0x40`, nothing detected yet. -/
def SampleDevice : PCI_DEVICE :=
  { BusNumber := 0, SlotNumber := 3, PciConfig := { Status := 0x0010, CapabilitiesPtr := 0x40 },
    SupportsMsi := false, SupportsMsiX := false, MsiCapabilityOffset := 0,
    MsiXCapabilityOffset := 0, IsPciExpress := false, PciExpressCapabilityOffset := 0 }

/-- The device object of `SampleDevice`, a PDO. -/
def SamplePdo : DEVICE_OBJECT :=
  { DeviceExtension := some { IsFDO := false, PciDevice := SampleDevice } }

/-- The device object of a device marked as PCI Express, a PDO. -/
def ExpressPdo : DEVICE_OBJECT :=
  { DeviceExtension :=
      some { IsFDO := false, PciDevice := { SampleDevice with IsPciExpress := true } } }

/-- A HAL that transfers every byte asked for. -/
def FullTransfer : Nat → Nat → Nat → Nat → Nat := fun _ _ _ Length => Length

/-- A configuration space in which every device has a PCI Express capability at
`0x40`, the only one of its list. -/
def ExpressConfig : CONFIG_SPACE :=
  fun _ _ Offset => if Offset = 0x40 then 0x10 else 0

end Pci

/-! # Device notifications of the ACPI bus driver (`drivers/bus/acpi/interface.c`) -/

namespace Acpi

open Arbiter

/-- The members of an `ACPI_NOTIFICATION_HANDLER_ENTRY` the dispatch reads: the
address of its callback (`none`: `NULL`) and its context. -/
structure ACPI_NOTIFICATION_HANDLER_ENTRY where
  NotificationHandler : Option Nat
  NotificationContext : Nat
deriving DecidableEq, Repr

/-- Pool memory at the address of an entry: whether the block is still
allocated (`AcpiInterfaceNotificationsUnregister` frees it), and what the two
members hold when read, allocated or not. -/
structure ENTRY_BLOCK where
  Allocated : Bool
  Entry : ACPI_NOTIFICATION_HANDLER_ENTRY
deriving DecidableEq, Repr

/-- Memory, as far as entries are read from it: the block at each address. -/
abbrev MEMORY := Nat → ENTRY_BLOCK

/-- What happens to memory between two passes of the calling loop, by the
index of the pass that follows: the work of other processors and of the
callback just called, none of which is held off by a lock at that point. -/
abbrev INTERFERENCE := Nat → MEMORY → MEMORY

/-- A `PDO_DEVICE_DATA`: the addresses of the entries linked into its list
`NotificationHandlers`, in list order.  Its `NotificationLock` shows in the
events. -/
structure PDO_DEVICE_DATA where
  NotificationHandlers : List Nat
deriving DecidableEq, Repr

/-- What one call of `AcpiDeviceNotificationHandler` does, in program order:
taking and releasing `NotificationLock`; reaching an entry in the counting pass
(`Walk`); `HandlersArray[Index] = HandlerEntry` in the copying pass (`Store`);
reading `NotificationHandler` and `NotificationContext` through
`HandlersArray[i]` (`Read`); calling a callback with its two arguments. -/
inductive ACPI_EVENT where
  | KeAcquireSpinLock
  | KeReleaseSpinLock
  | Walk (Entry : Nat)
  | Store (Index Entry : Nat)
  | Read (Entry : Nat)
  | Call (NotificationHandler NotificationContext NotifyValue : Nat)
deriving DecidableEq, Repr

/-- The copying pass over the entries, from index `i`. -/
def StoreEntries : Nat → List Nat → List ACPI_EVENT
  | _, [] => []
  | i, HandlerEntry :: rest => ACPI_EVENT.Store i HandlerEntry :: StoreEntries (i + 1) rest

/-- The loop that calls the handlers of `HandlersArray`, from index `i`, on the
memory left by the pass before: its events, and whether it read a block that
was no longer allocated.  The reads of one pass are taken together. -/
def CallHandlers (env : INTERFERENCE) (NotifyValue : Nat) :
    Nat → List Nat → MEMORY → List ACPI_EVENT × Bool
  | _, [], _ => ([], false)
  | i, HandlerEntry :: rest, Memory =>
    let Now := env i Memory
    let r := CallHandlers env NotifyValue (i + 1) rest Now
    if HandlerEntry = 0 then r
    else
      let Block := Now HandlerEntry
      match Block.Entry.NotificationHandler with
      | some Handler =>
        (ACPI_EVENT.Read HandlerEntry ::
            ACPI_EVENT.Call Handler Block.Entry.NotificationContext NotifyValue :: r.1,
          !Block.Allocated || r.2)
      | none => (ACPI_EVENT.Read HandlerEntry :: r.1, !Block.Allocated || r.2)

/-- The function `AcpiDeviceNotificationHandler`: its events in program order,
the pool, and whether it read an entry whose block had been freed.  `Context` is
the device data (`none`: `NULL`); `Memory` is the memory at the release of the
lock; `HandlerCount` is a `ULONG`; the copying pass stores at most `HandlerCount`
pointers. -/
def AcpiDeviceNotificationHandler (o : POOL_ORACLE) (env : INTERFERENCE) (NotifyValue : Nat)
    (Context : Option PDO_DEVICE_DATA) (Memory : MEMORY) (pool : POOL) :
    List ACPI_EVENT × POOL × Bool :=
  match Context with
  | none => ([], pool, false)
  | some DeviceData =>
    let FirstPass := DeviceData.NotificationHandlers.map ACPI_EVENT.Walk
    let HandlerCount := DeviceData.NotificationHandlers.length % 2 ^ 32
    if HandlerCount = 0 then
      ([ACPI_EVENT.KeAcquireSpinLock] ++ FirstPass ++ [ACPI_EVENT.KeReleaseSpinLock], pool, false)
    else
      let a := ExAllocatePoolWithTag o pool
      match a.1 with
      | none =>
        ([ACPI_EVENT.KeAcquireSpinLock] ++ FirstPass ++ [ACPI_EVENT.KeReleaseSpinLock], a.2,
          false)
      | some HandlersArray =>
        let Stored := DeviceData.NotificationHandlers.take HandlerCount
        let c := CallHandlers env NotifyValue 0 Stored Memory
        ([ACPI_EVENT.KeAcquireSpinLock] ++ FirstPass ++ StoreEntries 0 Stored ++
            [ACPI_EVENT.KeReleaseSpinLock] ++ c.1,
          ExFreePoolWithTag HandlersArray a.2, c.2)

/-- The callbacks called by a sequence of events, in order. -/
def Calls : List ACPI_EVENT → List ACPI_EVENT
  | [] => []
  | ACPI_EVENT.Call Handler Context NotifyValue :: rest =>
    ACPI_EVENT.Call Handler Context NotifyValue :: Calls rest
  | _ :: rest => Calls rest

/-- No interference at all. -/
def Quiet : INTERFERENCE := fun _ Memory => Memory

/-- A memory with three entries: at `0x10` a handler with callback `0x1000`, at
`0x20` an entry whose callback is `NULL`, at `0x30` a handler with callback
`0x2000`; nothing allocated elsewhere. -/
def SampleMemory : MEMORY := fun Address =>
  if Address = 0x10 then ⟨true, ⟨some 0x1000, 1⟩⟩
  else if Address = 0x20 then ⟨true, ⟨none, 2⟩⟩
  else if Address = 0x30 then ⟨true, ⟨some 0x2000, 3⟩⟩
  else ⟨false, ⟨none, 0⟩⟩

/-- A device whose list links the three entries of `SampleMemory`. -/
def SampleDeviceData : PDO_DEVICE_DATA := { NotificationHandlers := [0x10, 0x20, 0x30] }

/-- The callback at `0x1000` unregisters the handler at `0x30` while it runs:
after the first pass of the calling loop the block at `0x30` is freed, and the
pool has written `0xDEAD` over its first member. -/
def UnregisterDuringCall : INTERFERENCE := fun i Memory =>
  if i = 1 then fun Address => if Address = 0x30 then ⟨false, ⟨some 0xDEAD, 3⟩⟩ else Memory Address
  else Memory

end Acpi

namespace Arbiter

/-! ## The loop of `ArbPruneOrdering` -/

theorem PruneStep_keep (s e w i : Nat) (b : ORDERING_BLOCK) (pool : POOL) (v : ARBITER_ORDERING)
    (hv : b.Cells[i]? = some v) (hk : Keeps s e v = true) (hw : w < b.Cells.length) :
    PruneStep s e (w, some b, pool) i
      = ((w + 1) % 2 ^ 16, some { b with Cells := if w = i then b.Cells else b.Cells.set w v }, pool) := by
  by_cases hwi : w = i
  · simp [PruneStep, ReadOrdering, hv, hk, hwi]
  · simp [PruneStep, ReadOrdering, WriteOrdering, hv, hk, hwi, hw]

theorem PruneStep_drop (s e w i : Nat) (b : ORDERING_BLOCK) (pool : POOL) (v : ARBITER_ORDERING)
    (hv : b.Cells[i]? = some v) (hk : Keeps s e v = false) :
    PruneStep s e (w, some b, pool) i = (w, some b, pool) := by
  simp [PruneStep, ReadOrdering, hv, hk]

theorem prune_fold (s e : Nat) (b0 : ORDERING_BLOCK) (pool : POOL) :
    ∀ n, n ≤ b0.Cells.length → n < 2 ^ 16 →
      ∃ mid : List ARBITER_ORDERING,
        (List.range n).foldl (PruneStep s e) (0, some b0, pool)
          = (((b0.Cells.take n).filter (Keeps s e)).length,
             some { b0 with Cells := (b0.Cells.take n).filter (Keeps s e) ++ mid ++ b0.Cells.drop n },
             pool)
        ∧ mid.length + ((b0.Cells.take n).filter (Keeps s e)).length = n := by
  intro n
  induction n with
  | zero => intro _ _; exact ⟨[], by simp, by simp⟩
  | succ n ih =>
    intro hn h16
    obtain ⟨mid, hfold, hlen⟩ := ih (by omega) (by omega)
    have hlt : n < b0.Cells.length := by omega
    have h16n : n + 1 < 65536 := by norm_num at h16; exact h16
    have htake : b0.Cells.take (n + 1) = b0.Cells.take n ++ [b0.Cells[n]] := by
      rw [List.take_succ, List.getElem?_eq_getElem hlt]; rfl
    have hdrop : b0.Cells.drop n = b0.Cells[n] :: b0.Cells.drop (n + 1) := by
      exact List.drop_eq_getElem_cons hlt
    set F := (b0.Cells.take n).filter (Keeps s e) with hF
    set v := b0.Cells[n] with hvdef
    have hFlen : F.length ≤ n := by omega
    rw [List.range_succ, List.foldl_append, hfold]
    simp only [List.foldl_cons, List.foldl_nil]
    have hread : (F ++ mid ++ b0.Cells.drop n)[n]? = some v := by
      rw [hdrop, List.getElem?_append_right (by simp; omega)]
      simp [show n - (F.length + mid.length) = 0 by omega]
    by_cases hk : Keeps s e v = true
    · have hfilt : (b0.Cells.take (n + 1)).filter (Keeps s e) = F ++ [v] := by
        rw [htake, List.filter_append]; simp [hk, hF]
      rw [PruneStep_keep s e F.length n _ pool v hread hk (by simp; omega)]
      rw [hfilt]
      have hmod : (F.length + 1) % 2 ^ 16 = F.length + 1 := Nat.mod_eq_of_lt (by omega)
      by_cases hwn : F.length = n
      · have hmid : mid = [] := by
          apply List.eq_nil_of_length_eq_zero; omega
        subst hmid
        refine ⟨[], ?_, by simp; omega⟩
        simp [hwn, hmod, hdrop]
        omega
      · obtain ⟨m, mid', rfl⟩ : ∃ m mid', mid = m :: mid' := by
          cases mid with
          | nil => simp at hlen; omega
          | cons m mid' => exact ⟨m, mid', rfl⟩
        refine ⟨mid' ++ [v], ?_, by simp at hlen ⊢; omega⟩
        simp [hwn, hmod, hdrop, List.set_append]
        omega
    · have hk' : Keeps s e v = false := by simpa using hk
      have hfilt : (b0.Cells.take (n + 1)).filter (Keeps s e) = F := by
        rw [htake, List.filter_append]; simp [hk', hF]
      rw [PruneStep_drop s e F.length n _ pool v hread hk', hfilt]
      refine ⟨mid ++ [v], ?_, by simp; omega⟩
      simp [hdrop]



/-- The loop of `ArbPruneOrdering` on a well-formed list is a filter of the
stored entries by the test of the source. -/
theorem ArbPruneOrdering_spec (L : ARBITER_ORDERING_LIST) (s e : Nat) (pool : POOL)
    (hwf : WellFormed L) :
    (ArbPruneOrdering L s e pool).1 = STATUS_SUCCESS ∧
    Entries (ArbPruneOrdering L s e pool).2.1 = (Entries L).filter (Keeps s e) ∧
    (ArbPruneOrdering L s e pool).2.1.Count = ((Entries L).filter (Keeps s e)).length ∧
    (ArbPruneOrdering L s e pool).2.1.Maximum = L.Maximum ∧
    (ArbPruneOrdering L s e pool).2.1.Orderings.map (·.Address) = L.Orderings.map (·.Address) ∧
    Capacity (ArbPruneOrdering L s e pool).2.1 = Capacity L ∧
    (ArbPruneOrdering L s e pool).2.2 = pool := by
  obtain ⟨hc, hm, hcap⟩ := hwf
  cases hO : L.Orderings with
  | none =>
    have h0 : L.Count = 0 := by simp [Capacity, hO] at hcap; omega
    simp [ArbPruneOrdering, Entries, Capacity, hO, h0]
  | some b0 =>
    have hlen : L.Count ≤ b0.Cells.length := by simp [Capacity, hO] at hcap; omega
    obtain ⟨mid, hfold, hmid⟩ := prune_fold s e b0 pool L.Count hlen (by omega)
    simp only [ArbPruneOrdering, hO, hfold, Entries, Capacity]
    refine ⟨trivial, ?_, trivial, trivial, by simp, ?_, trivial⟩
    · simp [List.take_append_eq_append_take]
    · simp; omega

theorem Entries_length_le (L : ARBITER_ORDERING_LIST) : (Entries L).length ≤ L.Count := by
  unfold Entries
  cases L.Orderings with
  | none => simp
  | some b => simp

/-- Pruning keeps a well-formed list well-formed. -/
theorem WellFormed_prune (L : ARBITER_ORDERING_LIST) (s e : Nat) (pool : POOL)
    (hwf : WellFormed L) : WellFormed (ArbPruneOrdering L s e pool).2.1 := by
  obtain ⟨_, _, h3, h4, _, h6, _⟩ := ArbPruneOrdering_spec L s e pool hwf
  have h1 := List.length_filter_le (Keeps s e) (Entries L)
  have h2 := Entries_length_le L
  obtain ⟨hc, hm, hcap⟩ := hwf
  exact ⟨by rw [h3, h4]; omega, by rw [h4]; exact hm, by rw [h6, h4]; exact hcap⟩

/-- Freeing gives the well-formed empty list. -/
theorem WellFormed_free (L : ARBITER_ORDERING_LIST) (pool : POOL) :
    WellFormed (ArbFreeOrderingList L pool).1 ∧ (ArbFreeOrderingList L pool).1.Count = 0 ∧
      (ArbFreeOrderingList L pool).1.Maximum = 0 := by
  cases hO : L.Orderings <;> simp [ArbFreeOrderingList, WellFormed, Capacity, hO]

/-! ## One call of `ArbAddOrdering`, and sequences of calls -/

theorem take_succ_set {α : Type} (l : List α) (n : Nat) (v : α) (h : n < l.length) :
    (l.set n v).take (n + 1) = l.take n ++ [v] := by
  induction l generalizing n with
  | nil => simp at h
  | cons a t ih =>
    cases n with
    | zero => simp
    | succ k => simp at h; simp [ih k h]

theorem copy_set {α : Type} (old fresh : List α) (v : α) (h : old.length < fresh.length) :
    ((old.take old.length ++ fresh.drop old.length).take fresh.length).set old.length v
      = old ++ v :: fresh.drop (old.length + 1) := by
  have h1 : (old ++ fresh.drop old.length).length = fresh.length := by simp; omega
  rw [List.take_length, List.take_of_length_le (by omega)]
  simp only [List.set_append_right _ _ (Nat.le_refl old.length), Nat.sub_self]
  rw [List.drop_eq_getElem_cons h, List.set_cons_zero]

theorem ArbAddOrdering_fail (o : POOL_ORACLE) (L : ARBITER_ORDERING_LIST) (s e : Nat) (pool : POOL)
    (hfull : L.Count ≥ L.Maximum) (hno : o.Avail pool.Calls = false) :
    ArbAddOrdering o L s e pool
      = (STATUS_INSUFFICIENT_RESOURCES, L, { pool with Calls := pool.Calls + 1 }) := by
  simp [ArbAddOrdering, ExAllocatePoolWithTag, hfull, hno]

theorem NewMaximum_gt (m : Nat) (h : m < 2 ^ 15) : m < NewMaximum m ∧ NewMaximum m < 2 ^ 16 := by
  unfold NewMaximum
  norm_num at h ⊢
  split
  · omega
  · rw [Nat.mod_eq_of_lt (by omega)]; omega

/-- Growing and storing, on a full well-formed list below the 16-bit limit. -/
theorem ArbAddOrdering_grow (o : POOL_ORACLE) (L : ARBITER_ORDERING_LIST) (s e : Nat) (pool : POOL)
    (hwf : WellFormed L) (hfull : L.Count = L.Maximum) (hlim : L.Maximum < 2 ^ 15)
    (hyes : o.Avail pool.Calls = true) :
    (ArbAddOrdering o L s e pool).1 = STATUS_SUCCESS ∧
    Entries (ArbAddOrdering o L s e pool).2.1 = Entries L ++ [⟨s, e⟩] ∧
    (ArbAddOrdering o L s e pool).2.1.Count = L.Count + 1 ∧
    (ArbAddOrdering o L s e pool).2.1.Maximum = NewMaximum L.Maximum ∧
    WellFormed (ArbAddOrdering o L s e pool).2.1 ∧
    (ArbAddOrdering o L s e pool).2.2.Corrupt = pool.Corrupt ∧
    (ArbAddOrdering o L s e pool).2.2.Calls = pool.Calls + 1 := by
  obtain ⟨Count, Maximum, Orderings⟩ := L
  obtain ⟨hc, hm, hcap⟩ := hwf
  simp only at hfull hlim hc hm hcap
  subst hfull
  obtain ⟨hgt, hlt⟩ := NewMaximum_gt Count hlim
  have h16 : (Count + 1) % 2 ^ 16 = Count + 1 := Nat.mod_eq_of_lt (by omega)
  cases Orderings with
  | none =>
    have hC : Count = 0 := by simpa [Capacity] using hcap.symm
    subst hC
    have hN : NewMaximum 0 = 4 := rfl
    simp [ArbAddOrdering, ExAllocatePoolWithTag, hyes, hN, WriteOrdering,
      FreshOrderings, Entries, WellFormed, Capacity, STATUS_SUCCESS, List.range_succ]
  | some Old =>
    have hlen : Old.Cells.length = Count := by simpa [Capacity] using hcap
    subst hlen
    have hfl : (List.map (o.Fill pool.Calls) (List.range (NewMaximum Old.Cells.length))).length
        = NewMaximum Old.Cells.length := by simp
    have hcs := copy_set Old.Cells
      (List.map (o.Fill pool.Calls) (List.range (NewMaximum Old.Cells.length))) ⟨s, e⟩
      (by rw [hfl]; exact hgt)
    rw [hfl] at hcs
    have hw : Old.Cells.length <
        (List.take (NewMaximum Old.Cells.length) (List.take Old.Cells.length Old.Cells ++
          List.drop Old.Cells.length
            (List.map (o.Fill pool.Calls) (List.range (NewMaximum Old.Cells.length))))).length := by
      simp; omega
    simp only [ArbAddOrdering, ExAllocatePoolWithTag, hyes, ge_iff_le, le_refl,
      if_true, RtlCopyMemory, FreshOrderings, WriteOrdering, ExFreePoolWithTag, hfl, hw, hcs,
      Entries, WellFormed, Capacity, h16]
    refine ⟨trivial, ?_, trivial, trivial, ⟨by omega, hlt, ?_⟩, ?_, trivial⟩
    · simp [List.take_append_eq_append_take]
    · simp; omega
    · simp; omega

/-- Storing into a well-formed list that has room. -/
theorem ArbAddOrdering_room (o : POOL_ORACLE) (L : ARBITER_ORDERING_LIST) (s e : Nat) (pool : POOL)
    (hwf : WellFormed L) (hroom : L.Count < L.Maximum) :
    (ArbAddOrdering o L s e pool).1 = STATUS_SUCCESS ∧
    Entries (ArbAddOrdering o L s e pool).2.1 = Entries L ++ [⟨s, e⟩] ∧
    (ArbAddOrdering o L s e pool).2.1.Count = L.Count + 1 ∧
    (ArbAddOrdering o L s e pool).2.1.Maximum = L.Maximum ∧
    WellFormed (ArbAddOrdering o L s e pool).2.1 ∧
    (ArbAddOrdering o L s e pool).2.2 = pool := by
  obtain ⟨Count, Maximum, Orderings⟩ := L
  obtain ⟨hc, hm, hcap⟩ := hwf
  simp only at hroom hc hm hcap
  have h16 : (Count + 1) % 2 ^ 16 = Count + 1 := Nat.mod_eq_of_lt (by omega)
  cases Orderings with
  | none => simp [Capacity] at hcap; omega
  | some b =>
    have hlen : b.Cells.length = Maximum := by simpa [Capacity] using hcap
    have hlt : Count < b.Cells.length := by omega
    have hnot : ¬ Maximum ≤ Count := by omega
    simp only [ArbAddOrdering, ge_iff_le, hnot, if_false, WriteOrdering, hlt, if_true,
      Entries, WellFormed, Capacity, List.length_set, h16]
    exact ⟨trivial, take_succ_set _ _ _ hlt, trivial, trivial, ⟨by omega, hm, hlen⟩, trivial⟩


/-- Below `2 ^ 15` entries a call of `ArbAddOrdering` keeps a well-formed list
well-formed, whether the allocation succeeds or not. -/
theorem WellFormed_add_below_limit (o : POOL_ORACLE) (L : ARBITER_ORDERING_LIST) (s e : Nat)
    (pool : POOL) (hwf : WellFormed L) (hlim : L.Count < 2 ^ 15) :
    WellFormed (ArbAddOrdering o L s e pool).2.1 := by
  by_cases hroom : L.Count < L.Maximum
  · exact (ArbAddOrdering_room o L s e pool hwf hroom).2.2.2.2.1
  · have hfull : L.Count = L.Maximum := by have := hwf.1; omega
    by_cases hyes : o.Avail pool.Calls = true
    · exact (ArbAddOrdering_grow o L s e pool hwf hfull (by omega) hyes).2.2.2.2.1
    · rw [ArbAddOrdering_fail o L s e pool (by omega) (by simpa using hyes)]
      exact hwf

theorem AddSequence_append (o : POOL_ORACLE) (a b : List (Nat × Nat)) :
    ∀ (L : ARBITER_ORDERING_LIST) (pool : POOL),
      AddSequence o (a ++ b) L pool
        = ((AddSequence o a L pool).1 ++
              (AddSequence o b (AddSequence o a L pool).2.1 (AddSequence o a L pool).2.2).1,
           (AddSequence o b (AddSequence o a L pool).2.1 (AddSequence o a L pool).2.2).2.1,
           (AddSequence o b (AddSequence o a L pool).2.1 (AddSequence o a L pool).2.2).2.2) := by
  induction a with
  | nil => intro L pool; simp [AddSequence]
  | cons x t ih => intro L pool; simp [AddSequence, ih]

theorem NewMaximum_Doubling (m : Nat) (h : m < 2 ^ 15) (hd : Doubling m) :
    Doubling (NewMaximum m) := by
  rcases hd with h0 | ⟨k, hk⟩
  · subst h0; exact Or.inr ⟨0, rfl⟩
  · right
    refine ⟨k + 1, ?_⟩
    have hpos : 0 < 2 ^ k := Nat.two_pow_pos k
    have hm0 : m ≠ 0 := by omega
    norm_num at h
    simp only [NewMaximum, hm0, if_false]
    rw [Nat.mod_eq_of_lt (by norm_num; omega), hk, pow_succ]; ring


theorem AddSequence_cons (o : POOL_ORACLE) (a : Nat × Nat) (rest : List (Nat × Nat))
    (L : ARBITER_ORDERING_LIST) (pool : POOL) :
    AddSequence o (a :: rest) L pool
      = ((ArbAddOrdering o L a.1 a.2 pool).1 ::
            (AddSequence o rest (ArbAddOrdering o L a.1 a.2 pool).2.1
              (ArbAddOrdering o L a.1 a.2 pool).2.2).1,
         (AddSequence o rest (ArbAddOrdering o L a.1 a.2 pool).2.1
              (ArbAddOrdering o L a.1 a.2 pool).2.2).2.1,
         (AddSequence o rest (ArbAddOrdering o L a.1 a.2 pool).2.1
              (ArbAddOrdering o L a.1 a.2 pool).2.2).2.2) := rfl

theorem AddSequence_below_limit (o : POOL_ORACLE) (args : List (Nat × Nat)) :
    ∀ (L : ARBITER_ORDERING_LIST) (pool : POOL), WellFormed L → Doubling L.Maximum →
      L.Count + args.length ≤ 2 ^ 15 →
      (AddSequence o args L pool).1.length = args.length ∧
      Entries (AddSequence o args L pool).2.1
        = Entries L ++ Accepted args (AddSequence o args L pool).1 ∧
      (AddSequence o args L pool).2.1.Count
        = L.Count + (AddSequence o args L pool).1.count STATUS_SUCCESS ∧
      WellFormed (AddSequence o args L pool).2.1 ∧
      Doubling (AddSequence o args L pool).2.1.Maximum ∧
      (AddSequence o args L pool).2.2.Corrupt = pool.Corrupt ∧
      ((∀ k, o.Avail k = true) →
        (AddSequence o args L pool).1 = List.replicate args.length STATUS_SUCCESS) := by
  induction args with
  | nil => intro L pool hwf hd _; simp [AddSequence, Accepted, hwf, hd]
  | cons a rest ih =>
    intro L pool hwf hd hlim
    simp only [List.length_cons] at hlim
    have hne : STATUS_INSUFFICIENT_RESOURCES ≠ STATUS_SUCCESS := by decide
    rw [AddSequence_cons]
    by_cases hroom : L.Count < L.Maximum
    · obtain ⟨h1, h2, h3, h4, h5, h6⟩ := ArbAddOrdering_room o L a.1 a.2 pool hwf hroom
      obtain ⟨i1, i2, i3, i4, i5, i6, i7⟩ :=
        ih (ArbAddOrdering o L a.1 a.2 pool).2.1 (ArbAddOrdering o L a.1 a.2 pool).2.2 h5
          (by rw [h4]; exact hd) (by rw [h3]; omega)
      refine ⟨by simp [i1], ?_, ?_, i4, i5, i6.trans (by rw [h6]), fun hall => ?_⟩
      · rw [i2, h2, h1]; simp [Accepted]
      · rw [i3, h3, h1]; simp; omega
      · rw [h1, i7 hall]; rfl
    · have hfull : L.Count = L.Maximum := by have := hwf.1; omega
      by_cases hyes : o.Avail pool.Calls = true
      · obtain ⟨h1, h2, h3, h4, h5, h6, _⟩ :=
          ArbAddOrdering_grow o L a.1 a.2 pool hwf hfull (by omega) hyes
        obtain ⟨i1, i2, i3, i4, i5, i6, i7⟩ :=
          ih (ArbAddOrdering o L a.1 a.2 pool).2.1 (ArbAddOrdering o L a.1 a.2 pool).2.2 h5
            (by rw [h4]; exact NewMaximum_Doubling _ (by omega) hd) (by rw [h3]; omega)
        refine ⟨by simp [i1], ?_, ?_, i4, i5, i6.trans h6, fun hall => ?_⟩
        · rw [i2, h2, h1]; simp [Accepted]
        · rw [i3, h3, h1]; simp; omega
        · rw [h1, i7 hall]; rfl
      · have hno : o.Avail pool.Calls = false := by simpa using hyes
        have hf := ArbAddOrdering_fail o L a.1 a.2 pool (by omega) hno
        rw [hf]
        obtain ⟨i1, i2, i3, i4, i5, i6, i7⟩ :=
          ih L { pool with Calls := pool.Calls + 1 } hwf hd (by omega)
        refine ⟨by simp [i1], ?_, ?_, i4, i5, i6, fun hall => ?_⟩
        · rw [i2]; simp [Accepted, hne]
        · rw [i3]; simp [List.count_cons, hne]
        · rw [hall] at hno; cases hno


theorem NewMaximum_limit : NewMaximum (2 ^ 15) = 0 := by
  norm_num [NewMaximum]

theorem ArbAddOrdering_overflow (o : POOL_ORACLE) (L : ARBITER_ORDERING_LIST) (s e : Nat)
    (pool : POOL) (hwf : WellFormed L) (hfull : L.Count = L.Maximum) (hlim : L.Maximum = 2 ^ 15)
    (hyes : o.Avail pool.Calls = true) :
    (ArbAddOrdering o L s e pool).1 = STATUS_SUCCESS ∧
    (ArbAddOrdering o L s e pool).2.1.Count = L.Count + 1 ∧
    (ArbAddOrdering o L s e pool).2.1.Maximum = 0 ∧
    Entries (ArbAddOrdering o L s e pool).2.1 = [] ∧
    (ArbAddOrdering o L s e pool).2.2.Corrupt = true ∧
    Capacity (ArbAddOrdering o L s e pool).2.1 = 0 := by
  obtain ⟨Count, Maximum, Orderings⟩ := L
  obtain ⟨hc, hm, hcap⟩ := hwf
  simp only at hfull hlim hc hm hcap
  subst hfull
  have hN : NewMaximum Count = 0 := by rw [hlim]; exact NewMaximum_limit
  have hpos : 0 < Count := by rw [hlim]; norm_num
  have h16 : (Count + 1) % 2 ^ 16 = Count + 1 := by
    apply Nat.mod_eq_of_lt; rw [hlim]; norm_num
  cases Orderings with
  | none => simp [Capacity] at hcap; omega
  | some Old =>
    simp only [ArbAddOrdering, ExAllocatePoolWithTag, hyes, hN, RtlCopyMemory, Capacity,
      FreshOrderings, WriteOrdering, ExFreePoolWithTag, Entries, h16, ge_iff_le, le_refl, if_true,
      List.range_zero, List.map_nil, List.length_nil, List.take_zero, Nat.not_lt_zero, if_false,
      List.take_nil, hpos, or_true, decide_True, Bool.or_true, and_self]

theorem WellFormed_FullList : WellFormed FullList :=
  ⟨Nat.le_refl _, by norm_num [FullList, Limit], List.length_replicate _ _⟩

theorem Doubling_limit (m : Nat) (hd : Doubling m) (h1 : 2 ^ 15 ≤ m) (h2 : m < 2 ^ 16) :
    m = 2 ^ 15 := by
  rcases hd with h0 | ⟨k, hk⟩
  · subst h0; norm_num at h1
  · have hm : m = 2 ^ (k + 2) := by rw [hk, pow_add]; ring
    rw [hm] at h1 h2 ⊢
    have a1 : 15 ≤ k + 2 := (Nat.pow_le_pow_iff_right (by norm_num)).1 h1
    have a2 : k + 2 < 16 := (Nat.pow_lt_pow_iff_right (by norm_num)).1 h2
    have : k + 2 = 15 := by omega
    rw [this]

theorem WellFormed_init : WellFormed ArbInitializeOrderingList.2 := by
  simp [WellFormed, ArbInitializeOrderingList, Capacity]

theorem AlwaysAvail_Avail (k : Nat) : AlwaysAvail.Avail k = true := rfl

theorem Accepted_length (args : List (Nat × Nat)) :
    ∀ sts : List NTSTATUS, sts.length = args.length → (∀ st ∈ sts, st = STATUS_SUCCESS) →
      (Accepted args sts).length = args.length := by
  induction args with
  | nil => intro sts _ _; cases sts <;> rfl
  | cons a rest ih =>
    intro sts hl hs
    cases sts with
    | nil => simp at hl
    | cons st more =>
      have h1 : st = STATUS_SUCCESS := hs st (List.mem_cons_self _ _)
      simp only [Accepted, h1, if_true, List.length_cons]
      rw [ih more (by simpa using hl) (fun x hx => hs x (List.mem_cons_of_mem _ hx))]

theorem Accepted_ne_nil (a : Nat × Nat) (args : List (Nat × Nat)) :
    Accepted (args ++ [a]) (List.replicate args.length STATUS_SUCCESS ++ [STATUS_SUCCESS])
      ≠ [] := by
  intro hc
  have hlen := congrArg List.length hc
  rw [Accepted_length _ _ (by simp)
    (by
      intro st hst
      rcases List.mem_append.1 hst with h | h
      · exact List.eq_of_mem_replicate h
      · exact List.mem_singleton.1 h)] at hlen
  simp at hlen

theorem AddSequence_singleton (o : POOL_ORACLE) (a : Nat × Nat)
    (L : ARBITER_ORDERING_LIST) (pool : POOL) :
    AddSequence o [a] L pool
      = ([(ArbAddOrdering o L a.1 a.2 pool).1], (ArbAddOrdering o L a.1 a.2 pool).2.1,
         (ArbAddOrdering o L a.1 a.2 pool).2.2) := rfl

/-- A run that fills a list to `2 ^ 15` entries, followed by one more call. -/
theorem AddSequence_then_overflow (o : POOL_ORACLE) (args : List (Nat × Nat)) (a : Nat × Nat)
    (L : ARBITER_ORDERING_LIST) (pool : POOL) (hwf : WellFormed L) (hd : Doubling L.Maximum)
    (h0 : L.Count = 0) (hlen : args.length = 2 ^ 15) (hall : ∀ k, o.Avail k = true) :
    (AddSequence o (args ++ [a]) L pool).1
      = List.replicate args.length STATUS_SUCCESS ++ [STATUS_SUCCESS] ∧
    (AddSequence o (args ++ [a]) L pool).2.1.Count = args.length + 1 ∧
    (AddSequence o (args ++ [a]) L pool).2.1.Maximum = 0 ∧
    Entries (AddSequence o (args ++ [a]) L pool).2.1 = [] ∧
    (AddSequence o (args ++ [a]) L pool).2.2.Corrupt = true ∧
    Capacity (AddSequence o (args ++ [a]) L pool).2.1 = 0 := by
  obtain ⟨_, _, i3, i4, i5, _, i7⟩ :=
    AddSequence_below_limit o args L pool hwf hd (by omega)
  have hst := i7 hall
  rw [hst, List.count_replicate_self, h0, Nat.zero_add] at i3
  have hle := i4.1
  rw [i3, hlen] at hle
  have hM := Doubling_limit _ i5 hle i4.2.1
  obtain ⟨o1, o2, o3, o4, o5, o6⟩ := ArbAddOrdering_overflow o _ a.1 a.2
    (AddSequence o args L pool).2.2 i4 (by rw [i3, hM, hlen]) hM (hall _)
  rw [AddSequence_append, AddSequence_singleton]
  refine ⟨?_, ?_, o3, o4, o5, o6⟩
  · rw [hst, o1]
  · rw [o2, i3]

/-- The run of `Limit + 1` calls on a fresh list, with memory for every allocation. -/
theorem overflow_run :
    (AddSequence AlwaysAvail OverflowArgs ArbInitializeOrderingList.2 EmptyPool).1
      = List.replicate Limit STATUS_SUCCESS ++ [STATUS_SUCCESS] ∧
    (AddSequence AlwaysAvail OverflowArgs ArbInitializeOrderingList.2 EmptyPool).2.1.Count
      = Limit + 1 ∧
    (AddSequence AlwaysAvail OverflowArgs ArbInitializeOrderingList.2 EmptyPool).2.1.Maximum = 0 ∧
    Entries (AddSequence AlwaysAvail OverflowArgs ArbInitializeOrderingList.2 EmptyPool).2.1 = [] ∧
    (AddSequence AlwaysAvail OverflowArgs ArbInitializeOrderingList.2 EmptyPool).2.2.Corrupt
      = true ∧
    Capacity (AddSequence AlwaysAvail OverflowArgs ArbInitializeOrderingList.2 EmptyPool).2.1
      = 0 := by
  have h := AddSequence_then_overflow AlwaysAvail (List.replicate Limit (0, 0)) (0, 0)
    ArbInitializeOrderingList.2 EmptyPool WellFormed_init (Or.inl rfl) rfl
    (List.length_replicate _ _) AlwaysAvail_Avail
  rw [List.length_replicate] at h
  exact h


theorem ArbAddOrdering_ok (o : POOL_ORACLE) (L : ARBITER_ORDERING_LIST) (s e : Nat) (pool : POOL)
    (hwf : WellFormed L) (hd : Doubling L.Maximum) (hlim : L.Count < 2 ^ 15)
    (hall : ∀ k, o.Avail k = true) :
    Entries (ArbAddOrdering o L s e pool).2.1 = Entries L ++ [⟨s, e⟩] ∧
    (ArbAddOrdering o L s e pool).2.1.Count = L.Count + 1 ∧
    WellFormed (ArbAddOrdering o L s e pool).2.1 ∧
    Doubling (ArbAddOrdering o L s e pool).2.1.Maximum := by
  by_cases hroom : L.Count < L.Maximum
  · obtain ⟨_, h2, h3, h4, h5, _⟩ := ArbAddOrdering_room o L s e pool hwf hroom
    exact ⟨h2, h3, h5, by rw [h4]; exact hd⟩
  · have hfull : L.Count = L.Maximum := by have := hwf.1; omega
    obtain ⟨_, h2, h3, h4, h5, _, _⟩ :=
      ArbAddOrdering_grow o L s e pool hwf hfull (by omega) (hall _)
    exact ⟨h2, h3, h5, by rw [h4]; exact NewMaximum_Doubling _ (by omega) hd⟩

theorem AddDescriptors_cons (o : POOL_ORACLE) (RT : Nat) (d : CM_PARTIAL_RESOURCE_DESCRIPTOR)
    (rest : List CM_PARTIAL_RESOURCE_DESCRIPTOR) (L : ARBITER_ORDERING_LIST) (pool : POOL) :
    AddDescriptors o RT (d :: rest) L pool
      = match DescriptorOrdering RT d with
        | some x =>
          AddDescriptors o RT rest (ArbAddOrdering o L x.Start x.End pool).2.1
            (ArbAddOrdering o L x.Start x.End pool).2.2
        | none => AddDescriptors o RT rest L pool := by
  simp only [AddDescriptors, DescriptorOrdering]
  split_ifs <;>
    simp_all [CmResourceTypePort, CmResourceTypeMemory, CmResourceTypeInterrupt,
      CmResourceTypeBusNumber]

theorem AddDescriptors_spec (o : POOL_ORACLE) (RT : Nat) (hall : ∀ k, o.Avail k = true)
    (ds : List CM_PARTIAL_RESOURCE_DESCRIPTOR) :
    ∀ (L : ARBITER_ORDERING_LIST) (pool : POOL), WellFormed L → Doubling L.Maximum →
      L.Count + (ds.filterMap (DescriptorOrdering RT)).length ≤ 2 ^ 15 →
      Entries (AddDescriptors o RT ds L pool).1
        = Entries L ++ ds.filterMap (DescriptorOrdering RT) ∧
      (AddDescriptors o RT ds L pool).1.Count
        = L.Count + (ds.filterMap (DescriptorOrdering RT)).length ∧
      WellFormed (AddDescriptors o RT ds L pool).1 ∧
      Doubling (AddDescriptors o RT ds L pool).1.Maximum := by
  induction ds with
  | nil => intro L pool hwf hd _; simp [AddDescriptors, hwf, hd]
  | cons d rest ih =>
    intro L pool hwf hd hlim
    rw [AddDescriptors_cons]
    cases hde : DescriptorOrdering RT d with
    | none =>
      rw [List.filterMap_cons_none hde] at hlim ⊢
      exact ih L pool hwf hd hlim
    | some x =>
      rw [List.filterMap_cons_some hde] at hlim ⊢
      simp only [List.length_cons] at hlim ⊢
      obtain ⟨h2, h3, h5, h6⟩ :=
        ArbAddOrdering_ok o L x.Start x.End pool hwf hd (by omega) hall
      obtain ⟨i1, i2, i3, i4⟩ := ih (ArbAddOrdering o L x.Start x.End pool).2.1
        (ArbAddOrdering o L x.Start x.End pool).2.2 h5 h6 (by rw [h3]; omega)
      refine ⟨?_, ?_, i3, i4⟩
      · rw [i1, h2]; simp
      · rw [i2, h3]; omega

theorem EnumerateValues_spec (h : HEADERS) (o : POOL_ORACLE) (RT : Nat)
    (hall : ∀ k, o.Avail k = true) (vs : List KEY_VALUE) :
    ∀ (L : ARBITER_ORDERING_LIST) (pool : POOL),
      (∀ v ∈ vs, v.ProbeStatus ≠ STATUS_NO_MORE_ENTRIES) → WellFormed L → Doubling L.Maximum →
      L.Count + (KeyOrderings h RT vs).length ≤ 2 ^ 15 →
      Entries (EnumerateValues h o RT vs L pool).1 = Entries L ++ KeyOrderings h RT vs ∧
      (EnumerateValues h o RT vs L pool).1.Count = L.Count + (KeyOrderings h RT vs).length ∧
      WellFormed (EnumerateValues h o RT vs L pool).1 ∧
      Doubling (EnumerateValues h o RT vs L pool).1.Maximum := by
  induction vs with
  | nil => intro L pool _ hwf hd _; simp [EnumerateValues, KeyOrderings, hwf, hd]
  | cons v rest ih =>
    intro L pool hp hwf hd hlim
    have hp0 : v.ProbeStatus ≠ STATUS_NO_MORE_ENTRIES := hp v (List.mem_cons_self _ _)
    have hp1 : ∀ w ∈ rest, w.ProbeStatus ≠ STATUS_NO_MORE_ENTRIES :=
      fun w hw => hp w (List.mem_cons_of_mem _ hw)
    simp only [KeyOrderings, List.length_append] at hlim ⊢
    rw [EnumerateValues, if_neg hp0]
    by_cases hb : v.ProbeStatus = STATUS_BUFFER_TOO_SMALL
    · simp only [hb, ne_eq, not_true_eq_false, if_false, ExAllocatePoolWithTag, hall, if_true]
      by_cases hv : NT_SUCCESS v.ReadStatus = true ∧ v.Type_ = REG_RESOURCE_LIST ∧
          h.SizeofCmResourceList ≤ v.DataLength
      · cases hl : v.ResourceList.List with
        | nil =>
          have hB : BlobOrderings h RT v = [] := by simp [BlobOrderings, hl]
          rw [hB] at hlim ⊢
          simp only [hv, and_self, ge_iff_le, if_true, List.length_nil, Nat.zero_add,
            List.nil_append] at hlim ⊢
          exact ih _ _ hp1 hwf hd hlim
        | cons Full more =>
          have hB : BlobOrderings h RT v
              = Full.PartialDescriptors.filterMap (DescriptorOrdering RT) := by
            simp [BlobOrderings, hl, hb, hv]
          rw [hB] at hlim ⊢
          simp only [hv, and_self, ge_iff_le, if_true]
          obtain ⟨a1, a2, a3, a4⟩ := AddDescriptors_spec o RT hall Full.PartialDescriptors L
            { Live := (pool.Calls + 1) :: pool.Live, Calls := pool.Calls + 1,
              Corrupt := pool.Corrupt } hwf hd (by omega)
          obtain ⟨i1, i2, i3, i4⟩ := ih _
            (ExFreePoolWithTag (pool.Calls + 1) (AddDescriptors o RT Full.PartialDescriptors L
              { Live := (pool.Calls + 1) :: pool.Live, Calls := pool.Calls + 1,
                Corrupt := pool.Corrupt }).2) hp1 a3 a4 (by rw [a2]; omega)
          refine ⟨?_, ?_, i3, i4⟩
          · rw [i1, a1]; simp
          · rw [i2, a2]; omega
      · have hB : BlobOrderings h RT v = [] := by
          simp only [BlobOrderings]
          rw [if_neg (fun hc => hv hc.2)]
        rw [hB] at hlim ⊢
        have hv' : ¬ (NT_SUCCESS v.ReadStatus = true ∧ v.Type_ = REG_RESOURCE_LIST ∧
            v.DataLength ≥ h.SizeofCmResourceList) := hv
        simp only [hv', if_false, List.length_nil, Nat.zero_add, List.nil_append] at hlim ⊢
        exact ih _ _ hp1 hwf hd hlim
    · have hB : BlobOrderings h RT v = [] := by
        simp only [BlobOrderings]
        rw [if_neg (fun hc => hb hc.1)]
      rw [hB] at hlim ⊢
      simp only [hb, ne_eq, not_false_eq_true, if_true, List.length_nil, Nat.zero_add,
        List.nil_append] at hlim ⊢
      exact ih L pool hp1 hwf hd hlim

/-! ## The loader and the initialisation of an instance -/

theorem Build_status (h : HEADERS) (o : POOL_ORACLE) (reg : REGISTRY) (A : ARBITER_INSTANCE)
    (OrderName ReservedOrderName : PCWSTR) (pool : POOL) :
    (ArbBuildAssignmentOrdering h o reg A OrderName ReservedOrderName pool).1 = STATUS_SUCCESS := by
  have hs : NT_SUCCESS ArbInitializeOrderingList.1 = true := by decide
  unfold ArbBuildAssignmentOrdering
  simp only [hs, not_true_eq_false, if_false]
  cases reg.AssignmentOrdering <;> rfl

theorem Build_frame (h : HEADERS) (o : POOL_ORACLE) (reg : REGISTRY) (A : ARBITER_INSTANCE)
    (OrderName ReservedOrderName : PCWSTR) (pool : POOL) :
    (ArbBuildAssignmentOrdering h o reg A OrderName ReservedOrderName pool).2.1
      = { A with
          OrderingList :=
            (ArbBuildAssignmentOrdering h o reg A OrderName ReservedOrderName pool).2.1.OrderingList
          ReservedList :=
            (ArbBuildAssignmentOrdering h o reg A OrderName ReservedOrderName pool).2.1.ReservedList } := by
  have hs : NT_SUCCESS ArbInitializeOrderingList.1 = true := by decide
  unfold ArbBuildAssignmentOrdering
  simp only [hs, not_true_eq_false, if_false]
  cases reg.AssignmentOrdering with
  | none => rfl
  | some Key =>
    simp only
    cases Key OrderName <;> by_cases hn : OrderName = ReservedOrderName <;>
      cases Key ReservedOrderName <;> simp [hn]

theorem Initialize_cases (h : HEADERS) (o : POOL_ORACLE) (reg : REGISTRY)
    (A : ARBITER_INSTANCE) (Bus : Option Nat) (RT : Nat) (Name OrderName : PCWSTR) (pool : POOL) :
    (∃ k, k < 4 ∧ o.Avail (pool.Calls + k) = false ∧
      (ArbInitializeArbiterInstance h o reg A Bus RT Name OrderName pool).1
        = STATUS_INSUFFICIENT_RESOURCES ∧
      (ArbInitializeArbiterInstance h o reg A Bus RT Name OrderName pool).2.2.Live = pool.Live) ∨
    ((∀ k, k < 4 → o.Avail (pool.Calls + k) = true) ∧
      (ArbInitializeArbiterInstance h o reg A Bus RT Name OrderName pool).1 = STATUS_SUCCESS) := by
  have hs : NT_SUCCESS STATUS_SUCCESS = true := by decide
  by_cases h0 : o.Avail pool.Calls = true
  · by_cases h1 : o.Avail (pool.Calls + 1) = true
    · by_cases h2 : o.Avail (pool.Calls + 2) = true
      · by_cases h3 : o.Avail (pool.Calls + 3) = true
        · right
          refine ⟨?_, ?_⟩
          · intro k hk
            interval_cases k
            · simpa using h0
            · exact h1
            · exact h2
            · exact h3
          · simp [ArbInitializeArbiterInstance, ExAllocatePoolWithTag, h0, h1, h2, h3,
              Build_status, hs]
        · left
          refine ⟨3, by norm_num, by simpa using h3, ?_⟩
          simp [ArbInitializeArbiterInstance, ExAllocatePoolWithTag, ExFreePoolWithTag, h0, h1,
            h2, h3]
      · left
        refine ⟨2, by norm_num, by simpa using h2, ?_⟩
        simp [ArbInitializeArbiterInstance, ExAllocatePoolWithTag, ExFreePoolWithTag, h0, h1, h2]
    · left
      refine ⟨1, by norm_num, by simpa using h1, ?_⟩
      simp [ArbInitializeArbiterInstance, ExAllocatePoolWithTag, ExFreePoolWithTag, h0, h1]
  · left
    refine ⟨0, by norm_num, by simpa using h0, ?_⟩
    simp [ArbInitializeArbiterInstance, ExAllocatePoolWithTag, h0]

theorem SlotInstalled_OrDefault (Slot : Option ARBITER_FUNCTION) (Default : ARBITER_FUNCTION) :
    SlotInstalled Slot (OrDefault Slot Default) Default := by
  cases Slot <;> simp [SlotInstalled, OrDefault]

theorem Build_OrderingList (h : HEADERS) (o : POOL_ORACLE) (reg : REGISTRY)
    (A : ARBITER_INSTANCE) (OrderName ReservedOrderName : PCWSTR) (pool : POOL)
    (Key : PCWSTR → Option (List KEY_VALUE)) (hkey : reg.AssignmentOrdering = some Key) :
    (ArbBuildAssignmentOrdering h o reg A OrderName ReservedOrderName pool).2.1.OrderingList
      = match Key OrderName with
        | some Values =>
          (EnumerateValues h o A.ResourceType Values ArbInitializeOrderingList.2 pool).1
        | none => ArbInitializeOrderingList.2 := by
  have hs : NT_SUCCESS ArbInitializeOrderingList.1 = true := by decide
  unfold ArbBuildAssignmentOrdering
  simp only [hs, not_true_eq_false, if_false, hkey]
  cases Key OrderName <;> by_cases hn : OrderName = ReservedOrderName <;>
    cases Key ReservedOrderName <;> simp [hn]

/-! ## The allocation transaction -/

theorem PerformAll_eq (A : ARBITER_INSTANCE) (Operations : List ARBITER_OPERATION) :
    PerformAll A Operations = A := by
  unfold PerformAll
  induction Operations with
  | nil => rfl
  | cons op rest ih =>
    rw [List.foldl_cons]
    have h1 : Perform A op = A := by cases op <;> rfl
    rw [h1]; exact ih

/-- After a successful `ArbInitializeArbiterInstance` both range trackers are
initialised and empty. -/
theorem Initialize_trackers_empty (h : HEADERS) (o : POOL_ORACLE) (reg : REGISTRY)
    (A : ARBITER_INSTANCE) (Bus : Option Nat) (RT : Nat) (Name OrderName : PCWSTR) (pool : POOL)
    (hok : NT_SUCCESS (ArbInitializeArbiterInstance h o reg A Bus RT Name OrderName pool).1
      = true) :
    Committed (ArbInitializeArbiterInstance h o reg A Bus RT Name OrderName pool).2.1 = [] ∧
    Tentative (ArbInitializeArbiterInstance h o reg A Bus RT Name OrderName pool).2.1 = [] := by
  have hs : NT_SUCCESS STATUS_SUCCESS = true := by decide
  have hf : NT_SUCCESS STATUS_INSUFFICIENT_RESOURCES = false := by decide
  rcases Initialize_cases h o reg A Bus RT Name OrderName pool with
    ⟨k, _, _, h1, _⟩ | ⟨hall, _⟩
  · rw [h1, hf] at hok; cases hok
  · have h0 : o.Avail pool.Calls = true := by simpa using hall 0 (by norm_num)
    have h1 := hall 1 (by norm_num)
    have h2 := hall 2 (by norm_num)
    have h3 := hall 3 (by norm_num)
    simp only [ArbInitializeArbiterInstance, ExAllocatePoolWithTag, h0, h1, h2, h3, if_true,
      Build_status, hs, Committed, Tentative]
    rw [Build_frame]
    simp [RtlInitializeRangeList]

theorem Initialize_extension_slots (h : HEADERS) (o : POOL_ORACLE) (reg : REGISTRY)
    (A : ARBITER_INSTANCE) (Bus : Option Nat) (RT : Nat) (Name OrderName : PCWSTR) (pool : POOL)
    (hok : NT_SUCCESS (ArbInitializeArbiterInstance h o reg A Bus RT Name OrderName pool).1
      = true) :
    SlotInstalled A.AddReserved
      (ArbInitializeArbiterInstance h o reg A Bus RT Name OrderName pool).2.1.AddReserved
      .ArbAddReserved ∧
    SlotInstalled A.OverrideConflict
      (ArbInitializeArbiterInstance h o reg A Bus RT Name OrderName pool).2.1.OverrideConflict
      .ArbOverrideConflict ∧
    SlotInstalled A.QueryConflict
      (ArbInitializeArbiterInstance h o reg A Bus RT Name OrderName pool).2.1.QueryConflict
      .ArbQueryConflict ∧
    SlotInstalled A.StartArbiter
      (ArbInitializeArbiterInstance h o reg A Bus RT Name OrderName pool).2.1.StartArbiter
      .ArbStartArbiter := by
  have hs : NT_SUCCESS STATUS_SUCCESS = true := by decide
  have hf : NT_SUCCESS STATUS_INSUFFICIENT_RESOURCES = false := by decide
  rcases Initialize_cases h o reg A Bus RT Name OrderName pool with
    ⟨k, _, _, h1, _⟩ | ⟨hall, _⟩
  · rw [h1, hf] at hok; cases hok
  · have h0 : o.Avail pool.Calls = true := by simpa using hall 0 (by norm_num)
    have h1 := hall 1 (by norm_num)
    have h2 := hall 2 (by norm_num)
    have h3 := hall 3 (by norm_num)
    simp only [ArbInitializeArbiterInstance, ExAllocatePoolWithTag, h0, h1, h2, h3, if_true,
      Build_status, hs]
    rw [Build_frame]
    exact ⟨SlotInstalled_OrDefault _ _, SlotInstalled_OrDefault _ _,
      SlotInstalled_OrDefault _ _, SlotInstalled_OrDefault _ _⟩

/-- With the same name for both orderings the second loop does not run: the
reserved list stays as `ArbInitializeOrderingList` left it. -/
theorem Build_ReservedList_same (h : HEADERS) (o : POOL_ORACLE) (reg : REGISTRY)
    (A : ARBITER_INSTANCE) (OrderName : PCWSTR) (pool : POOL) :
    (ArbBuildAssignmentOrdering h o reg A OrderName OrderName pool).2.1.ReservedList =
      ArbInitializeOrderingList.2 := by
  have hs : NT_SUCCESS ArbInitializeOrderingList.1 = true := by decide
  unfold ArbBuildAssignmentOrdering
  simp only [hs, not_true_eq_false, if_false]
  cases reg.AssignmentOrdering with
  | none => rfl
  | some Key =>
    simp only
    cases Key OrderName <;> simp

/-- A descriptor with a length of at least 1 whose last address fits 64 bits
gives an end that is not below the start. -/
theorem RangeEnd_ge (Start Length : Nat) (h1 : 0 < Length) (h2 : Start + Length ≤ 2 ^ 64) :
    Start ≤ RangeEnd Start Length := by
  unfold RangeEnd
  have e : (Start + Length + (2 ^ 64 - 1)) % 2 ^ 64 = Start + Length - 1 := by omega
  rw [e]
  omega

/-- An instance initialised over a registry that holds a port range under every
subkey: the range is in the ordering list and the reserved list is empty. -/
theorem reserved_list_with_persisted_values :
    (ArbInitializeArbiterInstance SampleHeaders AlwaysAvail (RegistryWith [FirstFullValue])
        PortInstance (some 7) CmResourceTypePort [77] [79] EmptyPool).1 = STATUS_SUCCESS ∧
    Entries (ArbInitializeArbiterInstance SampleHeaders AlwaysAvail (RegistryWith [FirstFullValue])
        PortInstance (some 7) CmResourceTypePort [77] [79] EmptyPool).2.1.OrderingList =
      [⟨0x3F8, 0x3FF⟩] ∧
    (ArbInitializeArbiterInstance SampleHeaders AlwaysAvail (RegistryWith [FirstFullValue])
        PortInstance (some 7) CmResourceTypePort [77] [79] EmptyPool).2.1.ReservedList.Count = 0 := by
  decide

/-! ## The claims -/

/-- C1. For every well-formed ordering list and every range `[s, e]` with
`s ≤ e`, `ArbPruneOrdering` returns `STATUS_SUCCESS`; the entries stored
afterwards are exactly the stored entries that do not satisfy
`End ≥ s ∧ Start ≤ e`, unmodified and in their original order; `Count` is their
number; `Maximum`, the address and the size of the backing array and the pool
are unchanged. -/
theorem prune_removes_exactly_overlapping (L : ARBITER_ORDERING_LIST) (s e : Nat)
    (pool : POOL) (_hse : s ≤ e) (hwf : WellFormed L) :
    (ArbPruneOrdering L s e pool).1 = STATUS_SUCCESS ∧
    Entries (ArbPruneOrdering L s e pool).2.1
      = (Entries L).filter (fun x => !decide (x.End ≥ s ∧ x.Start ≤ e)) ∧
    (ArbPruneOrdering L s e pool).2.1.Count
      = ((Entries L).filter (fun x => !decide (x.End ≥ s ∧ x.Start ≤ e))).length ∧
    (ArbPruneOrdering L s e pool).2.1.Maximum = L.Maximum ∧
    (ArbPruneOrdering L s e pool).2.1.Orderings.map (·.Address) = L.Orderings.map (·.Address) ∧
    Capacity (ArbPruneOrdering L s e pool).2.1 = Capacity L ∧
    (ArbPruneOrdering L s e pool).2.2 = pool := by
  have hpred : (fun x : ARBITER_ORDERING => !decide (x.End ≥ s ∧ x.Start ≤ e)) = Keeps s e := by
    funext x
    rw [← decide_not]
    exact decide_eq_decide.mpr (by omega)
  rw [hpred]
  exact ArbPruneOrdering_spec L s e pool hwf

theorem prune_removes_exactly_overlapping_witness :
    (5 ≤ 15 ∧ WellFormed SmallList) ∧
    Entries (ArbPruneOrdering SmallList 5 15 EmptyPool).2.1 = [⟨20, 29⟩] :=
  ⟨⟨by decide, by decide⟩,
    (prune_removes_exactly_overlapping SmallList 5 15 EmptyPool (by decide) (by decide)).2.1.trans
      (by decide)⟩

/-- C2 (failing input). On a freshly initialised list, `2 ^ 15 + 1` calls of
`ArbAddOrdering` with memory for every allocation all return `STATUS_SUCCESS` and
`Count` becomes `2 ^ 15 + 1`, but the last call requests a block of
`(UINT16) (2 ^ 16) = 0` entries and overruns it: the backing array has no room
for any entry and the stored entries are not the accepted arguments. -/
theorem add_sequence_overflow_loses_entries :
    (AddSequence AlwaysAvail OverflowArgs ArbInitializeOrderingList.2 EmptyPool).1.count
      STATUS_SUCCESS = Limit + 1 ∧
    (AddSequence AlwaysAvail OverflowArgs ArbInitializeOrderingList.2 EmptyPool).2.1.Count
      = Limit + 1 ∧
    Capacity (AddSequence AlwaysAvail OverflowArgs ArbInitializeOrderingList.2 EmptyPool).2.1
      = 0 ∧
    (AddSequence AlwaysAvail OverflowArgs ArbInitializeOrderingList.2 EmptyPool).2.2.Corrupt
      = true ∧
    Entries (AddSequence AlwaysAvail OverflowArgs ArbInitializeOrderingList.2 EmptyPool).2.1
      ≠ Accepted OverflowArgs
          (AddSequence AlwaysAvail OverflowArgs ArbInitializeOrderingList.2 EmptyPool).1 := by
  obtain ⟨r1, r2, r3, r4, r5, r6⟩ := overflow_run
  refine ⟨?_, r2, r6, r5, ?_⟩
  · rw [r1, List.count_append, List.count_replicate_self]; rfl
  · rw [r4, r1]
    have h := Accepted_ne_nil (0, 0) (List.replicate Limit (0, 0))
    rw [List.length_replicate] at h
    exact fun hc => h hc.symm

/-- C3 (failing input). The state reached from a freshly initialised list by
`2 ^ 15 + 1` calls of `ArbAddOrdering`, each returning `STATUS_SUCCESS`, has
`Count = 2 ^ 15 + 1` and `Maximum = 0`: `Count ≤ Maximum` does not hold in it. -/
theorem count_exceeds_maximum_after_overflow :
    (∀ st ∈ (AddSequence AlwaysAvail OverflowArgs ArbInitializeOrderingList.2 EmptyPool).1,
      st = STATUS_SUCCESS) ∧
    ¬ ((AddSequence AlwaysAvail OverflowArgs ArbInitializeOrderingList.2 EmptyPool).2.1.Count
        ≤ (AddSequence AlwaysAvail OverflowArgs ArbInitializeOrderingList.2 EmptyPool).2.1.Maximum)
      := by
  obtain ⟨r1, r2, r3, _, _, _⟩ := overflow_run
  refine ⟨?_, ?_⟩
  · rw [r1]
    intro st hst
    rcases List.mem_append.1 hst with h | h
    · exact List.eq_of_mem_replicate h
    · exact List.mem_singleton.1 h
  · rw [r2, r3]; omega

/-- C4. If `ArbAddOrdering` has to reallocate (`Count ≥ Maximum`) and the
allocation fails, it returns `STATUS_INSUFFICIENT_RESOURCES` and the list is
unchanged (`Count`, `Maximum`, the backing array and its entries); no block is
allocated or freed and no memory is touched. -/
theorem add_failure_leaves_list_unchanged (o : POOL_ORACLE) (L : ARBITER_ORDERING_LIST)
    (s e : Nat) (pool : POOL) (hfull : L.Count ≥ L.Maximum)
    (hno : o.Avail pool.Calls = false) :
    (ArbAddOrdering o L s e pool).1 = STATUS_INSUFFICIENT_RESOURCES ∧
    (ArbAddOrdering o L s e pool).2.1 = L ∧
    (ArbAddOrdering o L s e pool).2.2.Live = pool.Live ∧
    (ArbAddOrdering o L s e pool).2.2.Corrupt = pool.Corrupt := by
  simp [ArbAddOrdering, ExAllocatePoolWithTag, hfull, hno]

theorem add_failure_leaves_list_unchanged_witness :
    (FullList.Count ≥ FullList.Maximum ∧ (AvailBelow 0).Avail FullPool.Calls = false) ∧
    (ArbAddOrdering (AvailBelow 0) FullList 1 2 FullPool).2.1 = FullList :=
  ⟨⟨Nat.le_refl _, rfl⟩,
    (add_failure_leaves_list_unchanged (AvailBelow 0) FullList 1 2 FullPool
      (Nat.le_refl _) rfl).2.1⟩

/-- C5 (failing input). On the full well-formed list of `2 ^ 15` entries
(`Count = Maximum = 2 ^ 15`), with memory available, `ArbAddOrdering` returns
`STATUS_SUCCESS` and sets `Maximum` to `(UINT16) (2 ^ 16) = 0`: the capacity is
not doubled, it decreases. -/
theorem add_at_limit_resets_maximum :
    WellFormed FullList ∧
    FullList.Count = FullList.Maximum ∧
    (ArbAddOrdering AlwaysAvail FullList 0 0 FullPool).1 = STATUS_SUCCESS ∧
    (ArbAddOrdering AlwaysAvail FullList 0 0 FullPool).2.1.Maximum = 0 ∧
    (ArbAddOrdering AlwaysAvail FullList 0 0 FullPool).2.1.Maximum < FullList.Maximum ∧
    (ArbAddOrdering AlwaysAvail FullList 0 0 FullPool).2.1.Maximum ≠ 2 * FullList.Maximum := by
  obtain ⟨h1, _, h3, _, _, _⟩ := ArbAddOrdering_overflow AlwaysAvail FullList 0 0 FullPool
    WellFormed_FullList rfl rfl rfl
  have hM : FullList.Maximum = 2 ^ 15 := rfl
  refine ⟨WellFormed_FullList, rfl, h1, h3, ?_, ?_⟩
  · rw [h3, hM]; norm_num
  · rw [h3, hM]; norm_num

/-- C6 (counterexample). With one port descriptor persisted, and memory for
every allocation but the sixth - the growth of the ordering list, made while
the persisted ranges are loaded - `ArbInitializeArbiterInstance` makes that sixth
allocation, it fails, and the call returns `STATUS_SUCCESS`, not the
allocation-failure status. -/
theorem initialize_ignores_loading_failure :
    (AvailExcept 5).Avail 5 = false ∧
    (ArbInitializeArbiterInstance SampleHeaders (AvailExcept 5) (RegistryWith [FirstFullValue])
      PortInstance (some 7) CmResourceTypePort [80] [80] EmptyPool).2.2.Calls = 6 ∧
    (ArbInitializeArbiterInstance SampleHeaders (AvailExcept 5) (RegistryWith [FirstFullValue])
      PortInstance (some 7) CmResourceTypePort [80] [80] EmptyPool).2.1.OrderingList.Count = 0 ∧
    (ArbInitializeArbiterInstance SampleHeaders (AvailExcept 5) (RegistryWith [FirstFullValue])
      PortInstance (some 7) CmResourceTypePort [80] [80] EmptyPool).1 = STATUS_SUCCESS ∧
    (ArbInitializeArbiterInstance SampleHeaders (AvailExcept 5) (RegistryWith [FirstFullValue])
      PortInstance (some 7) CmResourceTypePort [80] [80] EmptyPool).1
        ≠ STATUS_INSUFFICIENT_RESOURCES := by
  decide

/-- C6 (amended). If the allocation of the mutex event, of the allocation stack
or of either range list fails - one of the first four allocations of the call -
`ArbInitializeArbiterInstance` returns `STATUS_INSUFFICIENT_RESOURCES` and every
block allocated so far in the call has been freed: the live blocks of the pool
are those from before the call.  If these four allocations succeed, the call
returns `STATUS_SUCCESS`, whatever allocation fails while the persisted ordering
ranges are loaded. -/
theorem initialize_allocation_failure (h : HEADERS) (o : POOL_ORACLE) (reg : REGISTRY)
    (A : ARBITER_INSTANCE) (Bus : Option Nat) (RT : Nat) (Name OrderName : PCWSTR) (pool : POOL) :
    ((∃ k, k < 4 ∧ o.Avail (pool.Calls + k) = false) →
      (ArbInitializeArbiterInstance h o reg A Bus RT Name OrderName pool).1
        = STATUS_INSUFFICIENT_RESOURCES ∧
      (ArbInitializeArbiterInstance h o reg A Bus RT Name OrderName pool).2.2.Live = pool.Live) ∧
    ((∀ k, k < 4 → o.Avail (pool.Calls + k) = true) →
      (ArbInitializeArbiterInstance h o reg A Bus RT Name OrderName pool).1 = STATUS_SUCCESS) := by
  rcases Initialize_cases h o reg A Bus RT Name OrderName pool with
    ⟨k, hk, hf, h1, h2⟩ | ⟨hall, h1⟩
  · refine ⟨fun _ => ⟨h1, h2⟩, fun hall => ?_⟩
    rw [hall k hk] at hf; cases hf
  · refine ⟨fun ⟨k, hk, hf⟩ => ?_, fun _ => h1⟩
    rw [hall k hk] at hf; cases hf

theorem initialize_allocation_failure_witness :
    (∃ k, k < 4 ∧ (AvailBelow 2).Avail (EmptyPool.Calls + k) = false) ∧
    (ArbInitializeArbiterInstance SampleHeaders (AvailBelow 2) NoOrderingKey BlankInstance (some 7)
        CmResourceTypePort [80] [80] EmptyPool).1 = STATUS_INSUFFICIENT_RESOURCES ∧
    (ArbInitializeArbiterInstance SampleHeaders (AvailBelow 2) NoOrderingKey BlankInstance (some 7)
        CmResourceTypePort [80] [80] EmptyPool).2.2.Live = EmptyPool.Live :=
  ⟨⟨2, by decide, by decide⟩,
    (initialize_allocation_failure SampleHeaders (AvailBelow 2) NoOrderingKey BlankInstance (some 7)
      CmResourceTypePort [80] [80] EmptyPool).1 ⟨2, by decide, by decide⟩⟩

/-- C7 (counterexample). When the second allocation (the allocation stack)
fails, `ArbInitializeArbiterInstance` returns an error, yet `MutexEvent` is not
`NULL` as it was before the call: it holds the address of the block that was
freed; `Signature` and `BusDeviceObject` keep the values written. -/
theorem initialize_error_keeps_stale_pointer :
    NT_SUCCESS (ArbInitializeArbiterInstance SampleHeaders (AvailBelow 1) NoOrderingKey
      BlankInstance (some 7) CmResourceTypePort [80] [80] EmptyPool).1 = false ∧
    BlankInstance.MutexEvent = none ∧
    (ArbInitializeArbiterInstance SampleHeaders (AvailBelow 1) NoOrderingKey
      BlankInstance (some 7) CmResourceTypePort [80] [80] EmptyPool).2.1.MutexEvent = some 1 ∧
    1 ∉ (ArbInitializeArbiterInstance SampleHeaders (AvailBelow 1) NoOrderingKey
      BlankInstance (some 7) CmResourceTypePort [80] [80] EmptyPool).2.2.Live ∧
    (ArbInitializeArbiterInstance SampleHeaders (AvailBelow 1) NoOrderingKey
      BlankInstance (some 7) CmResourceTypePort [80] [80] EmptyPool).2.1 ≠ BlankInstance := by
  decide

/-- C7 (amended). Whenever `ArbInitializeArbiterInstance`, entered with
`PossibleAllocation` `NULL` as it asserts, returns an error, the status is
`STATUS_INSUFFICIENT_RESOURCES`, every block the call allocated has been freed,
and every field other than `Signature`, `BusDeviceObject`, `MutexEvent`,
`AllocationStack`, `AllocationStackMaxSize` and `Allocation` has its value from
before the call; `Signature` and `BusDeviceObject` hold the values written.
Nothing is said of the three pointer fields. -/
theorem initialize_error_state (h : HEADERS) (o : POOL_ORACLE) (reg : REGISTRY)
    (A : ARBITER_INSTANCE) (Bus : Option Nat) (RT : Nat) (Name OrderName : PCWSTR) (pool : POOL)
    (hpre : A.PossibleAllocation = none)
    (herr : NT_SUCCESS (ArbInitializeArbiterInstance h o reg A Bus RT Name OrderName pool).1
      = false) :
    (ArbInitializeArbiterInstance h o reg A Bus RT Name OrderName pool).1
      = STATUS_INSUFFICIENT_RESOURCES ∧
    (ArbInitializeArbiterInstance h o reg A Bus RT Name OrderName pool).2.2.Live = pool.Live ∧
    (ArbInitializeArbiterInstance h o reg A Bus RT Name OrderName pool).2.1
      = { A with
          Signature := h.ARBITER_SIGNATURE
          BusDeviceObject := Bus
          MutexEvent :=
            (ArbInitializeArbiterInstance h o reg A Bus RT Name OrderName pool).2.1.MutexEvent
          AllocationStack :=
            (ArbInitializeArbiterInstance h o reg A Bus RT Name OrderName pool).2.1.AllocationStack
          AllocationStackMaxSize :=
            (ArbInitializeArbiterInstance h o reg A Bus RT Name OrderName
              pool).2.1.AllocationStackMaxSize
          Allocation :=
            (ArbInitializeArbiterInstance h o reg A Bus RT Name OrderName pool).2.1.Allocation } := by
  have hs : NT_SUCCESS STATUS_SUCCESS = true := by decide
  by_cases h0 : o.Avail pool.Calls = true
  · by_cases h1 : o.Avail (pool.Calls + 1) = true
    · by_cases h2 : o.Avail (pool.Calls + 2) = true
      · by_cases h3 : o.Avail (pool.Calls + 3) = true
        · exfalso
          have : (ArbInitializeArbiterInstance h o reg A Bus RT Name OrderName pool).1
              = STATUS_SUCCESS := by
            simp [ArbInitializeArbiterInstance, ExAllocatePoolWithTag, h0, h1, h2, h3,
              Build_status, hs]
          rw [this, hs] at herr
          cases herr
        · simp [ArbInitializeArbiterInstance, ExAllocatePoolWithTag, ExFreePoolWithTag, h0, h1,
            h2, h3, hpre]
      · simp [ArbInitializeArbiterInstance, ExAllocatePoolWithTag, ExFreePoolWithTag, h0, h1, h2]
    · simp [ArbInitializeArbiterInstance, ExAllocatePoolWithTag, ExFreePoolWithTag, h0, h1]
  · simp [ArbInitializeArbiterInstance, ExAllocatePoolWithTag, h0]

theorem initialize_error_state_witness :
    (BlankInstance.PossibleAllocation = none ∧
      NT_SUCCESS (ArbInitializeArbiterInstance SampleHeaders (AvailBelow 3) NoOrderingKey
        BlankInstance (some 7) CmResourceTypePort [80] [80] EmptyPool).1 = false) ∧
    (ArbInitializeArbiterInstance SampleHeaders (AvailBelow 3) NoOrderingKey
        BlankInstance (some 7) CmResourceTypePort [80] [80] EmptyPool).2.2.Live = EmptyPool.Live :=
  ⟨⟨rfl, by decide⟩,
    (initialize_error_state SampleHeaders (AvailBelow 3) NoOrderingKey BlankInstance (some 7)
      CmResourceTypePort [80] [80] EmptyPool rfl (by decide)).2.1⟩

/-- C8. After `ArbInitializeArbiterInstance` succeeds, each of the fifteen hook
slots is not `NULL`: a slot that was `NULL` on entry holds the library's default
implementation, and a slot the caller had set still holds the caller's
function. -/
theorem initialize_installs_default_hooks (h : HEADERS) (o : POOL_ORACLE) (reg : REGISTRY)
    (A : ARBITER_INSTANCE) (Bus : Option Nat) (RT : Nat) (Name OrderName : PCWSTR) (pool : POOL)
    (hok : NT_SUCCESS (ArbInitializeArbiterInstance h o reg A Bus RT Name OrderName pool).1
      = true) :
    SlotInstalled A.TestAllocation
      (ArbInitializeArbiterInstance h o reg A Bus RT Name OrderName pool).2.1.TestAllocation
      .ArbTestAllocation ∧
    SlotInstalled A.RetestAllocation
      (ArbInitializeArbiterInstance h o reg A Bus RT Name OrderName pool).2.1.RetestAllocation
      .ArbRetestAllocation ∧
    SlotInstalled A.CommitAllocation
      (ArbInitializeArbiterInstance h o reg A Bus RT Name OrderName pool).2.1.CommitAllocation
      .ArbCommitAllocation ∧
    SlotInstalled A.RollbackAllocation
      (ArbInitializeArbiterInstance h o reg A Bus RT Name OrderName pool).2.1.RollbackAllocation
      .ArbRollbackAllocation ∧
    SlotInstalled A.AddReserved
      (ArbInitializeArbiterInstance h o reg A Bus RT Name OrderName pool).2.1.AddReserved
      .ArbAddReserved ∧
    SlotInstalled A.PreprocessEntry
      (ArbInitializeArbiterInstance h o reg A Bus RT Name OrderName pool).2.1.PreprocessEntry
      .ArbPreprocessEntry ∧
    SlotInstalled A.AllocateEntry
      (ArbInitializeArbiterInstance h o reg A Bus RT Name OrderName pool).2.1.AllocateEntry
      .ArbAllocateEntry ∧
    SlotInstalled A.GetNextAllocationRange
      (ArbInitializeArbiterInstance h o reg A Bus RT Name OrderName
        pool).2.1.GetNextAllocationRange
      .ArbGetNextAllocationRange ∧
    SlotInstalled A.FindSuitableRange
      (ArbInitializeArbiterInstance h o reg A Bus RT Name OrderName pool).2.1.FindSuitableRange
      .ArbFindSuitableRange ∧
    SlotInstalled A.AddAllocation
      (ArbInitializeArbiterInstance h o reg A Bus RT Name OrderName pool).2.1.AddAllocation
      .ArbAddAllocation ∧
    SlotInstalled A.BacktrackAllocation
      (ArbInitializeArbiterInstance h o reg A Bus RT Name OrderName pool).2.1.BacktrackAllocation
      .ArbBacktrackAllocation ∧
    SlotInstalled A.OverrideConflict
      (ArbInitializeArbiterInstance h o reg A Bus RT Name OrderName pool).2.1.OverrideConflict
      .ArbOverrideConflict ∧
    SlotInstalled A.BootAllocation
      (ArbInitializeArbiterInstance h o reg A Bus RT Name OrderName pool).2.1.BootAllocation
      .ArbBootAllocation ∧
    SlotInstalled A.QueryConflict
      (ArbInitializeArbiterInstance h o reg A Bus RT Name OrderName pool).2.1.QueryConflict
      .ArbQueryConflict ∧
    SlotInstalled A.StartArbiter
      (ArbInitializeArbiterInstance h o reg A Bus RT Name OrderName pool).2.1.StartArbiter
      .ArbStartArbiter := by
  have hs : NT_SUCCESS STATUS_SUCCESS = true := by decide
  have hf : NT_SUCCESS STATUS_INSUFFICIENT_RESOURCES = false := by decide
  rcases Initialize_cases h o reg A Bus RT Name OrderName pool with
    ⟨k, _, _, h1, _⟩ | ⟨hall, _⟩
  · rw [h1, hf] at hok; cases hok
  · have h0 : o.Avail pool.Calls = true := by simpa using hall 0 (by norm_num)
    have h1 := hall 1 (by norm_num)
    have h2 := hall 2 (by norm_num)
    have h3 := hall 3 (by norm_num)
    simp only [ArbInitializeArbiterInstance, ExAllocatePoolWithTag, h0, h1, h2, h3, if_true,
      Build_status, hs]
    rw [Build_frame]
    exact ⟨SlotInstalled_OrDefault _ _, SlotInstalled_OrDefault _ _,
      SlotInstalled_OrDefault _ _, SlotInstalled_OrDefault _ _, SlotInstalled_OrDefault _ _,
      SlotInstalled_OrDefault _ _, SlotInstalled_OrDefault _ _, SlotInstalled_OrDefault _ _,
      SlotInstalled_OrDefault _ _, SlotInstalled_OrDefault _ _, SlotInstalled_OrDefault _ _,
      SlotInstalled_OrDefault _ _, SlotInstalled_OrDefault _ _, SlotInstalled_OrDefault _ _,
      SlotInstalled_OrDefault _ _⟩

theorem initialize_installs_default_hooks_witness :
    NT_SUCCESS (ArbInitializeArbiterInstance SampleHeaders AlwaysAvail (RegistryWith [FirstFullValue])
      PortInstance (some 7) CmResourceTypePort [80] [80] EmptyPool).1 = true ∧
    SlotInstalled PortInstance.TestAllocation
      (ArbInitializeArbiterInstance SampleHeaders AlwaysAvail (RegistryWith [FirstFullValue])
        PortInstance (some 7) CmResourceTypePort [80] [80] EmptyPool).2.1.TestAllocation
      .ArbTestAllocation :=
  ⟨by decide,
    (initialize_installs_default_hooks SampleHeaders AlwaysAvail (RegistryWith [FirstFullValue])
      PortInstance (some 7) CmResourceTypePort [80] [80] EmptyPool (by decide)).1⟩

/-- C9 (counterexample). A persisted resource list whose second full descriptor
holds a port descriptor is loaded by a port arbiter, with memory for every
allocation: the blob has a descriptor of the arbiter's resource type, and
nothing is appended to the ordering list. -/
theorem loading_skips_later_full_descriptors :
    PortDescriptor ∈ AllDescriptors SecondFullValue.ResourceList ∧
    PortDescriptor.Type_ = PortInstance.ResourceType ∧
    Entries (ArbBuildAssignmentOrdering SampleHeaders AlwaysAvail (RegistryWith [SecondFullValue])
      PortInstance [80] [80] EmptyPool).2.1.OrderingList = [] ∧
    (ArbBuildAssignmentOrdering SampleHeaders AlwaysAvail (RegistryWith [SecondFullValue])
      PortInstance [80] [80] EmptyPool).2.1.OrderingList.Count = 0 := by
  decide

/-- C9 (amended). When the ordering key and the named subkey open, every pool
allocation succeeds, and the orderings to load number at most `2 ^ 15`, the
ordering list holds after loading, in enumeration order, for every value that
is read successfully as a `REG_RESOURCE_LIST` of at least
`sizeof (CM_RESOURCE_LIST)` bytes, one entry per partial descriptor of the FIRST
full descriptor whose type equals the arbiter's resource type, provided that
type is port, memory, interrupt or bus number: `[start, start + length - 1]`
(in `UINT64`) for port, memory and bus number, `[level, level]` for interrupt.
Descriptors of another type, later full descriptors, other values, and
arbiters of another resource type append nothing. -/
theorem loading_appends_first_descriptor_ranges (h : HEADERS) (o : POOL_ORACLE)
    (reg : REGISTRY) (A : ARBITER_INSTANCE) (OrderName ReservedOrderName : PCWSTR) (pool : POOL)
    (Key : PCWSTR → Option (List KEY_VALUE)) (Values : List KEY_VALUE)
    (hkey : reg.AssignmentOrdering = some Key) (hsub : Key OrderName = some Values)
    (hall : ∀ k, o.Avail k = true)
    (hprobe : ∀ v ∈ Values, v.ProbeStatus ≠ STATUS_NO_MORE_ENTRIES)
    (hlim : (KeyOrderings h A.ResourceType Values).length ≤ 2 ^ 15) :
    Entries (ArbBuildAssignmentOrdering h o reg A OrderName ReservedOrderName
        pool).2.1.OrderingList
      = KeyOrderings h A.ResourceType Values ∧
    (ArbBuildAssignmentOrdering h o reg A OrderName ReservedOrderName pool).2.1.OrderingList.Count
      = (KeyOrderings h A.ResourceType Values).length := by
  rw [Build_OrderingList h o reg A OrderName ReservedOrderName pool Key hkey, hsub]
  obtain ⟨e1, e2, _, _⟩ := EnumerateValues_spec h o A.ResourceType hall Values
    ArbInitializeOrderingList.2 pool hprobe WellFormed_init (Or.inl rfl)
    (by
      have : ArbInitializeOrderingList.2.Count = 0 := rfl
      rw [this]; omega)
  have hE : Entries ArbInitializeOrderingList.2 = [] := rfl
  have hC : ArbInitializeOrderingList.2.Count = 0 := rfl
  simp only
  refine ⟨?_, ?_⟩
  · rw [e1, hE, List.nil_append]
  · rw [e2, hC, Nat.zero_add]

theorem loading_appends_first_descriptor_ranges_witness :
    ((RegistryWith [FirstFullValue]).AssignmentOrdering = some (fun _ => some [FirstFullValue]) ∧
      (fun _ => some [FirstFullValue] : PCWSTR → Option (List KEY_VALUE)) [80]
        = some [FirstFullValue] ∧
      (∀ k, AlwaysAvail.Avail k = true) ∧
      (∀ v ∈ [FirstFullValue], v.ProbeStatus ≠ STATUS_NO_MORE_ENTRIES) ∧
      (KeyOrderings SampleHeaders PortInstance.ResourceType [FirstFullValue]).length ≤ 2 ^ 15) ∧
    Entries (ArbBuildAssignmentOrdering SampleHeaders AlwaysAvail (RegistryWith [FirstFullValue])
      PortInstance [80] [80] EmptyPool).2.1.OrderingList = [⟨0x3F8, 0x3FF⟩] :=
  ⟨⟨rfl, rfl, fun _ => rfl, by decide, by decide⟩,
    (loading_appends_first_descriptor_ranges SampleHeaders AlwaysAvail
      (RegistryWith [FirstFullValue]) PortInstance [80] [80] EmptyPool
      (fun _ => some [FirstFullValue]) [FirstFullValue] rfl rfl (fun _ => rfl) (by decide)
      (by decide)).1.trans (by decide)⟩

/-- C10. When the persisted ordering configuration is absent - the
`AssignmentOrdering` key cannot be opened, or it opens and the named ordering
subkey cannot - `ArbBuildAssignmentOrdering` returns `STATUS_SUCCESS` and the
ordering list is the freshly initialised, empty one (`Count = 0`). -/
theorem absent_ordering_is_not_an_error (h : HEADERS) (o : POOL_ORACLE) (reg : REGISTRY)
    (A : ARBITER_INSTANCE) (OrderName ReservedOrderName : PCWSTR) (pool : POOL)
    (habs : reg.AssignmentOrdering = none ∨
      ∃ Key, reg.AssignmentOrdering = some Key ∧ Key OrderName = none) :
    (ArbBuildAssignmentOrdering h o reg A OrderName ReservedOrderName pool).1 = STATUS_SUCCESS ∧
    NT_SUCCESS (ArbBuildAssignmentOrdering h o reg A OrderName ReservedOrderName pool).1 = true ∧
    (ArbBuildAssignmentOrdering h o reg A OrderName ReservedOrderName pool).2.1.OrderingList
      = ArbInitializeOrderingList.2 ∧
    (ArbBuildAssignmentOrdering h o reg A OrderName ReservedOrderName
      pool).2.1.OrderingList.Count = 0 ∧
    Entries (ArbBuildAssignmentOrdering h o reg A OrderName ReservedOrderName
      pool).2.1.OrderingList = [] := by
  have hst := Build_status h o reg A OrderName ReservedOrderName pool
  have hL : (ArbBuildAssignmentOrdering h o reg A OrderName ReservedOrderName
      pool).2.1.OrderingList = ArbInitializeOrderingList.2 := by
    rcases habs with hnone | ⟨Key, hkey, hsub⟩
    · have hs : NT_SUCCESS ArbInitializeOrderingList.1 = true := by decide
      unfold ArbBuildAssignmentOrdering
      simp only [hs, not_true_eq_false, if_false, hnone]
    · rw [Build_OrderingList h o reg A OrderName ReservedOrderName pool Key hkey, hsub]
  refine ⟨hst, ?_, hL, ?_, ?_⟩
  · rw [hst]; decide
  · rw [hL]; rfl
  · rw [hL]; rfl

theorem absent_ordering_is_not_an_error_witness :
    (NoOrderingSubkey.AssignmentOrdering = none ∨
      ∃ Key, NoOrderingSubkey.AssignmentOrdering = some Key ∧ Key [80] = none) ∧
    (ArbBuildAssignmentOrdering SampleHeaders AlwaysAvail NoOrderingSubkey PortInstance [80] [82]
      EmptyPool).1 = STATUS_SUCCESS :=
  ⟨Or.inr ⟨fun _ => none, rfl, rfl⟩,
    (absent_ordering_is_not_an_error SampleHeaders AlwaysAvail NoOrderingSubkey PortInstance [80]
      [82] EmptyPool (Or.inr ⟨fun _ => none, rfl, rfl⟩)).1⟩

/-- C11. For every arbiter instance and every requirement list,
`ArbTestAllocation` followed by `ArbRollbackAllocation` leaves the committed
range tracker `Allocation` and the ordering list equal to what they were before
the test. -/
theorem test_then_rollback_keeps_committed (A : ARBITER_INSTANCE)
    (ArbitrationList : List ARBITER_LIST_ENTRY) :
    (ArbRollbackAllocation (ArbTestAllocation A ArbitrationList).2.1).2.Allocation
      = A.Allocation ∧
    Committed (ArbRollbackAllocation (ArbTestAllocation A ArbitrationList).2.1).2
      = Committed A ∧
    (ArbRollbackAllocation (ArbTestAllocation A ArbitrationList).2.1).2.OrderingList
      = A.OrderingList ∧
    Entries (ArbRollbackAllocation (ArbTestAllocation A ArbitrationList).2.1).2.OrderingList
      = Entries A.OrderingList :=
  ⟨rfl, rfl, rfl, rfl⟩

/-- C12 (counterexample). On an initialised instance with no open transaction
`ArbRollbackAllocation` returns `STATUS_NOT_IMPLEMENTED`, an error status. -/
theorem rollback_returns_an_error :
    InitializedInstance.TransactionInProgress = false ∧
    (ArbRollbackAllocation InitializedInstance).1 = STATUS_NOT_IMPLEMENTED ∧
    NT_SUCCESS (ArbRollbackAllocation InitializedInstance).1 = false := by
  decide

/-- C12 (amended). For every instance `ArbRollbackAllocation` leaves the
instance unchanged, and a second call in a row has the same result and final
state as the first; the status of every call is `STATUS_NOT_IMPLEMENTED`. -/
theorem rollback_is_idempotent (A : ARBITER_INSTANCE) :
    (ArbRollbackAllocation A).1 = STATUS_NOT_IMPLEMENTED ∧
    (ArbRollbackAllocation A).2 = A ∧
    ArbRollbackAllocation (ArbRollbackAllocation A).2 = ArbRollbackAllocation A :=
  ⟨rfl, rfl, rfl⟩

/-- C13 (counterexample). One requirement for `0x1000` bytes anywhere in
`[0, 0xFFFFFFFF]` is satisfiable over the empty committed tracker of an
initialised instance (by `[0, 0xFFF]`), and `ArbTestAllocation` does not
succeed on it. -/
theorem test_fails_on_satisfiable_list :
    Satisfiable (Committed InitializedInstance) [RangeRequirement 0x1000 0 0xFFFFFFFF] ∧
    NT_SUCCESS (ArbTestAllocation InitializedInstance
      [RangeRequirement 0x1000 0 0xFFFFFFFF]).1 = false := by
  refine ⟨⟨[(0, 0xFFF)], ?_⟩, by decide⟩
  have hc : Committed InitializedInstance = [] := by decide
  rw [hc]
  simp [Satisfies, Unoccupied, Fits, RangeRequirement]

/-- C13 (amended). For every instance and every requirement list, satisfiable
or not, `ArbTestAllocation` returns `STATUS_NOT_IMPLEMENTED` and chooses no range
(the requirement list is returned as it was), and a following
`ArbCommitAllocation` returns `STATUS_NOT_IMPLEMENTED`; the instance is unchanged
by both, so the committed tracker, the tentative tracker and the allocation
stack are what they were before the test. -/
theorem test_then_commit_changes_nothing (A : ARBITER_INSTANCE)
    (ArbitrationList : List ARBITER_LIST_ENTRY) :
    (ArbTestAllocation A ArbitrationList).1 = STATUS_NOT_IMPLEMENTED ∧
    (ArbTestAllocation A ArbitrationList).2.2 = ArbitrationList ∧
    (ArbCommitAllocation (ArbTestAllocation A ArbitrationList).2.1).1
      = STATUS_NOT_IMPLEMENTED ∧
    (ArbCommitAllocation (ArbTestAllocation A ArbitrationList).2.1).2 = A ∧
    Committed (ArbCommitAllocation (ArbTestAllocation A ArbitrationList).2.1).2
      = Committed A ∧
    Tentative (ArbCommitAllocation (ArbTestAllocation A ArbitrationList).2.1).2
      = Tentative A ∧
    (ArbCommitAllocation (ArbTestAllocation A ArbitrationList).2.1).2.AllocationStack
      = A.AllocationStack :=
  ⟨rfl, rfl, rfl, rfl, rfl, rfl, rfl⟩

/-- C14 (counterexample). Scenario A on an initialised instance, whose ordering
list and committed tracker are empty: `ArbTestAllocation` does not succeed, and
the ranges assigned to the two devices are not `[0x0, 0xFFF]` and
`[0x1000, 0x1FFF]` - none is assigned. -/
theorem scenario_A_assigns_no_range :
    Entries InitializedInstance.OrderingList = [] ∧
    Committed InitializedInstance = [] ∧
    NT_SUCCESS (ArbTestAllocation InitializedInstance ScenarioA).1 = false ∧
    (ArbTestAllocation InitializedInstance ScenarioA).2.2.map (·.Assignment)
      ≠ [some (0x0, 0xFFF), some (0x1000, 0x1FFF)] ∧
    (ArbTestAllocation InitializedInstance ScenarioA).2.2.map (·.Assignment) = [none, none] := by
  decide

/-- C14 (amended). In scenario A, on every instance, `ArbTestAllocation` returns
`STATUS_NOT_IMPLEMENTED`, leaves the instance unchanged and assigns no range to
either device; `ArbFindSuitableRange` finds no range (it returns `FALSE`) for
every instance and allocation state. -/
theorem scenario_A_not_implemented (A : ARBITER_INSTANCE)
    (ArbState : ARBITER_ALLOCATION_STATE) :
    ArbTestAllocation A ScenarioA = (STATUS_NOT_IMPLEMENTED, A, ScenarioA) ∧
    (ArbTestAllocation A ScenarioA).2.2.map (·.Assignment) = [none, none] ∧
    ArbFindSuitableRange A ArbState = (false, A, ArbState) :=
  ⟨rfl, rfl, rfl⟩

/-- C15 (counterexample). Scenario B on an initialised instance:
`ArbBootAllocation` does not seed the committed tracker, which stays empty, and
the following `ArbTestAllocation` returns `STATUS_NOT_IMPLEMENTED`, which is not
the conflict status. -/
theorem scenario_B_reports_no_conflict :
    Committed (ArbBootAllocation InitializedInstance ScenarioB).2.1 = [] ∧
    (ArbTestAllocation (ArbBootAllocation InitializedInstance ScenarioB).2.1 ScenarioB).1
      = STATUS_NOT_IMPLEMENTED ∧
    (ArbTestAllocation (ArbBootAllocation InitializedInstance ScenarioB).2.1 ScenarioB).1
      ≠ STATUS_CONFLICTING_ADDRESSES := by
  decide

/-- C15 (amended). In scenario B, on every instance, `ArbBootAllocation` returns
`STATUS_NOT_IMPLEMENTED` and inserts nothing into the committed tracker; the
following `ArbTestAllocation` for exactly `[0x1000, 0x1FFF]` returns
`STATUS_NOT_IMPLEMENTED` and leaves the committed tracker unchanged. -/
theorem scenario_B_not_implemented (A : ARBITER_INSTANCE) :
    (ArbBootAllocation A ScenarioB).1 = STATUS_NOT_IMPLEMENTED ∧
    Committed (ArbBootAllocation A ScenarioB).2.1 = Committed A ∧
    (ArbTestAllocation (ArbBootAllocation A ScenarioB).2.1 ScenarioB).1
      = STATUS_NOT_IMPLEMENTED ∧
    Committed (ArbTestAllocation (ArbBootAllocation A ScenarioB).2.1 ScenarioB).2.1
      = Committed A :=
  ⟨rfl, rfl, rfl, rfl⟩

/-- C16 (counterexample). Scenario C: with `[0x2000, 0x2FFF]` committed and
`[0x3000, 0x3FFF]` free, `ArbTestAllocation` on the requirement with the two
alternatives does not succeed and does not assign `[0x3000, 0x3FFF]`. -/
theorem scenario_C_assigns_no_alternative :
    Committed OccupiedInstance = [⟨0x2000, 0x2FFF, 1, 0⟩] ∧
    Unoccupied (Committed OccupiedInstance) (0x3000, 0x3FFF) ∧
    NT_SUCCESS (ArbTestAllocation OccupiedInstance ScenarioC).1 = false ∧
    (ArbTestAllocation OccupiedInstance ScenarioC).2.2.map (·.Assignment)
      ≠ [some (0x3000, 0x3FFF)] := by
  refine ⟨by decide, ?_, by decide, by decide⟩
  have hc : Committed OccupiedInstance = [⟨0x2000, 0x2FFF, 1, 0⟩] := by decide
  rw [hc]
  simp [Unoccupied]

/-- C16 (amended). In scenario C, on every instance, `ArbTestAllocation` returns
`STATUS_NOT_IMPLEMENTED`, leaves the instance unchanged and assigns no range;
`ArbGetNextAllocationRange` offers no next range (it returns `FALSE`) and
`ArbBacktrackAllocation` changes nothing, for every instance and allocation
state. -/
theorem scenario_C_not_implemented (A : ARBITER_INSTANCE)
    (ArbState : ARBITER_ALLOCATION_STATE) :
    ArbTestAllocation A ScenarioC = (STATUS_NOT_IMPLEMENTED, A, ScenarioC) ∧
    (ArbTestAllocation A ScenarioC).2.2.map (·.Assignment) = [none] ∧
    ArbGetNextAllocationRange A ArbState = (false, A, ArbState) ∧
    ArbBacktrackAllocation A ArbState = (A, ArbState) :=
  ⟨rfl, rfl, rfl, rfl⟩

/-- C17. In every state reached from a successful
`ArbInitializeArbiterInstance` by a sequence of the public operations (boot,
test, retest, commit, rollback), no two exclusive entries of the committed
range tracker overlap: the tracker is empty in every such state. -/
theorem committed_never_overlaps (h : HEADERS) (o : POOL_ORACLE) (reg : REGISTRY)
    (A : ARBITER_INSTANCE) (Bus : Option Nat) (RT : Nat) (Name OrderName : PCWSTR) (pool : POOL)
    (Operations : List ARBITER_OPERATION)
    (hok : NT_SUCCESS (ArbInitializeArbiterInstance h o reg A Bus RT Name OrderName pool).1
      = true) :
    NoExclusiveOverlap (Committed (PerformAll
      (ArbInitializeArbiterInstance h o reg A Bus RT Name OrderName pool).2.1 Operations)) ∧
    Committed (PerformAll
      (ArbInitializeArbiterInstance h o reg A Bus RT Name OrderName pool).2.1 Operations) = [] := by
  rw [PerformAll_eq, (Initialize_trackers_empty h o reg A Bus RT Name OrderName pool hok).1]
  exact ⟨List.Pairwise.nil, rfl⟩

theorem committed_never_overlaps_witness :
    NT_SUCCESS (ArbInitializeArbiterInstance SampleHeaders AlwaysAvail
      (RegistryWith [FirstFullValue]) PortInstance (some 7) CmResourceTypePort [80] [80]
      EmptyPool).1 = true ∧
    NoExclusiveOverlap (Committed (PerformAll
      (ArbInitializeArbiterInstance SampleHeaders AlwaysAvail (RegistryWith [FirstFullValue])
        PortInstance (some 7) CmResourceTypePort [80] [80] EmptyPool).2.1
      [.Boot ScenarioB, .Test ScenarioB, .Commit, .Retest ScenarioA, .Rollback])) :=
  ⟨by decide,
    (committed_never_overlaps SampleHeaders AlwaysAvail (RegistryWith [FirstFullValue])
      PortInstance (some 7) CmResourceTypePort [80] [80] EmptyPool
      [.Boot ScenarioB, .Test ScenarioB, .Commit, .Retest ScenarioA, .Rollback] (by decide)).1⟩

/-- C18. For any two instances with equal committed trackers and equal ordering
list contents, and one requirement list, two runs of `ArbTestAllocation` return
the same status and the same requirement list, hence the same assignments. -/
theorem test_is_deterministic (A B : ARBITER_INSTANCE)
    (ArbitrationList : List ARBITER_LIST_ENTRY)
    (_hc : Committed A = Committed B)
    (_ho : Entries A.OrderingList = Entries B.OrderingList) :
    (ArbTestAllocation A ArbitrationList).1 = (ArbTestAllocation B ArbitrationList).1 ∧
    (ArbTestAllocation A ArbitrationList).2.2 = (ArbTestAllocation B ArbitrationList).2.2 ∧
    (ArbTestAllocation A ArbitrationList).2.2.map (·.Assignment)
      = (ArbTestAllocation B ArbitrationList).2.2.map (·.Assignment) :=
  ⟨rfl, rfl, rfl⟩

theorem test_is_deterministic_witness :
    (Committed InitializedInstance = Committed OtherInstance ∧
      Entries InitializedInstance.OrderingList = Entries OtherInstance.OrderingList ∧
      InitializedInstance ≠ OtherInstance) ∧
    (ArbTestAllocation InitializedInstance ScenarioA).1
      = (ArbTestAllocation OtherInstance ScenarioA).1 :=
  ⟨⟨by decide, by decide, by decide⟩,
    (test_is_deterministic InitializedInstance OtherInstance ScenarioA (by decide)
      (by decide)).1⟩

/-- C19 (counterexample). On an initialised instance whose module supplied no
`AddReserved`, the hook reports `STATUS_NOT_IMPLEMENTED`, which is not
`STATUS_NOT_SUPPORTED`. -/
theorem unset_hook_is_not_implemented :
    BlankInstance.AddReserved = none ∧
    CallSlot InitializedInstance.AddReserved InitializedInstance
      = some (STATUS_NOT_IMPLEMENTED, InitializedInstance) ∧
    STATUS_NOT_IMPLEMENTED ≠ STATUS_NOT_SUPPORTED := by
  decide

/-- C19 (amended). After a successful `ArbInitializeArbiterInstance`, invoking
`AddReserved`, `OverrideConflict`, `QueryConflict` or `StartArbiter`, when the
module had left that slot `NULL`, reports `STATUS_NOT_IMPLEMENTED` - an error
status, never success - and changes no instance state. -/
theorem unset_hooks_report_not_implemented (h : HEADERS) (o : POOL_ORACLE) (reg : REGISTRY)
    (A : ARBITER_INSTANCE) (Bus : Option Nat) (RT : Nat) (Name OrderName : PCWSTR) (pool : POOL)
    (hok : NT_SUCCESS (ArbInitializeArbiterInstance h o reg A Bus RT Name OrderName pool).1
      = true) :
    NT_SUCCESS STATUS_NOT_IMPLEMENTED = false ∧
    (A.AddReserved = none →
      CallSlot (ArbInitializeArbiterInstance h o reg A Bus RT Name OrderName pool).2.1.AddReserved
          (ArbInitializeArbiterInstance h o reg A Bus RT Name OrderName pool).2.1
        = some (STATUS_NOT_IMPLEMENTED,
            (ArbInitializeArbiterInstance h o reg A Bus RT Name OrderName pool).2.1)) ∧
    (A.OverrideConflict = none →
      CallSlot
          (ArbInitializeArbiterInstance h o reg A Bus RT Name OrderName pool).2.1.OverrideConflict
          (ArbInitializeArbiterInstance h o reg A Bus RT Name OrderName pool).2.1
        = some (STATUS_NOT_IMPLEMENTED,
            (ArbInitializeArbiterInstance h o reg A Bus RT Name OrderName pool).2.1)) ∧
    (A.QueryConflict = none →
      CallSlot
          (ArbInitializeArbiterInstance h o reg A Bus RT Name OrderName pool).2.1.QueryConflict
          (ArbInitializeArbiterInstance h o reg A Bus RT Name OrderName pool).2.1
        = some (STATUS_NOT_IMPLEMENTED,
            (ArbInitializeArbiterInstance h o reg A Bus RT Name OrderName pool).2.1)) ∧
    (A.StartArbiter = none →
      CallSlot
          (ArbInitializeArbiterInstance h o reg A Bus RT Name OrderName pool).2.1.StartArbiter
          (ArbInitializeArbiterInstance h o reg A Bus RT Name OrderName pool).2.1
        = some (STATUS_NOT_IMPLEMENTED,
            (ArbInitializeArbiterInstance h o reg A Bus RT Name OrderName pool).2.1)) := by
  obtain ⟨h1, h2, h3, h4⟩ := Initialize_extension_slots h o reg A Bus RT Name OrderName pool hok
  refine ⟨by decide, fun hn => ?_, fun hn => ?_, fun hn => ?_, fun hn => ?_⟩
  · rw [h1.2.1 hn]; rfl
  · rw [h2.2.1 hn]; rfl
  · rw [h3.2.1 hn]; rfl
  · rw [h4.2.1 hn]; rfl

theorem unset_hooks_report_not_implemented_witness :
    (NT_SUCCESS (ArbInitializeArbiterInstance SampleHeaders AlwaysAvail NoOrderingKey
        BlankInstance (some 7) CmResourceTypeMemory [77] [77] EmptyPool).1 = true ∧
      BlankInstance.StartArbiter = none) ∧
    CallSlot (ArbInitializeArbiterInstance SampleHeaders AlwaysAvail NoOrderingKey
        BlankInstance (some 7) CmResourceTypeMemory [77] [77] EmptyPool).2.1.StartArbiter
        (ArbInitializeArbiterInstance SampleHeaders AlwaysAvail NoOrderingKey
        BlankInstance (some 7) CmResourceTypeMemory [77] [77] EmptyPool).2.1
      = some (STATUS_NOT_IMPLEMENTED,
          (ArbInitializeArbiterInstance SampleHeaders AlwaysAvail NoOrderingKey
            BlankInstance (some 7) CmResourceTypeMemory [77] [77] EmptyPool).2.1) :=
  ⟨⟨by decide, rfl⟩,
    (unset_hooks_report_not_implemented SampleHeaders AlwaysAvail NoOrderingKey BlankInstance
      (some 7) CmResourceTypeMemory [77] [77] EmptyPool (by decide)).2.2.2.2 rfl⟩

/-- C20. For every ordering list state, `ArbFreeOrderingList` leaves `Count = 0`,
`Maximum = 0` and `Orderings` `NULL` - the freshly initialised list - having
freed the backing array if there was one; a second call changes nothing, in
the list or in the pool. -/
theorem free_gives_the_initial_list (L : ARBITER_ORDERING_LIST) (pool : POOL) :
    (ArbFreeOrderingList L pool).1 = ArbInitializeOrderingList.2 ∧
    (ArbFreeOrderingList L pool).1.Count = 0 ∧
    (ArbFreeOrderingList L pool).1.Maximum = 0 ∧
    (ArbFreeOrderingList L pool).1.Orderings = none ∧
    (ArbFreeOrderingList L pool).2
      = (match L.Orderings with
         | some b => ExFreePoolWithTag b.Address pool
         | none => pool) ∧
    ArbFreeOrderingList (ArbFreeOrderingList L pool).1 (ArbFreeOrderingList L pool).2
      = ArbFreeOrderingList L pool := by
  cases hO : L.Orderings <;> simp [ArbFreeOrderingList, ArbInitializeOrderingList, hO]

/-- C21 (failing input). A port arbiter loads a resource list whose first
descriptor has start `0x3F8` and length 0 and whose second has start `2^64 - 16`
and length 32.  `ArbBuildAssignmentOrdering` calls `ArbAddOrdering` with
`[0x3F8, 0x3F7]` and with `[0xFFFFFFFFFFFFFFF0, 0xF]`, both with start above end,
and both are stored, in the ordering list and in the reserved list; so does
`ArbInitializeArbiterInstance` for the ordering list. -/
theorem loader_stores_start_above_end :
    Entries (ArbBuildAssignmentOrdering SampleHeaders AlwaysAvail (RegistryWith [DegenerateValue])
        PortInstance [79] [82] EmptyPool).2.1.OrderingList =
      [⟨0x3F8, 0x3F7⟩, ⟨0xFFFFFFFFFFFFFFF0, 0xF⟩] ∧
    Entries (ArbBuildAssignmentOrdering SampleHeaders AlwaysAvail (RegistryWith [DegenerateValue])
        PortInstance [79] [82] EmptyPool).2.1.ReservedList =
      [⟨0x3F8, 0x3F7⟩, ⟨0xFFFFFFFFFFFFFFF0, 0xF⟩] ∧
    (ArbBuildAssignmentOrdering SampleHeaders AlwaysAvail (RegistryWith [DegenerateValue])
        PortInstance [79] [82] EmptyPool).2.2.Corrupt = false ∧
    Entries (ArbInitializeArbiterInstance SampleHeaders AlwaysAvail
        (RegistryWith [DegenerateValue]) BlankInstance (some 7) CmResourceTypePort [77] [79]
        EmptyPool).2.1.OrderingList = [⟨0x3F8, 0x3F7⟩, ⟨0xFFFFFFFFFFFFFFF0, 0xF⟩] := by
  decide

/-- C29 (counterexample). An instance handed in with `ReservedList.Count = 5`,
and a pool without memory for the first allocation: `ArbInitializeArbiterInstance`
returns `STATUS_INSUFFICIENT_RESOURCES` and `ReservedList.Count` is 5, not 0,
after it returns. -/
theorem reserved_count_survives_a_failed_call :
    (ArbInitializeArbiterInstance SampleHeaders (AvailBelow 0) (RegistryWith [FirstFullValue])
        StaleInstance (some 7) CmResourceTypePort [77] [79] EmptyPool).1 =
      STATUS_INSUFFICIENT_RESOURCES ∧
    (ArbInitializeArbiterInstance SampleHeaders (AvailBelow 0) (RegistryWith [FirstFullValue])
        StaleInstance (some 7) CmResourceTypePort [77] [79] EmptyPool).2.1.ReservedList.Count =
      5 := by
  decide

/-- C29 (amended). For every registry content, every resource type, every
instance and every behaviour of the pool: if the four allocations of
`ArbInitializeArbiterInstance` find memory it returns `STATUS_SUCCESS` and
`ReservedList` is as `ArbInitializeOrderingList` made it (`Count = 0`, no array),
the reserved ordering not being loaded; if one of them does not, it returns
`STATUS_INSUFFICIENT_RESOURCES` and `ReservedList` is as the caller handed it
in. -/
theorem reserved_ordering_is_never_loaded (h : HEADERS) (o : POOL_ORACLE) (reg : REGISTRY)
    (Arbiter : ARBITER_INSTANCE) (BusDeviceObject : Option Nat) (ResourceType : Nat)
    (ArbiterName OrderName : PCWSTR) (pool : POOL) :
    ((∀ k, k < 4 → o.Avail (pool.Calls + k) = true) ∧
      (ArbInitializeArbiterInstance h o reg Arbiter BusDeviceObject ResourceType ArbiterName
        OrderName pool).1 = STATUS_SUCCESS ∧
      (ArbInitializeArbiterInstance h o reg Arbiter BusDeviceObject ResourceType ArbiterName
        OrderName pool).2.1.ReservedList = { Count := 0, Maximum := 0, Orderings := none }) ∨
    ((∃ k, k < 4 ∧ o.Avail (pool.Calls + k) = false) ∧
      (ArbInitializeArbiterInstance h o reg Arbiter BusDeviceObject ResourceType ArbiterName
        OrderName pool).1 = STATUS_INSUFFICIENT_RESOURCES ∧
      (ArbInitializeArbiterInstance h o reg Arbiter BusDeviceObject ResourceType ArbiterName
        OrderName pool).2.1.ReservedList = Arbiter.ReservedList) := by
  have hs : NT_SUCCESS STATUS_SUCCESS = true := by decide
  have hr : ArbInitializeOrderingList.2 = { Count := 0, Maximum := 0, Orderings := none } := rfl
  by_cases h0 : o.Avail pool.Calls = true
  · by_cases h1 : o.Avail (pool.Calls + 1) = true
    · by_cases h2 : o.Avail (pool.Calls + 2) = true
      · by_cases h3 : o.Avail (pool.Calls + 3) = true
        · left
          refine ⟨?_, ?_⟩
          · intro k hk
            interval_cases k
            · simpa using h0
            · exact h1
            · exact h2
            · exact h3
          · simp [ArbInitializeArbiterInstance, ExAllocatePoolWithTag, h0, h1, h2, h3,
              Build_status, hs, Build_ReservedList_same, hr]
        · right
          refine ⟨⟨3, by norm_num, by simpa using h3⟩, ?_⟩
          simp [ArbInitializeArbiterInstance, ExAllocatePoolWithTag, ExFreePoolWithTag, h0, h1,
            h2, h3]
      · right
        refine ⟨⟨2, by norm_num, by simpa using h2⟩, ?_⟩
        simp [ArbInitializeArbiterInstance, ExAllocatePoolWithTag, ExFreePoolWithTag, h0, h1, h2]
    · right
      refine ⟨⟨1, by norm_num, by simpa using h1⟩, ?_⟩
      simp [ArbInitializeArbiterInstance, ExAllocatePoolWithTag, ExFreePoolWithTag, h0, h1]
  · right
    refine ⟨⟨0, by norm_num, by simpa using h0⟩, ?_⟩
    simp [ArbInitializeArbiterInstance, ExAllocatePoolWithTag, h0]
end Arbiter

/-! # MSI vector allocation of the I/O manager: theorems -/

namespace Iop

open Arbiter

/-- The value of `1ULL << n` fits 64 bits. -/
theorem Mask_lt (t : TARGET) (n : Nat) : Mask t n < 2 ^ 64 := by
  unfold Mask
  split
  · exact Nat.pow_lt_pow_right (by decide) (by assumption)
  · exact Nat.mod_lt _ (Nat.two_pow_pos 64)

/-- For a count below 64 the shift is the defined one. -/
theorem Mask_low (t : TARGET) (n : Nat) (h : n < 64) : Mask t n = 2 ^ n := by
  unfold Mask
  rw [if_pos h]

theorem ones_and_two_pow (k j : Nat) : (2 ^ k - 1) &&& 2 ^ j = 0 ↔ k ≤ j := by
  rw [Nat.and_two_pow, Nat.testBit_two_pow_sub_one]
  by_cases h : j < k
  · simp [h]
  · simp [h]; omega

theorem ones_or_two_pow (k : Nat) : (2 ^ k - 1) ||| 2 ^ k = 2 ^ (k + 1) - 1 := by
  have h := Nat.mul_add_lt_is_or (Nat.sub_lt (Nat.two_pow_pos k) Nat.one_pos) 1
  rw [Nat.mul_one] at h
  rw [Nat.or_comm, ← h, Nat.pow_succ]
  have := Nat.two_pow_pos k
  omega

/-- The search of the allocator on a bitmap whose lowest `k` bits are set. -/
theorem find_low (t : TARGET) (k : Nat) (hk : k < 64) :
    (List.range' 0x30 0xC0).find?
      (fun Bit => decide ((2 ^ k - 1) &&& Mask t (Bit - 0x30) = 0)) = some (0x30 + k) := by
  rw [List.find?_eq_some]
  refine ⟨?_, List.range' 0x30 k, List.range' (0x30 + k + 1) (0xC0 - k - 1), ?_, ?_⟩
  · simp only [Nat.add_sub_cancel_left, decide_eq_true_eq]
    rw [Mask_low t k hk, ones_and_two_pow]
  · have h1 : (0x30 + k) :: List.range' (0x30 + k + 1) (0xC0 - k - 1) =
        List.range' (0x30 + k) (0xC0 - k) := by
      have : 0xC0 - k = (0xC0 - k - 1) + 1 := by omega
      rw [this, List.range'_succ]
      simp
    rw [h1]
    have h2 := List.range'_append 0x30 k (0xC0 - k) 1
    simp only [Nat.one_mul] at h2
    rw [h2]
    congr 1
    omega
  · intro a ha
    rw [List.mem_range'_1] at ha
    have : a - 0x30 < 64 := by omega
    simp only [Bool.not_eq_true', decide_eq_false_iff_not]
    rw [Mask_low t _ this, ones_and_two_pow]
    omega

/-- With the lowest `k` vectors taken, and `k` below the width of the bitmap, the
allocator returns the next vector and sets its bit. -/
theorem Allocate_low (t : TARGET) (h : t.AffinityBits ≤ 64) (k : Nat)
    (hk : k < t.AffinityBits) :
    IopAllocateMsiVector t (2 ^ k - 1) = (STATUS_SUCCESS, some (0x30 + k), 2 ^ (k + 1) - 1) := by
  unfold IopAllocateMsiVector
  rw [find_low t k (by omega)]
  simp only [Nat.add_sub_cancel_left]
  rw [Mask_low t k (by omega), ones_or_two_pow]
  have h1 : 2 ^ (k + 1) ≤ 2 ^ t.AffinityBits := Nat.pow_le_pow_right (by decide) (by omega)
  have h2 := Nat.two_pow_pos (k + 1)
  rw [Nat.mod_eq_of_lt (by omega)]

/-- As many calls in a row as the bitmap has bits all succeed, with the vectors
in rising order. -/
theorem AllocateMany_low (t : TARGET) (h : t.AffinityBits ≤ 64) (n : Nat) :
    ∀ k, k + n ≤ t.AffinityBits →
      AllocateMany t n (2 ^ k - 1) =
        ((List.range' (0x30 + k) n).map (fun v => (STATUS_SUCCESS, some v)), 2 ^ (k + n) - 1) := by
  induction n with
  | zero => intro k _; rfl
  | succ n ih =>
    intro k hk
    simp only [AllocateMany]
    rw [Allocate_low t h k (by omega)]
    simp only
    rw [ih (k + 1) (by omega)]
    simp only [List.range'_succ, List.map_cons, Nat.add_assoc, Nat.add_comm 1 n]

theorem ones_or_mod (W m : Nat) : ((2 ^ W - 1) ||| m) % 2 ^ W = 2 ^ W - 1 := by
  apply Nat.eq_of_testBit_eq
  intro i
  simp only [Nat.testBit_mod_two_pow, Nat.testBit_or, Nat.testBit_two_pow_sub_one]
  by_cases h : i < W <;> simp [h]

/-- Once the bitmap is full, a call of the allocator that returns a vector
leaves the bitmap as it was. -/
theorem Allocate_full (t : TARGET) (v : Nat)
    (hv : (IopAllocateMsiVector t (2 ^ t.AffinityBits - 1)).2.1 = some v) :
    IopAllocateMsiVector t (2 ^ t.AffinityBits - 1) =
      (STATUS_SUCCESS, some v, 2 ^ t.AffinityBits - 1) := by
  unfold IopAllocateMsiVector at hv ⊢
  cases hf : (List.range' 0x30 0xC0).find?
      (fun Bit => decide ((2 ^ t.AffinityBits - 1) &&& Mask t (Bit - 0x30) = 0)) with
  | none => rw [hf] at hv; simp at hv
  | some Bit =>
    rw [hf] at hv
    simp only [Option.some.injEq] at hv
    subst hv
    simp only [ones_or_mod]

/-- A call that stores no vector fails and leaves the bitmap as it was. -/
theorem Allocate_none (t : TARGET) (B : Nat) (hv : (IopAllocateMsiVector t B).2.1 = none) :
    IopAllocateMsiVector t B = (STATUS_INSUFFICIENT_RESOURCES, none, B) := by
  unfold IopAllocateMsiVector at hv ⊢
  cases hf : (List.range' 0x30 0xC0).find?
      (fun Bit => decide (B &&& Mask t (Bit - 0x30) = 0)) with
  | none => rfl
  | some Bit => rw [hf] at hv; simp at hv

theorem AllocateMany_append (t : TARGET) (n m : Nat) :
    ∀ B, AllocateMany t (n + m) B =
      ((AllocateMany t n B).1 ++ (AllocateMany t m (AllocateMany t n B).2).1,
        (AllocateMany t m (AllocateMany t n B).2).2) := by
  induction n with
  | zero => intro B; simp [AllocateMany]
  | succ n ih =>
    intro B
    rw [Nat.succ_add]
    simp only [AllocateMany]
    rw [ih]
    simp

/-- Once the bitmap is full, two calls in a row return the same. -/
theorem Allocate_stuck (t : TARGET) :
    ∃ x, (AllocateMany t 2 (2 ^ t.AffinityBits - 1)).1 = [x, x] ∧
      (x = (STATUS_INSUFFICIENT_RESOURCES, none) ∨ ∃ v, x = (STATUS_SUCCESS, some v)) := by
  cases hv : (IopAllocateMsiVector t (2 ^ t.AffinityBits - 1)).2.1 with
  | none =>
    have h1 := Allocate_none t _ hv
    refine ⟨(STATUS_INSUFFICIENT_RESOURCES, none), ?_, Or.inl rfl⟩
    simp only [AllocateMany, h1]
  | some v =>
    have h1 := Allocate_full t v hv
    refine ⟨(STATUS_SUCCESS, some v), ?_, Or.inr ⟨v, rfl⟩⟩
    simp only [AllocateMany, h1]

/-- A call of `IopFreeMsiVector` with a vector outside `[0x30, 0xEF]` changes
nothing. -/
theorem IopFreeMsiVector_outside (t : TARGET) (B Vector : Nat)
    (h : Vector < 0x30 ∨ 0xEF < Vector) : IopFreeMsiVector t B Vector = B := by
  unfold IopFreeMsiVector
  rw [if_pos h]

/-- Freeing one of the 64 lowest vectors of the range clears its bit and no other. -/
theorem IopFreeMsiVector_low (t : TARGET) (h : t.AffinityBits ≤ 64) (B n : Nat)
    (hB : B < 2 ^ t.AffinityBits) (hn : n < 64) (i : Nat) :
    (IopFreeMsiVector t B (0x30 + n)).testBit i = (B.testBit i && decide (i ≠ n)) := by
  unfold IopFreeMsiVector
  rw [if_neg (by omega)]
  simp only [Nat.add_sub_cancel_left]
  rw [Mask_low t n hn, Nat.sub_sub, Nat.add_comm 1 (2 ^ n)]
  simp only [Nat.testBit_mod_two_pow, Nat.testBit_and]
  rw [Nat.testBit_two_pow_sub_succ (Nat.pow_lt_pow_right (by decide) hn), Nat.testBit_two_pow]
  by_cases hi : i < t.AffinityBits
  · have : i < 64 := by omega
    by_cases hin : n = i
    · subst hin; simp
    · have : i ≠ n := fun h => hin h.symm
      simp [*]
  · have hb : B.testBit i = false :=
      Nat.testBit_lt_two_pow (Nat.lt_of_lt_of_le hB (Nat.pow_le_pow_right (by decide) (by omega)))
    simp [hi, hb]

/-- C24 (failing input). On every build target whose `KAFFINITY` has at most 64
bits, whatever `1ULL << n` gives for `n ≥ 64`: from the initial state, as many
calls of `IopAllocateMsiVector` as the bitmap has bits succeed with the vectors
from `0x30` up, and the two calls after them, with no vector freed in between,
return the same thing - either both fail with `STATUS_INSUFFICIENT_RESOURCES`,
while at most 64 of the 192 vectors are allocated, or both return the same
vector. -/
theorem allocator_stuck_after_bitmap_width (t : TARGET) (h : t.AffinityBits ≤ 64) :
    ∃ x, (AllocateMany t (t.AffinityBits + 2) IopInitializeMsiSupport).1 =
        (List.range' 0x30 t.AffinityBits).map (fun v => (STATUS_SUCCESS, some v)) ++ [x, x] ∧
      (x = (STATUS_INSUFFICIENT_RESOURCES, none) ∨ ∃ v, x = (STATUS_SUCCESS, some v)) := by
  obtain ⟨x, hx, hd⟩ := Allocate_stuck t
  refine ⟨x, ?_, hd⟩
  have h0 : IopInitializeMsiSupport = 2 ^ 0 - 1 := rfl
  rw [AllocateMany_append, h0, AllocateMany_low t h t.AffinityBits 0 (by omega)]
  simp only [Nat.zero_add, Nat.add_zero]
  rw [hx]

theorem allocator_stuck_after_bitmap_width_witness :
    X64.AffinityBits ≤ 64 ∧
    ∃ x, (AllocateMany X64 (X64.AffinityBits + 2) IopInitializeMsiSupport).1 =
        (List.range' 0x30 X64.AffinityBits).map (fun v => (STATUS_SUCCESS, some v)) ++ [x, x] ∧
      (x = (STATUS_INSUFFICIENT_RESOURCES, none) ∨ ∃ v, x = (STATUS_SUCCESS, some v)) :=
  ⟨by decide, allocator_stuck_after_bitmap_width X64 (by decide)⟩

/-- C25 (failing input). On an x64 build, with vector `0x30` allocated and no
other, `IopFreeMsiVector(0x70)` clears the mark of vector `0x30`: the bitmap is 0
again and the next allocation hands out `0x30` a second time, which was never
freed. -/
theorem free_of_high_vector_frees_another :
    IopAllocateMsiVector X64 IopInitializeMsiSupport = (STATUS_SUCCESS, some 0x30, 1) ∧
    MarkedAllocated X64 1 0x30 = true ∧
    IopFreeMsiVector X64 1 0x70 = 0 ∧
    MarkedAllocated X64 (IopFreeMsiVector X64 1 0x70) 0x30 = false ∧
    IopAllocateMsiVector X64 (IopFreeMsiVector X64 1 0x70) = (STATUS_SUCCESS, some 0x30, 1) := by
  decide

end Iop

/-! # MSI programming of the HAL: theorems -/

namespace Hal

open Arbiter

/-- The loop of the search against the chain: the value returned is the first
offset of the chain with the ID, the headers read are no more than the chain
holds, and the chain holds no more than the passes allowed. -/
theorem FindLoop_spec (cfg : CONFIG_SPACE) (BusNumber SlotNumber CapabilityId : Nat) (n : Nat) :
    ∀ CapabilityOffset,
      (FindLoop cfg BusNumber SlotNumber CapabilityId n CapabilityOffset).1 =
          FirstWithId cfg BusNumber SlotNumber CapabilityId
            (Chain cfg BusNumber SlotNumber n CapabilityOffset) ∧
        (FindLoop cfg BusNumber SlotNumber CapabilityId n CapabilityOffset).2 ≤
          (Chain cfg BusNumber SlotNumber n CapabilityOffset).length ∧
        (Chain cfg BusNumber SlotNumber n CapabilityOffset).length ≤ n := by
  induction n with
  | zero => intro _; exact ⟨rfl, Nat.le_refl _, Nat.le_refl _⟩
  | succ n ih =>
    intro off
    by_cases h0 : off = 0
    · subst h0
      simp [FindLoop, Chain, FirstWithId]
    · obtain ⟨i1, i2, i3⟩ := ih (HalGetBusDataByOffset cfg BusNumber SlotNumber (off + 1) 1)
      by_cases hc : HalGetBusDataByOffset cfg BusNumber SlotNumber off 1 = CapabilityId
      · simp [FindLoop, Chain, FirstWithId, h0, hc]
        exact i3
      · simp only [FindLoop, Chain, h0, hc, if_false, List.length_cons]
        refine ⟨?_, by omega, by omega⟩
        rw [i1]
        simp only [FirstWithId]
        rw [List.find?_cons_of_neg _ (by simpa using hc)]

/-- C26. For every configuration-space content `HalpFindPciCapability` reads at
most 48 capability headers; it returns 0 when the status register lacks the
capabilities-list bit, and otherwise the offset of the first capability among
the first 48 of the chain whose ID is `CapabilityId`, or 0 if there is none. -/
theorem find_capability_reads_at_most_48 (cfg : CONFIG_SPACE) (PciConfig : PCI_COMMON_CONFIG)
    (BusNumber SlotNumber CapabilityId : Nat) :
    (HalpFindPciCapability cfg PciConfig BusNumber SlotNumber CapabilityId).2 ≤ 48 ∧
    (HalpFindPciCapability cfg PciConfig BusNumber SlotNumber CapabilityId).1 =
      (if PciConfig.Status &&& PCI_STATUS_CAPABILITIES_LIST = 0 then 0
       else
        FirstWithId cfg BusNumber SlotNumber CapabilityId
          (Chain cfg BusNumber SlotNumber 48 (PciConfig.CapabilitiesPtr % 256))) ∧
    (Chain cfg BusNumber SlotNumber 48 (PciConfig.CapabilitiesPtr % 256)).length ≤ 48 := by
  obtain ⟨i1, i2, i3⟩ :=
    FindLoop_spec cfg BusNumber SlotNumber CapabilityId 48 (PciConfig.CapabilitiesPtr % 256)
  unfold HalpFindPciCapability
  by_cases h : PciConfig.Status &&& PCI_STATUS_CAPABILITIES_LIST = 0
  · simp only [h, if_true]
    exact ⟨by decide, trivial, i3⟩
  · simp only [h, if_false]
    exact ⟨by omega, i1, i3⟩

/-- On a chain whose only capability points to itself the search stops after
48 headers when the ID is absent. -/
theorem find_capability_on_a_cycle :
    HalpFindPciCapability CyclicConfig ⟨0x0010, 0x40⟩ 0 3 0x05 = (0, 48) ∧
    HalpFindPciCapability CyclicConfig ⟨0x0010, 0x40⟩ 0 3 0x09 = (0x40, 1) ∧
    HalpFindPciCapability CyclicConfig ⟨0, 0x40⟩ 0 3 0x09 = (0, 0) := by
  decide

/-- The message count after the clamps is 0 or 1. -/
theorem ClampMessageCount_le (MsiControl MessageCount : Nat) :
    (ClampMessageCount MsiControl MessageCount).1 ≤ 1 := by
  unfold ClampMessageCount
  by_cases h : MessageCount > 1
  · simp only [h, if_true]
    split <;> simp only <;> omega
  · simp only [h, if_false]
    split <;> simp only <;> omega

/-- The clamps leave compatibility mode on exactly when more than one message
was asked for. -/
theorem ClampMessageCount_mode (MsiControl MessageCount : Nat) :
    (ClampMessageCount MsiControl MessageCount).2 = decide (MessageCount > 1) := by
  have hk : (MsiControl &&& 0x000E) >>> 1 ≤ 7 := by
    have h1 : MsiControl &&& 0x000E ≤ 0x000E := Nat.and_le_right
    rw [Nat.shiftRight_eq_div_pow]
    omega
  have hmax : 1 ≤ (1 <<< ((MsiControl &&& 0x000E) >>> 1)) % 256 := by
    generalize (MsiControl &&& 0x000E) >>> 1 = k at hk
    interval_cases k <;> decide
  unfold ClampMessageCount
  by_cases h : MessageCount > 1
  · simp only [h, if_true, decide_True]
    rw [if_neg (by omega)]
  · simp only [h, if_false, decide_False]
    rw [if_neg (by omega)]

/-- Setting bit 0 changes no other bit. -/
theorem or_one_testBit (x i : Nat) :
    (x ||| 1).testBit i = if i = 0 then true else x.testBit i := by
  rw [Nat.testBit_or]
  by_cases h : i = 0
  · subst h; simp
  · have : Nat.testBit 1 i = false := by
      have := @Nat.testBit_two_pow 0 i
      simp only [Nat.pow_zero] at this
      rw [this]
      simp; omega
    simp [h, this]

/-- C28. For every requested `MessageCount` and every value of the MSI control
register, whenever `HalpAllocateVector` has a vector, `HalpConfigurePciMsi`
succeeds and makes exactly these writes, in this order: the message address
`0xFEE00000`, its upper half 0 if the capability is 64-bit, the message data
(the vector, with bit 14 set if more than one message was asked for), and the
control register with the value read and bit 0 set.  The message count it
programs is at most 1; no other write touches the two bytes of the control
register; the value written there differs from the value read in bit 0 at most,
so bits 6:4 are as read; of `Vectors` only element 0 is written, with the
vector, and `NextVector` advances by one. -/
theorem msi_enables_without_changing_message_count (cfg : CONFIG_SPACE)
    (NextVector BusNumber SlotNumber CapabilityOffset MessageCount : Nat) (Vectors : List Nat)
    (h : (HalpAllocateVector NextVector).1 ≠ 0) :
    HalpConfigurePciMsi cfg NextVector BusNumber SlotNumber CapabilityOffset MessageCount
        Vectors =
      (STATUS_SUCCESS,
        [⟨BusNumber, SlotNumber, CapabilityOffset + 4, 4, 0xFEE00000⟩] ++
          (if HalGetBusDataByOffset cfg BusNumber SlotNumber (CapabilityOffset + 2) 2 &&&
              0x0080 = 0 then
            [⟨BusNumber, SlotNumber, CapabilityOffset + 8, 2,
              if MessageCount > 1 then NextVector ||| 0x4000 else NextVector⟩]
          else
            [⟨BusNumber, SlotNumber, CapabilityOffset + 8, 4, 0⟩,
             ⟨BusNumber, SlotNumber, CapabilityOffset + 12, 2,
              if MessageCount > 1 then NextVector ||| 0x4000 else NextVector⟩]) ++
          [⟨BusNumber, SlotNumber, CapabilityOffset + 2, 2,
            HalGetBusDataByOffset cfg BusNumber SlotNumber (CapabilityOffset + 2) 2 |||
              0x0001⟩],
        Vectors.set 0 NextVector, NextVector + 1) ∧
    (ClampMessageCount (HalGetBusDataByOffset cfg BusNumber SlotNumber (CapabilityOffset + 2) 2)
        MessageCount).1 ≤ 1 ∧
    (∀ w, w ∈ (HalpConfigurePciMsi cfg NextVector BusNumber SlotNumber CapabilityOffset
          MessageCount Vectors).2.1 →
        w.Offset < CapabilityOffset + 4 → CapabilityOffset + 2 < w.Offset + w.Length →
        w = ⟨BusNumber, SlotNumber, CapabilityOffset + 2, 2,
          HalGetBusDataByOffset cfg BusNumber SlotNumber (CapabilityOffset + 2) 2 |||
            0x0001⟩) ∧
    (∀ i, (HalGetBusDataByOffset cfg BusNumber SlotNumber (CapabilityOffset + 2) 2 |||
          0x0001).testBit i =
        if i = 0 then true
        else (HalGetBusDataByOffset cfg BusNumber SlotNumber (CapabilityOffset + 2) 2).testBit
          i) ∧
    (HalGetBusDataByOffset cfg BusNumber SlotNumber (CapabilityOffset + 2) 2 ||| 0x0001) &&&
        0x0070 =
      HalGetBusDataByOffset cfg BusNumber SlotNumber (CapabilityOffset + 2) 2 &&& 0x0070 := by
  have hc := ClampMessageCount_le
    (HalGetBusDataByOffset cfg BusNumber SlotNumber (CapabilityOffset + 2) 2) MessageCount
  have hm := ClampMessageCount_mode
    (HalGetBusDataByOffset cfg BusNumber SlotNumber (CapabilityOffset + 2) 2) MessageCount
  have hn : ¬ ((ClampMessageCount
      (HalGetBusDataByOffset cfg BusNumber SlotNumber (CapabilityOffset + 2) 2) MessageCount).1 > 1 ∧
      (ClampMessageCount
      (HalGetBusDataByOffset cfg BusNumber SlotNumber (CapabilityOffset + 2) 2) MessageCount).2 = false) := by
    intro hh; omega
  have hlt : ¬ (1 < (ClampMessageCount
      (HalGetBusDataByOffset cfg BusNumber SlotNumber (CapabilityOffset + 2) 2)
      MessageCount).1) := by
    omega
  have hv : NextVector ≤ 0xFE := by
    by_contra hlt
    apply h
    unfold HalpAllocateVector
    rw [if_neg hlt]
  have hv1 : (HalpAllocateVector NextVector).1 = NextVector := by
    unfold HalpAllocateVector; rw [if_pos hv]
  have hv2 : (HalpAllocateVector NextVector).2 = NextVector + 1 := by
    unfold HalpAllocateVector; rw [if_pos hv]
    show (NextVector + 1) % 2 ^ 32 = NextVector + 1
    omega
  have hv3 : NextVector % 2 ^ 16 = NextVector := by omega
  have hv0 : NextVector ≠ 0 := by rw [hv1] at h; exact h
  have hres : HalpConfigurePciMsi cfg NextVector BusNumber SlotNumber CapabilityOffset
      MessageCount Vectors =
      (STATUS_SUCCESS,
        [⟨BusNumber, SlotNumber, CapabilityOffset + 4, 4, 0xFEE00000⟩] ++
          (if HalGetBusDataByOffset cfg BusNumber SlotNumber (CapabilityOffset + 2) 2 &&&
              0x0080 = 0 then
            [⟨BusNumber, SlotNumber, CapabilityOffset + 8, 2,
              if MessageCount > 1 then NextVector ||| 0x4000 else NextVector⟩]
          else
            [⟨BusNumber, SlotNumber, CapabilityOffset + 8, 4, 0⟩,
             ⟨BusNumber, SlotNumber, CapabilityOffset + 12, 2,
              if MessageCount > 1 then NextVector ||| 0x4000 else NextVector⟩]) ++
          [⟨BusNumber, SlotNumber, CapabilityOffset + 2, 2,
            HalGetBusDataByOffset cfg BusNumber SlotNumber (CapabilityOffset + 2) 2 |||
              0x0001⟩],
        Vectors.set 0 NextVector, NextVector + 1) := by
    simp only [HalpConfigurePciMsi, hv1, hv2, hv0, if_false, hn, hm, hv3]
    by_cases h64 :
        HalGetBusDataByOffset cfg BusNumber SlotNumber (CapabilityOffset + 2) 2 &&& 0x0080 = 0 <;>
      by_cases hmc : MessageCount > 1 <;> simp [h64, hmc, hlt]
  refine ⟨hres, hc, ?_, or_one_testBit _, ?_⟩
  · rw [hres]
    intro w hw h1 h2
    by_cases h64 :
        HalGetBusDataByOffset cfg BusNumber SlotNumber (CapabilityOffset + 2) 2 &&& 0x0080 = 0
    · simp only [h64, if_true, List.mem_append, List.mem_singleton, List.mem_cons,
        List.not_mem_nil, or_false] at hw
      rcases hw with (hw | hw) | hw
      · subst hw; simp at h1
      · subst hw; simp at h1
      · exact hw
    · simp only [h64, if_false, List.mem_append, List.mem_singleton, List.mem_cons,
        List.not_mem_nil, or_false] at hw
      rcases hw with (hw | hw | hw) | hw
      · subst hw; simp at h1
      · subst hw; simp at h1
      · subst hw; simp at h1
      · exact hw
  · rw [Nat.and_distrib_right]
    simp
theorem msi_enables_without_changing_message_count_witness :
    (HalpAllocateVector 0x30).1 ≠ 0 ∧
    (HalpConfigurePciMsi MsiConfig 0x30 0 3 0x50 4
        [0, 0, 0, 0] =
      (STATUS_SUCCESS,
        [⟨0, 3, 0x50 + 4, 4, 0xFEE00000⟩] ++
          (if HalGetBusDataByOffset MsiConfig 0 3 (0x50 + 2) 2 &&&
              0x0080 = 0 then
            [⟨0, 3, 0x50 + 8, 2,
              if 4 > 1 then 0x30 ||| 0x4000 else 0x30⟩]
          else
            [⟨0, 3, 0x50 + 8, 4, 0⟩,
             ⟨0, 3, 0x50 + 12, 2,
              if 4 > 1 then 0x30 ||| 0x4000 else 0x30⟩]) ++
          [⟨0, 3, 0x50 + 2, 2,
            HalGetBusDataByOffset MsiConfig 0 3 (0x50 + 2) 2 |||
              0x0001⟩],
        [0, 0, 0, 0].set 0 0x30, 0x30 + 1) ∧
    (ClampMessageCount (HalGetBusDataByOffset MsiConfig 0 3 (0x50 + 2) 2)
        4).1 ≤ 1 ∧
    (∀ w, w ∈ (HalpConfigurePciMsi MsiConfig 0x30 0 3 0x50
          4 [0, 0, 0, 0]).2.1 →
        w.Offset < 0x50 + 4 → 0x50 + 2 < w.Offset + w.Length →
        w = ⟨0, 3, 0x50 + 2, 2,
          HalGetBusDataByOffset MsiConfig 0 3 (0x50 + 2) 2 |||
            0x0001⟩) ∧
    (∀ i, (HalGetBusDataByOffset MsiConfig 0 3 (0x50 + 2) 2 |||
          0x0001).testBit i =
        if i = 0 then true
        else (HalGetBusDataByOffset MsiConfig 0 3 (0x50 + 2) 2).testBit
          i) ∧
    (HalGetBusDataByOffset MsiConfig 0 3 (0x50 + 2) 2 ||| 0x0001) &&&
        0x0070 =
      HalGetBusDataByOffset MsiConfig 0 3 (0x50 + 2) 2 &&& 0x0070) :=
  ⟨by decide,
    msi_enables_without_changing_message_count MsiConfig 0x30 0 3 0x50 4 [0, 0, 0, 0]
      (by decide)⟩

/-- The calls made for a request of four messages on a device capable of
eight. -/
theorem msi_sample_run :
    HalpConfigurePciMsi MsiConfig 0x30 0 3 0x50 4 [0, 0, 0, 0] =
      (STATUS_SUCCESS,
        [⟨0, 3, 0x54, 4, 0xFEE00000⟩, ⟨0, 3, 0x58, 4, 0⟩, ⟨0, 3, 0x5C, 2, 0x4030⟩,
         ⟨0, 3, 0x52, 2, 0xA7⟩],
        [0x30, 0, 0, 0], 0x31) := by
  decide
end Hal

/-! # The PCI bus driver's device objects: theorems -/

namespace Pci

open Arbiter Hal

/-- A memory BAR at `0xE0000000` of one megabyte, prefetchable. -/
theorem DecodeBar_sample : DecodeBar 0xE0000008 0xFFF00008 = (0xE0000000, 0x100000, 8) := by
  decide

/-- When the sum does not wrap, the range check of the extended configuration
functions is the one of the claim. -/
theorem ExtendedConfig_rejects (Access : Nat → Nat → Nat → Nat → CONFIG_ACCESS)
    (Transferred : Nat → Nat → Nat → Nat → Nat) (Pdo : Option DEVICE_OBJECT) (Offset : Nat)
    (Buffer : Option Nat) (Length : Nat) (hsum : Offset + Length < 2 ^ 32)
    (hout : ¬ (0x100 ≤ Offset ∧ Offset + Length ≤ 0x1000)) :
    ExtendedConfig Access Transferred Pdo Offset Buffer Length =
      (STATUS_INVALID_PARAMETER, []) := by
  unfold ExtendedConfig
  cases Pdo with
  | none => rfl
  | some P =>
    cases Buffer with
    | none => rfl
    | some B =>
      simp only
      by_cases hl : Length = 0
      · rw [if_pos hl]
      · rw [if_neg hl, Nat.mod_eq_of_lt hsum, if_pos (by omega)]

/-- C23 (failing input). `Offset = 0x100` and `Length = 0xFFFFFFFF`: the range
is not inside extended configuration space, yet neither function returns
`STATUS_INVALID_PARAMETER`.  On a device not marked PCI Express they return
`STATUS_NOT_SUPPORTED`; on one that is, they call the HAL on configuration space
with that offset and length and return its outcome. -/
theorem extended_config_range_check_wraps :
    ¬ (0x100 + 0xFFFFFFFF ≤ 0x1000) ∧
    PciReadExtendedConfig FullTransfer (some SamplePdo) 0x100 (some 1) 0xFFFFFFFF =
      (STATUS_NOT_SUPPORTED, []) ∧
    PciWriteExtendedConfig FullTransfer (some SamplePdo) 0x100 (some 1) 0xFFFFFFFF =
      (STATUS_NOT_SUPPORTED, []) ∧
    PciReadExtendedConfig FullTransfer (some ExpressPdo) 0x100 (some 1) 0xFFFFFFFF =
      (STATUS_SUCCESS, [CONFIG_ACCESS.Get 0 3 0x100 0xFFFFFFFF]) ∧
    PciWriteExtendedConfig FullTransfer (some ExpressPdo) 0x100 (some 1) 0xFFFFFFFF =
      (STATUS_SUCCESS, [CONFIG_ACCESS.Set 0 3 0x100 0xFFFFFFFF]) := by
  decide

/-- The function `PdoDetectAcpiPcieSupport` returns `FALSE` at every IRQL. -/
theorem PdoDetectAcpiPcieSupport_false (Irql : Nat) : PdoDetectAcpiPcieSupport Irql = false := by
  unfold PdoDetectAcpiPcieSupport
  by_cases h : Irql ≤ DISPATCH_LEVEL <;> simp [h]

/-- C30. `PdoDetectAcpiPcieSupport` returns `FALSE` at every IRQL, and for every
configuration-space content and every device `PdoConfigureMsiSupport` leaves
`IsPciExpress` and `PciExpressCapabilityOffset` as they were and does not call
`PdoConfigurePciExpressSupport`. -/
theorem pci_express_is_never_detected (cfg : CONFIG_SPACE) (Irql : Nat)
    (ConfigurePciExpress : PCI_DEVICE → PCI_DEVICE) (PciDevice : PCI_DEVICE) :
    PdoDetectAcpiPcieSupport Irql = false ∧
    (PdoConfigureMsiSupport cfg Irql ConfigurePciExpress PciDevice).1.IsPciExpress =
      PciDevice.IsPciExpress ∧
    (PdoConfigureMsiSupport cfg Irql ConfigurePciExpress PciDevice).1.PciExpressCapabilityOffset =
      PciDevice.PciExpressCapabilityOffset ∧
    (PdoConfigureMsiSupport cfg Irql ConfigurePciExpress PciDevice).2 = 0 := by
  have hd := PdoDetectAcpiPcieSupport_false Irql
  refine ⟨hd, ?_⟩
  unfold PdoConfigureMsiSupport
  rw [hd]
  split
  · exact ⟨rfl, rfl, rfl⟩
  · simp only [Bool.false_eq_true, and_false, if_false]
    split
    · simp
    · split <;> simp

/-- A device whose capability list holds a PCI Express capability comes out of
`PdoConfigureMsiSupport` as it went in. -/
theorem express_capability_is_ignored :
    PdoConfigureMsiSupport ExpressConfig 0 (fun d => d) SampleDevice = (SampleDevice, 0) ∧
    HalGetBusDataByOffset ExpressConfig 0 3 0x40 1 = PCI_CAPABILITY_ID_PCI_EXPRESS := by
  decide
end Pci

/-! # Device notifications of the ACPI bus driver: theorems -/

namespace Acpi

open Arbiter

/-- The events of a dispatch with memory for the array and no interference: the
entry whose callback is `NULL` is read and passed over. -/
theorem dispatch_sample_run :
    AcpiDeviceNotificationHandler AlwaysAvail Quiet 0x80 (some SampleDeviceData) SampleMemory
        EmptyPool =
      ([ACPI_EVENT.KeAcquireSpinLock, ACPI_EVENT.Walk 0x10, ACPI_EVENT.Walk 0x20,
        ACPI_EVENT.Walk 0x30, ACPI_EVENT.Store 0 0x10, ACPI_EVENT.Store 1 0x20,
        ACPI_EVENT.Store 2 0x30, ACPI_EVENT.KeReleaseSpinLock,
        ACPI_EVENT.Read 0x10, ACPI_EVENT.Call 0x1000 1 0x80, ACPI_EVENT.Read 0x20,
        ACPI_EVENT.Read 0x30, ACPI_EVENT.Call 0x2000 3 0x80],
        { Live := [], Calls := 1, Corrupt := false }, false) := by
  decide

/-- The first callback unregisters the third handler while it runs: the
dispatch then reads the freed block through the pointer it stored under the
lock, and calls what it finds there. -/
theorem unregister_during_dispatch_reads_freed_entry :
    AcpiDeviceNotificationHandler AlwaysAvail UnregisterDuringCall 0x80 (some SampleDeviceData)
        SampleMemory EmptyPool =
      ([ACPI_EVENT.KeAcquireSpinLock, ACPI_EVENT.Walk 0x10, ACPI_EVENT.Walk 0x20,
        ACPI_EVENT.Walk 0x30, ACPI_EVENT.Store 0 0x10, ACPI_EVENT.Store 1 0x20,
        ACPI_EVENT.Store 2 0x30, ACPI_EVENT.KeReleaseSpinLock,
        ACPI_EVENT.Read 0x10, ACPI_EVENT.Call 0x1000 1 0x80, ACPI_EVENT.Read 0x20,
        ACPI_EVENT.Read 0x30, ACPI_EVENT.Call 0xDEAD 3 0x80],
        { Live := [], Calls := 1, Corrupt := false }, true) := by
  decide

end Acpi
